import Mathlib

/-! # PCSX2 executable loader: a shallow embedding of `pcsx2/Elfheader.cpp`

The development embeds the size check, the header parser, the text-range
scan and the checksum of `ElfObject`, together with the `Error` value of
`common/Error.cpp`, and proves or refutes the properties stated about them.

Conventions of the embedding:

* the byte buffer `std::vector<u8> data` is a `List Nat`; a read takes each
  byte modulo 256, so every list denotes a buffer;
* `u16`/`u32` values are naturals, with `% 2 ^ 32` written where the source
  computes in 32 bits; `s64` is `Int`; `size_t` is 64 bits wide (the host is
  x86-64), written `% 2 ^ 64`;
* a pointer into the buffer (`proghead`, `secthead`) is `some off` for the
  byte offset `off` of its pointee and `none` for `nullptr`;
* a load through a pointer returns `Except Fault`: an access that does not
  lie wholly inside the buffer, or that goes through `nullptr`, is a fault.
-/

set_option maxRecDepth 8192

namespace Pcsx2

/-! ## `common/Error.h`, `common/Error.cpp` -/

/-- The enumeration `Error::Type`. -/
inductive ErrorType where
  | None
  | Errno
  | Socket
  | User
  | Win32
  | HResult
  deriving DecidableEq, Repr

/-- The class `Error`: its three private members, `m_type` defaulting to `Type::None`. -/
structure Error where
  m_type : ErrorType := ErrorType.None
  m_description : String := ""
  m_message : String := ""
  deriving DecidableEq, Repr

namespace Error

/-- The member `void Error::SetUser(std::string description, std::string message)`. -/
def SetUser (_self : Error) (description : String) (message : String) : Error :=
  { m_type := ErrorType.User, m_description := description, m_message := message }

/-- The member `void Error::SetErrno(int err, std::string message)`, on a build without
`_MSC_VER`. `strerror` stands for `std::strerror` of the C library, `none` being its
null result; the description is `fmt::format("errno {}: {}", err, buf)`. -/
def SetErrno (_self : Error) (strerror : Int → Option String) (err : Int)
    (message : String) : Error :=
  { m_type := ErrorType.Errno
    m_description :=
      match strerror err with
      | some buf => "errno " ++ toString err ++ ": " ++ buf
      | none => "errno " ++ toString err ++ ": <Could not get error message>"
    m_message := message }

/-- The member `void Error::SetUser(int code, std::string message)`; the description is
`fmt::format("User Error #{}", code)`. -/
def SetUserCode (_self : Error) (code : Int) (message : String) : Error :=
  { m_type := ErrorType.User
    m_description := "User Error #" ++ toString code
    m_message := message }

/-- The member `void Error::SetSocket(int err, std::string message)`, on a build without
`_WIN32`: `SetErrno` followed by `m_type = Type::Socket`. -/
def SetSocket (self : Error) (strerror : Int → Option String) (err : Int)
    (message : String) : Error :=
  { self.SetErrno strerror err message with m_type := ErrorType.Socket }

/-- The accessor `Error::GetType`. -/
def GetType (self : Error) : ErrorType := self.m_type

/-- The member `void Error::Clear()`: it empties the description and the message. -/
def Clear (self : Error) : Error :=
  { self with m_description := "", m_message := "" }

/-- The static constructor `Error::CreateNone()`: a default-constructed `Error`. -/
def CreateNone : Error := {}

/-- The member `bool Error::operator==(const Error& e) const`: it compares the type and
the message. -/
def operator_eq (self e : Error) : Bool :=
  decide (self.m_type = e.m_type ∧ self.m_message = e.m_message)

/-- The member `bool Error::operator!=(const Error& e) const`. -/
def operator_ne (self e : Error) : Bool :=
  decide (self.m_type ≠ e.m_type ∨ self.m_message ≠ e.m_message)

/-! The static helpers for setting through a pointer (`Error.cpp`, lines 65-69, 85-95 and
151-153); `errptr` is `none` for a null pointer, and the result is the object it points
to afterwards. -/

/-- The static `void Error::SetErrno(Error* errptr, int err, std::string message)`. -/
def Static.SetErrno (errptr : Option Error) (strerror : Int → Option String) (err : Int)
    (message : String) : Option Error :=
  match errptr with
  | some e => some (e.SetErrno strerror err message)
  | none => none

/-- The static `void Error::SetUser(Error* errptr, int code, std::string message)`. -/
def Static.SetUserCode (errptr : Option Error) (code : Int) (message : String) :
    Option Error :=
  match errptr with
  | some e => some (e.SetUserCode code message)
  | none => none

/-- The static `void Error::SetUser(Error* errptr, std::string description,
std::string message)`. -/
def Static.SetUser (errptr : Option Error) (description : String) (message : String) :
    Option Error :=
  match errptr with
  | some e => some (e.SetUser description message)
  | none => none

/-- The static `void Error::SetSocket(Error* errptr, int err, std::string message)`: its
body is empty. -/
def Static.SetSocket (errptr : Option Error) (_strerror : Int → Option String) (_err : Int)
    (_message : String) : Option Error :=
  errptr

end Error

/-! ## Layout of the ELF32 structures (`Elfheader.h`) -/

/-- Modelled from the spec: `sizeof(ELF_HEADER)` of the absent `Elfheader.h`, the
standard ELF32 header layout of section 6 (52 bytes). -/
def sizeof_ELF_HEADER : Nat := 52

/-- Modelled from the spec: `sizeof(ELF_PHR)` of the absent `Elfheader.h`, eight
`u32` fields of the standard ELF32 program header. -/
def sizeof_ELF_PHR : Nat := 32

/-- Modelled from the spec: `sizeof(ELF_SHR)` of the absent `Elfheader.h`, ten
`u32` fields of the standard ELF32 section header. -/
def sizeof_ELF_SHR : Nat := 40

/-- Modelled from the spec: `sizeof(Elf32_Sym)` of the absent `Elfheader.h`, the
standard 32-bit symbol-table entry. -/
def sizeof_Elf32_Sym : Nat := 16

/-! ## `ElfObject::checkElfSize` -/

/-- The first diagnostic of `checkElfSize`. -/
def diagOverLimit : String := "Illegal ELF file size over 2GB!"

/-- The second diagnostic of `checkElfSize`. -/
def diagDoesNotExist : String := "ELF file does not exist!"

/-- The third diagnostic of `checkElfSize`. -/
def diagUnexpectedEnd : String := "Unexpected end of ELF file."

/-- The message passed to `SetUser` by `checkElfSize`. -/
def isoHint : String :=
  "If loading from an ISO image, this error may be caused by an unsupported ISO image type."

/-- The conversion of an `s64` to the 64-bit unsigned `size_t`, as the usual arithmetic
conversions perform it when an `s64` meets a `size_t` operand. -/
def s64ToSizeT (size : Int) : Nat := (size % (2 ^ 64 : Int)).toNat

/-- The chain of tests of `checkElfSize`, giving the chosen diagnostic, or `none` on the
`return true` branch. `size > 0xfffffff` and `size == -1` compare signed values; in
`size <= sizeof(ELF_HEADER)` the right operand is a `size_t`, so `size` is converted to
unsigned before the comparison. -/
def checkElfSizeDiag (size : Int) : Option String :=
  if size > 0xfffffff then some diagOverLimit
  else if size = -1 then some diagDoesNotExist
  else if s64ToSizeT size ≤ sizeof_ELF_HEADER then some diagUnexpectedEnd
  else none

/-- The function `bool ElfObject::checkElfSize(s64 size, Error* error)`: the result and the
object `error` points to afterwards (`none` for a null pointer). -/
def checkElfSize (size : Int) (error : Option Error) : Bool × Option Error :=
  match checkElfSizeDiag size with
  | none => (true, error)
  | some diagMsg =>
    match error with
    | some e => (false, some (e.SetUser diagMsg isoHint))
    | none => (false, none)

/-! ## Loads from the byte buffer -/

/-- What goes wrong when a load leaves the buffer: a load through `nullptr`, or a load of
`width` bytes at offset `off` that does not lie wholly inside the buffer; and the
`std::length_error` that `std::vector::resize` throws for a size above `max_size()`; and
the general-protection fault of an aligned SSE load or store at an address that is not a
multiple of 16. -/
inductive Fault where
  | nullDeref
  | outOfBounds (off : Nat) (width : Nat)
  | lengthError (size : Nat)
  | misaligned (addr : Nat)
  deriving DecidableEq, Repr

/-- The byte stored at offset `off` (0 past the end; the checked loads never look there). -/
def byteAt (data : List Nat) (off : Nat) : Nat := data.getD off 0 % 256

/-- A load of a little-endian `u8` at byte offset `off`. -/
def readU8 (data : List Nat) (off : Nat) : Except Fault Nat :=
  if off + 1 ≤ data.length then Except.ok (byteAt data off)
  else Except.error (Fault.outOfBounds off 1)

/-- The little-endian `u16` formed by the two bytes at `off`. -/
def u16At (data : List Nat) (off : Nat) : Nat := byteAt data off + 256 * byteAt data (off + 1)

/-- The little-endian `u32` formed by the four bytes at `off`. -/
def u32At (data : List Nat) (off : Nat) : Nat :=
  byteAt data off + 256 * byteAt data (off + 1)
    + 65536 * byteAt data (off + 2) + 16777216 * byteAt data (off + 3)

/-- A load of a little-endian `u16` at byte offset `off`. -/
def readU16 (data : List Nat) (off : Nat) : Except Fault Nat :=
  if off + 2 ≤ data.length then Except.ok (u16At data off)
  else Except.error (Fault.outOfBounds off 2)

/-- A load of a little-endian `u32` at byte offset `off`. -/
def readU32 (data : List Nat) (off : Nat) : Except Fault Nat :=
  if off + 4 ≤ data.length then Except.ok (u32At data off)
  else Except.error (Fault.outOfBounds off 4)

/-- A `u32` load through a pointer into the buffer, `delta` bytes past its pointee. -/
def loadU32 (data : List Nat) (p : Option Nat) (delta : Nat) : Except Fault Nat :=
  match p with
  | none => Except.error Fault.nullDeref
  | some base => readU32 data (base + delta)

/-! ### Fields of `ELF_HEADER`, read through `getHeader()` at the start of the buffer

Modelled from the spec: the field offsets of the absent `Elfheader.h` are those of the
standard ELF32 header layout named in section 6. -/

/-- Field `u16 e_type` of the header. -/
def e_type (data : List Nat) : Except Fault Nat := readU16 data 16
/-- Field `u16 e_machine` of the header. -/
def e_machine (data : List Nat) : Except Fault Nat := readU16 data 18
/-- Field `u32 e_entry` of the header. -/
def e_entry (data : List Nat) : Except Fault Nat := readU32 data 24
/-- Field `u32 e_phoff` of the header. -/
def e_phoff (data : List Nat) : Except Fault Nat := readU32 data 28
/-- Field `u32 e_shoff` of the header. -/
def e_shoff (data : List Nat) : Except Fault Nat := readU32 data 32
/-- Field `u16 e_phentsize` of the header. -/
def e_phentsize (data : List Nat) : Except Fault Nat := readU16 data 42
/-- Field `u16 e_phnum` of the header. -/
def e_phnum (data : List Nat) : Except Fault Nat := readU16 data 44
/-- Field `u16 e_shentsize` of the header. -/
def e_shentsize (data : List Nat) : Except Fault Nat := readU16 data 46
/-- Field `u16 e_shnum` of the header. -/
def e_shnum (data : List Nat) : Except Fault Nat := readU16 data 48
/-- Field `u16 e_shstrndx` of the header. -/
def e_shstrndx (data : List Nat) : Except Fault Nat := readU16 data 50

/-! ### Fields of `ELF_PHR`, `ELF_SHR` and `Elf32_Sym`, as byte offsets inside one entry

Modelled from the spec: the standard ELF32 layouts (`Elfheader.h` is absent). -/

/-- Offset of `p_type` in `ELF_PHR`. -/
def off_p_type : Nat := 0
/-- Offset of `p_vaddr` in `ELF_PHR`. -/
def off_p_vaddr : Nat := 8
/-- Offset of `p_memsz` in `ELF_PHR`. -/
def off_p_memsz : Nat := 20
/-- Offset of `sh_type` in `ELF_SHR`. -/
def off_sh_type : Nat := 4
/-- Offset of `sh_offset` in `ELF_SHR`. -/
def off_sh_offset : Nat := 16
/-- Offset of `sh_size` in `ELF_SHR`. -/
def off_sh_size : Nat := 20
/-- Offset of `sh_link` in `ELF_SHR`. -/
def off_sh_link : Nat := 24
/-- Offset of `st_name` in `Elf32_Sym`. -/
def off_st_name : Nat := 0
/-- Offset of `st_value` in `Elf32_Sym`. -/
def off_st_value : Nat := 4
/-- Offset of `st_info` in `Elf32_Sym`. -/
def off_st_info : Nat := 12

/-- The value of `proghead[i].p_type` for the table at byte offset `base`. -/
def p_type (data : List Nat) (base i : Nat) : Nat :=
  u32At data (base + (sizeof_ELF_PHR * i + off_p_type))

/-- The value of `proghead[i].p_vaddr` for the table at byte offset `base`. -/
def p_vaddr (data : List Nat) (base i : Nat) : Nat :=
  u32At data (base + (sizeof_ELF_PHR * i + off_p_vaddr))

/-- The value of `proghead[i].p_memsz` for the table at byte offset `base`. -/
def p_memsz (data : List Nat) (base i : Nat) : Nat :=
  u32At data (base + (sizeof_ELF_PHR * i + off_p_memsz))

/-! ## The byte sources of a load -/

/-- Modelled from the spec: a file of a mounted disc image (the absent `IsoFile`), reduced
to what `openIsoFile` uses: the length it reports and the bytes that a read delivers. -/
structure IsoFile where
  length : Nat
  content : List Nat
  deriving DecidableEq, Repr

/-- The `u32` that `IsoFile::getLength()` returns. -/
def IsoFile.getLength (isofile : IsoFile) : Nat := isofile.length % 2 ^ 32

/-- Modelled from the spec: `IsoFile::read(dest, len)`, `read(handle, buffer, max_len) ->
bytes_read`: it copies at most `len` of the deliverable bytes to the start of `dest` and
returns their number, together with `dest` afterwards. -/
def IsoFile.read (isofile : IsoFile) (dest : List Nat) (len : Int) : Int × List Nat :=
  (((min len.toNat isofile.content.length : Nat) : Int),
    isofile.content.take (min len.toNat isofile.content.length)
      ++ dest.drop (min len.toNat isofile.content.length))

/-- Modelled from the spec: a host file after `FileSystem::OpenManagedCFile` and
`FileSystem::StatFile` (both absent) succeeded: the size `sd.Size` that the stat reports
and the bytes that a read delivers. -/
structure HostFile where
  Size : Int
  content : List Nat
  deriving DecidableEq, Repr

/-- The call `std::fread(dest, size, 1, fp)`: the number of whole items read (0 or 1) and
`dest` afterwards; an item is read whole when `size` bytes can be delivered, and a `size`
of zero reads nothing. -/
def HostFile.fread (file : HostFile) (dest : List Nat) (size : Nat) : Nat × List Nat :=
  if size = 0 then (0, dest)
  else if size ≤ file.content.length then (1, file.content.take size ++ dest.drop size)
  else (0, file.content ++ dest.drop file.content.length)

/-- The call `data.resize(n)` of `std::vector<u8>`: the first `n` bytes are kept and new
bytes are zero. -/
def resize (data : List Nat) (n : Nat) : List Nat :=
  data.take n ++ List.replicate (n - data.length) 0

/-- The value of `std::vector<u8>::max_size()` on the 64-bit host. -/
def vectorMaxSize : Nat := 2 ^ 63 - 1

/-- The value of `secthead[i].sh_type` for the table at byte offset `base`. -/
def sh_type (data : List Nat) (base i : Nat) : Nat :=
  u32At data (base + (sizeof_ELF_SHR * i + off_sh_type))

/-- The value of `secthead[i].sh_offset` for the table at byte offset `base`. -/
def sh_offset (data : List Nat) (base i : Nat) : Nat :=
  u32At data (base + (sizeof_ELF_SHR * i + off_sh_offset))

/-- The value of `secthead[i].sh_size` for the table at byte offset `base`. -/
def sh_size (data : List Nat) (base i : Nat) : Nat :=
  u32At data (base + (sizeof_ELF_SHR * i + off_sh_size))

/-- The value of `secthead[i].sh_link` for the table at byte offset `base`. -/
def sh_link (data : List Nat) (base i : Nat) : Nat :=
  u32At data (base + (sizeof_ELF_SHR * i + off_sh_link))

/-- The value of `eS[i].st_name` for the symbol table at byte offset `eS`. -/
def st_name (data : List Nat) (eS i : Nat) : Nat :=
  u32At data (eS + sizeof_Elf32_Sym * i + off_st_name)

/-- The value of `eS[i].st_value` for the symbol table at byte offset `eS`. -/
def st_value (data : List Nat) (eS i : Nat) : Nat :=
  u32At data (eS + sizeof_Elf32_Sym * i + off_st_value)

/-- The value of `eS[i].st_info` for the symbol table at byte offset `eS`. -/
def st_info (data : List Nat) (eS i : Nat) : Nat :=
  byteAt data (eS + sizeof_Elf32_Sym * i + off_st_info)

/-! ## `ElfObject` -/

/-- The class `ElfObject`: the owned buffer and the two header views. Modelled from the
spec: the member declarations are in the absent `Elfheader.h`; an image is constructed
empty, with both views absent. -/
structure ElfObject where
  data : List Nat := []
  proghead : Option Nat := none
  secthead : Option Nat := none
  deriving DecidableEq, Repr

namespace ElfObject

/-- A freshly constructed image (both views absent) after `data.resize` and the read have
filled its buffer with `data`, as `openIsoFile` and `openFile` leave it before they call
`initElfHeaders`. -/
def withBuffer (data : List Nat) : ElfObject := { data := data }

/-- The method `hasProgramHeaders`: `proghead != nullptr`. -/
def hasProgramHeaders (self : ElfObject) : Bool := self.proghead.isSome

/-- The method `hasSectionHeaders`: `secthead != nullptr`. -/
def hasSectionHeaders (self : ElfObject) : Bool := self.secthead.isSome

/-- The method `hasHeaders`. -/
def hasHeaders (self : ElfObject) : Bool := self.hasProgramHeaders && self.hasSectionHeaders

/-- The program-header block of `initElfHeaders` (lines 89-95): the new `proghead`. -/
def initProghead (self : ElfObject) : Except Fault (Option Nat) := do
  let phnum ← e_phnum self.data
  if phnum > 0 then
    let phoff ← e_phoff self.data
    if (phoff + sizeof_ELF_PHR) % 2 ^ 64 ≤ self.data.length then
      pure (some phoff)
    else
      pure self.proghead
  else
    pure self.proghead

/-- The section-header block of `initElfHeaders` (lines 97-103): the new `secthead`. -/
def initSecthead (self : ElfObject) : Except Fault (Option Nat) := do
  let shnum ← e_shnum self.data
  if shnum > 0 then
    let shoff ← e_shoff self.data
    if (shoff + sizeof_ELF_SHR) % 2 ^ 64 ≤ self.data.length then
      pure (some shoff)
    else
      pure self.secthead
  else
    pure self.secthead

/-- The remaining header loads of `initElfHeaders` outside the trace macro (lines 105-142):
the two entry-size tests, each behind its count test, and the two `switch` operands. They
only feed the console. -/
def initDiagnostics (data : List Nat) : Except Fault Unit := do
  let shnum ← e_shnum data
  if shnum > 0 then
    let _ ← e_shentsize data
  let phnum ← e_phnum data
  if phnum > 0 then
    let _ ← e_phentsize data
  let _ ← e_type data
  let _ ← e_machine data
  pure ()

/-- The method `void ElfObject::initElfHeaders(bool isPSXElf)`. -/
def initElfHeaders (self : ElfObject) (isPSXElf : Bool) : Except Fault ElfObject :=
  if isPSXElf then Except.ok self
  else do
    let ph ← initProghead self
    let sh ← initSecthead self
    initDiagnostics self.data
    pure { self with proghead := ph, secthead := sh }

/-- The loop of `getTextRange` from index `i` on, with `n` iterations left. -/
def getTextRangeLoop (self : ElfObject) : Nat → Nat → Except Fault (Nat × Nat)
  | 0, _ => Except.ok (0, 0)
  | n + 1, i => do
    let start ← loadU32 self.data self.proghead (sizeof_ELF_PHR * i + off_p_vaddr)
    let size ← loadU32 self.data self.proghead (sizeof_ELF_PHR * i + off_p_memsz)
    let entry ← e_entry self.data
    if start ≤ entry ∧ (start + size) % 2 ^ 32 > entry then
      pure (start, size)
    else
      getTextRangeLoop self n (i + 1)

/-- The method `std::pair<u32,u32> ElfObject::getTextRange() const`. -/
def getTextRange (self : ElfObject) : Except Fault (Nat × Nat) := do
  let phnum ← e_phnum self.data
  getTextRangeLoop self phnum 0

/-- The loop of `loadProgramHeaders` from index `i` on, with `n` iterations left: outside
the trace macro it loads the `switch` operand `proghead[i].p_type`. -/
def loadProgramHeadersLoop (self : ElfObject) : Nat → Nat → Except Fault Unit
  | 0, _ => Except.ok ()
  | n + 1, i => do
    let _ ← loadU32 self.data self.proghead (sizeof_ELF_PHR * i + off_p_type)
    loadProgramHeadersLoop self n (i + 1)

/-- The method `void ElfObject::loadProgramHeaders()`. -/
def loadProgramHeaders (self : ElfObject) : Except Fault Unit :=
  if self.proghead = none then Except.ok ()
  else do
    let phnum ← e_phnum self.data
    loadProgramHeadersLoop self phnum 0

/-- The loop of `getCRC`: `i` words left, `srcdata` at byte offset `src`. -/
def getCRCLoop (data : List Nat) : Nat → Nat → Nat → Except Fault Nat
  | 0, _, CRC => Except.ok CRC
  | i + 1, src, CRC => do
    let w ← readU32 data src
    getCRCLoop data i (src + 4) (CRC ^^^ w)

/-- The method `u32 ElfObject::getCRC() const`; the word count is
`static_cast<u32>(data.size()) / 4`. -/
def getCRC (self : ElfObject) : Except Fault Nat :=
  getCRCLoop self.data (self.data.length % 2 ^ 32 / 4) 0 0

/-- The conversion of a `u32` to `int`, as in `i_dt = secthead[i].sh_link` and
`static_cast<s32>(length)`. -/
def u32ToInt (x : Nat) : Int := if x < 2 ^ 31 then (x : Int) else (x : Int) - 2 ^ 32

/-! ### `ElfObject::openIsoFile` and `ElfObject::openFile` -/

/-- The method `bool ElfObject::openIsoFile(srcfile, isofile, isPSXElf, error)`: the
result, the image afterwards and the object `error` points to afterwards (`none` for a
null pointer). The method assigns `proghead` and `secthead` nowhere but in
`initElfHeaders`; a view that is not assigned there is the member as it was before the
call, a pointer that `data.resize` does not re-derive and that still refers to the storage
the buffer had before. -/
def openIsoFile (self : ElfObject) (isofile : IsoFile) (isPSXElf : Bool)
    (error : Option Error) : Except Fault (Bool × ElfObject × Option Error) :=
  match checkElfSize (isofile.getLength : Int) error with
  | (false, error') => Except.ok (false, self, error')
  | (true, error') =>
    let r := isofile.read (resize self.data isofile.getLength) (u32ToInt isofile.getLength)
    if r.1 < u32ToInt isofile.getLength then
      match error' with
      | none => Except.error Fault.nullDeref
      | some e =>
        Except.ok (false, { self with data := r.2 },
          some (e.SetUser "Failed to read ELF from ISO" ""))
    else do
      let obj ← initElfHeaders { self with data := r.2 } isPSXElf
      pure (true, obj, error')

/-- The method `bool ElfObject::openFile(srcfile, isPSXElf, error)`. `fp` is `none` when
`OpenManagedCFile` or `StatFile` fails; `error` is the object as `OpenManagedCFile` left
it; `SetMessage` stands for the member `Error::SetMessage`, which `common/Error.h` does
not declare. As in `openIsoFile`, a view that `initElfHeaders` does not assign is the
member as it was before the call. -/
def openFile (self : ElfObject) (srcfile : String) (fp : Option HostFile) (isPSXElf : Bool)
    (error : Option Error) (SetMessage : Error → String → Error) :
    Except Fault (Bool × ElfObject × Option Error) :=
  match fp with
  | none =>
    match error with
    | none => Except.error Fault.nullDeref
    | some e =>
      Except.ok (false, self, some (SetMessage e ("Failed to read ELF from '" ++ srcfile ++ "'")))
  | some file =>
    match checkElfSize file.Size error with
    | (false, error') => Except.ok (false, self, error')
    | (true, error') =>
      if s64ToSizeT file.Size > vectorMaxSize then
        Except.error (Fault.lengthError (s64ToSizeT file.Size))
      else
        let r := file.fread (resize self.data (s64ToSizeT file.Size))
          (resize self.data (s64ToSizeT file.Size)).length
        if r.1 ≠ 1 then
          match error' with
          | none => Except.error Fault.nullDeref
          | some e =>
            Except.ok (false, { self with data := r.2 },
              some (e.SetUser ("Failed to read ELF from '" ++ srcfile ++ "'") ""))
        else do
          let obj ← initElfHeaders { self with data := r.2 } isPSXElf
          pure (true, obj, error')

/-- The test of the program-header block of `initElfHeaders` on the current buffer:
`e_phnum > 0` and `e_phoff + sizeof(ELF_PHR) <= data.size()`. -/
def progTableFits (data : List Nat) : Bool :=
  match e_phnum data, e_phoff data with
  | Except.ok phnum, Except.ok phoff =>
    decide (phnum > 0 ∧ phoff + sizeof_ELF_PHR ≤ data.length)
  | _, _ => false

/-- The test of the section-header block of `initElfHeaders` on the current buffer:
`e_shnum > 0` and `e_shoff + sizeof(ELF_SHR) <= data.size()`. -/
def sectTableFits (data : List Nat) : Bool :=
  match e_shnum data, e_shoff data with
  | Except.ok shnum, Except.ok shoff =>
    decide (shnum > 0 ∧ shoff + sizeof_ELF_SHR ≤ data.length)
  | _, _ => false

/-! ### `ElfObject::loadSectionHeaders` and the symbol map -/

/-- A label of the symbol map: the bytes of its name (without the terminating NUL) and
its address. -/
abbrev Label := List Nat × Nat

/-- Modelled from the spec: the external symbol map of the absent `DebugTools/SymbolMap.h`,
as the sequence of registered `{name, address}` labels. -/
abbrev SymbolMap := List Label

/-- Modelled from the spec: `SymbolMap::Clear` of the absent `DebugTools/SymbolMap.h`
drops all prior symbol data. -/
def SymbolMap.Clear (_m : SymbolMap) : SymbolMap := []

/-- Modelled from the spec: `SymbolMap::AddLabel` of the absent `DebugTools/SymbolMap.h`
registers `{name, address}`. -/
def SymbolMap.AddLabel (m : SymbolMap) (name : List Nat) (address : Nat) : SymbolMap :=
  m ++ [(name, address)]

/-- Modelled from the spec: the macro `ELF32_ST_TYPE` of the absent `Elfheader.h`, the
low 4 bits of the info byte. -/
def ELF32_ST_TYPE (info : Nat) : Nat := info &&& 0xf

/-- The bytes of the NUL-terminated string that starts at the head of `rest`, the buffer
from byte offset `off` on: what constructing a `std::string` from a `const char*` reads. -/
def readCStrFrom : List Nat → Nat → Except Fault (List Nat)
  | [], off => Except.error (Fault.outOfBounds off 1)
  | b :: rest, off =>
    if b % 256 = 0 then Except.ok []
    else do
      let tail ← readCStrFrom rest (off + 1)
      pure (b % 256 :: tail)

/-- The NUL-terminated string at byte offset `off` of the buffer. -/
def readCStr (data : List Nat) (off : Nat) : Except Fault (List Nat) :=
  readCStrFrom (data.drop off) off

/-- The section loop of `loadSectionHeaders` (lines 263-305) from index `i` on, with `n`
iterations left, carrying `(i_st, i_dt)`; outside the trace macro it loads
`secthead[i].sh_type` and, for a symbol table, `secthead[i].sh_link`. -/
def sectionLoop (self : ElfObject) : Nat → Nat → Int × Int → Except Fault (Int × Int)
  | 0, _, acc => Except.ok acc
  | n + 1, i, acc => do
    let sh_type ← loadU32 self.data self.secthead (sizeof_ELF_SHR * i + off_sh_type)
    if sh_type = 0x02 then
      let sh_link ← loadU32 self.data self.secthead (sizeof_ELF_SHR * i + off_sh_link)
      sectionLoop self n (i + 1) ((i : Int), u32ToInt sh_link)
    else
      sectionLoop self n (i + 1) acc

/-- The symbol loop of `loadSectionHeaders` (lines 320-326) from index `i` on, with `n`
iterations left; `eS` and `SymNames` are the byte offsets the two pointers hold. -/
def symbolLoop (data : List Nat) (eS SymNames : Nat) :
    Nat → Nat → SymbolMap → Except Fault SymbolMap
  | 0, _, m => Except.ok m
  | n + 1, i, m => do
    let st_value ← readU32 data (eS + sizeof_Elf32_Sym * i + off_st_value)
    if st_value ≠ 0 then
      let st_info ← readU8 data (eS + sizeof_Elf32_Sym * i + off_st_info)
      if ELF32_ST_TYPE st_info = 2 then
        let st_name ← readU32 data (eS + sizeof_Elf32_Sym * i + off_st_name)
        let name ← readCStr data (SymNames + st_name)
        symbolLoop data eS SymNames n (i + 1) (m.AddLabel name st_value)
      else
        symbolLoop data eS SymNames n (i + 1) m
    else
      symbolLoop data eS SymNames n (i + 1) m

/-- The method `void ElfObject::loadSectionHeaders()`, as a function of the global
`R5900SymbolMap` before the call, giving the map after it. The loop bound
`secthead[i_st].sh_size / sizeof(Elf32_Sym)`, which the source loads again on every test,
is loaded once: the buffer does not change in between. -/
def loadSectionHeaders (self : ElfObject) (R5900SymbolMap : SymbolMap) :
    Except Fault SymbolMap :=
  match self.secthead with
  | none => Except.ok R5900SymbolMap
  | some _ => do
    let shoff ← e_shoff self.data
    if shoff > self.data.length then
      pure R5900SymbolMap
    else
      let shstrndx ← e_shstrndx self.data
      let _section_names_offset ← loadU32 self.data self.secthead
        (sizeof_ELF_SHR * (if shstrndx = 0xffff then 0 else shstrndx) + off_sh_offset)
      let shnum ← e_shnum self.data
      let (i_st, i_dt) ← sectionLoop self shnum 0 (-1, -1)
      if i_st ≥ 0 ∧ i_dt ≥ 0 then
        let dt_offset ← loadU32 self.data self.secthead
          (sizeof_ELF_SHR * i_dt.toNat + off_sh_offset)
        if dt_offset < self.data.length then
          let st_offset ← loadU32 self.data self.secthead
            (sizeof_ELF_SHR * i_st.toNat + off_sh_offset)
          if st_offset < self.data.length then
            let sh_size ← loadU32 self.data self.secthead
              (sizeof_ELF_SHR * i_st.toNat + off_sh_size)
            symbolLoop self.data st_offset dt_offset (sh_size / sizeof_Elf32_Sym - 1) 1
              (SymbolMap.Clear R5900SymbolMap)
          else
            pure R5900SymbolMap
        else
          pure R5900SymbolMap
      else
        pure R5900SymbolMap

/-- The part of `loadSectionHeaders` that precedes the symbol loop (lines 251-317): the
byte offsets taken by `eS` and `SymNames` and the `sh_size` of the chosen symbol table, or
`none` on the paths that leave the function without touching the symbol map. -/
def locateSymbols (self : ElfObject) : Except Fault (Option (Nat × Nat × Nat)) :=
  match self.secthead with
  | none => Except.ok none
  | some _ => do
    let shoff ← e_shoff self.data
    if shoff > self.data.length then
      pure none
    else
      let shstrndx ← e_shstrndx self.data
      let _section_names_offset ← loadU32 self.data self.secthead
        (sizeof_ELF_SHR * (if shstrndx = 0xffff then 0 else shstrndx) + off_sh_offset)
      let shnum ← e_shnum self.data
      let (i_st, i_dt) ← sectionLoop self shnum 0 (-1, -1)
      if i_st ≥ 0 ∧ i_dt ≥ 0 then
        let dt_offset ← loadU32 self.data self.secthead
          (sizeof_ELF_SHR * i_dt.toNat + off_sh_offset)
        if dt_offset < self.data.length then
          let st_offset ← loadU32 self.data self.secthead
            (sizeof_ELF_SHR * i_st.toNat + off_sh_offset)
          if st_offset < self.data.length then
            let sh_size ← loadU32 self.data self.secthead
              (sizeof_ELF_SHR * i_st.toNat + off_sh_size)
            pure (some (st_offset, dt_offset, sh_size))
          else
            pure none
        else
          pure none
      else
        pure none

end ElfObject

/-! ## `GetPS2ElfName` -/

/-- Modelled from the spec: one line of SYSTEM.CNF as the absent `IsoFile::readLine` and
`StringUtil::ParseAssignmentString` deliver it. `parsed` is the key and the value of the
assignment, `none` when the line does not parse as one; `posAtEnd` tells whether
`file.getLength() == file.getSeekPos()` once the line has been read. -/
structure CnfLine where
  parsed : Option (String × String)
  posAtEnd : Bool
  deriving DecidableEq, Repr

/-- Modelled from the spec: the disc file SYSTEM.CNF once opened (the absent `IsoFile`):
its length and the lines that `readLine` returns until `eof()`. -/
structure CnfFile where
  length : Nat
  lines : List CnfLine
  deriving DecidableEq, Repr

/-- The `u32` that `IsoFile::getLength()` returns for SYSTEM.CNF. -/
def CnfFile.getLength (file : CnfFile) : Nat := file.length % 2 ^ 32

/-- One iteration of the `while (!file.eof())` loop of `GetPS2ElfName` (lines 355-390) on
the pair `(retype, name)`. -/
def cnfStep (st : Int × String) (line : CnfLine) : Int × String :=
  match line.parsed with
  | none => st
  | some (key, value) =>
    if value = "" ∧ line.posAtEnd = false then st
    else if key = "BOOT2" then (2, value)
    else if key = "BOOT" then (1, value)
    else if key = "VMODE" then st
    else if key = "VER" then st
    else st

/-- The function `int GetPS2ElfName(std::string& name)`: the returned classification and
the caller's `name` afterwards. `file` is `none` when `file.open("SYSTEM.CNF;1")` fails. -/
def GetPS2ElfName (file : Option CnfFile) (name : String) : Int × String :=
  match file with
  | none => (0, name)
  | some f =>
    if ElfObject.u32ToInt f.getLength = 0 then (0, name)
    else
      let st := f.lines.foldl cnfStep (0, name)
      if st.1 = 0 then (0, st.2) else (st.1, st.2)

/-! ## `pcsx2/Memory.h`: the accessor macros -/

/-- The arrays that the accessor macros of `Memory.h` index: `eeHw`, `eeMem->Main`,
`eeMem->ROM`, `eeMem->ROM1`, `eeMem->ROM2` and `eeMem->Scratch`. -/
inductive Region where
  | Hw
  | Main
  | ROM
  | ROM1
  | ROM2
  | Scratch
  deriving DecidableEq, Repr

/-- The mask that the macros of a family apply to `mem` (Memory.h, lines 47-98). -/
def Region.mask : Region → Nat
  | Region.Hw => 0xffff
  | Region.Main => 0x1ffffff
  | Region.ROM => 0x3fffff
  | Region.ROM1 => 0x3fffff
  | Region.ROM2 => 0x7ffff
  | Region.Scratch => 0x3fff

/-- Modelled from the spec: the sizes of the arrays, declared in the absent `vtlb.h`:
hardware-register window 64 KiB, main RAM 32 MiB, ROM and ROM1 4 MiB, ROM2 512 KiB,
scratchpad 16 KiB. -/
def Region.size : Region → Nat
  | Region.Hw => 64 * 1024
  | Region.Main => 32 * 1024 * 1024
  | Region.ROM => 4 * 1024 * 1024
  | Region.ROM1 => 4 * 1024 * 1024
  | Region.ROM2 => 512 * 1024
  | Region.Scratch => 16 * 1024

/-- An accessor macro: the array it indexes and the width in bytes of the type it casts
to. -/
structure Accessor where
  region : Region
  width : Nat
  deriving DecidableEq, Repr

/-- The index `(mem) & mask` at which an accessor macro enters its array. -/
def Accessor.offset (acc : Accessor) (mem : Nat) : Nat := mem &&& acc.region.mask

/-- The accessor macros of `Memory.h` (lines 47-98), each with its name. -/
def accessorMacros : List (String × Accessor) :=
  [("psHs8", ⟨Region.Hw, 1⟩), ("psHs16", ⟨Region.Hw, 2⟩), ("psHs32", ⟨Region.Hw, 4⟩),
   ("psHs64", ⟨Region.Hw, 8⟩), ("psHu8", ⟨Region.Hw, 1⟩), ("psHu16", ⟨Region.Hw, 2⟩),
   ("psHu32", ⟨Region.Hw, 4⟩), ("psHu64", ⟨Region.Hw, 8⟩), ("psHu128", ⟨Region.Hw, 16⟩),
   ("psMs8", ⟨Region.Main, 1⟩), ("psMs16", ⟨Region.Main, 2⟩), ("psMs32", ⟨Region.Main, 4⟩),
   ("psMs64", ⟨Region.Main, 8⟩), ("psMu8", ⟨Region.Main, 1⟩), ("psMu16", ⟨Region.Main, 2⟩),
   ("psMu32", ⟨Region.Main, 4⟩), ("psMu64", ⟨Region.Main, 8⟩),
   ("psRs8", ⟨Region.ROM, 1⟩), ("psRs16", ⟨Region.ROM, 2⟩), ("psRs32", ⟨Region.ROM, 4⟩),
   ("psRs64", ⟨Region.ROM, 8⟩), ("psRu8", ⟨Region.ROM, 1⟩), ("psRu16", ⟨Region.ROM, 2⟩),
   ("psRu32", ⟨Region.ROM, 4⟩), ("psRu64", ⟨Region.ROM, 8⟩),
   ("psR1s8", ⟨Region.ROM1, 1⟩), ("psR1s16", ⟨Region.ROM1, 2⟩), ("psR1s32", ⟨Region.ROM1, 4⟩),
   ("psR1s64", ⟨Region.ROM1, 8⟩), ("psR1u8", ⟨Region.ROM1, 1⟩), ("psR1u16", ⟨Region.ROM1, 2⟩),
   ("psR1u32", ⟨Region.ROM1, 4⟩), ("psR1u64", ⟨Region.ROM1, 8⟩),
   ("psR2s8", ⟨Region.ROM2, 1⟩), ("psR2s16", ⟨Region.ROM2, 2⟩), ("psR2s32", ⟨Region.ROM2, 4⟩),
   ("psR2s64", ⟨Region.ROM2, 8⟩), ("psR2u8", ⟨Region.ROM2, 1⟩), ("psR2u16", ⟨Region.ROM2, 2⟩),
   ("psR2u32", ⟨Region.ROM2, 4⟩), ("psR2u64", ⟨Region.ROM2, 8⟩),
   ("psSs32", ⟨Region.Scratch, 4⟩), ("psSs64", ⟨Region.Scratch, 8⟩),
   ("psSs128", ⟨Region.Scratch, 16⟩), ("psSu32", ⟨Region.Scratch, 4⟩),
   ("psSu64", ⟨Region.Scratch, 8⟩), ("psSu128", ⟨Region.Scratch, 16⟩)]

/-- The argument `(mem) & 0x1fffffff` that the macro `PSM` passes on. -/
def PSMArg (mem : Nat) : Nat := mem &&& 0x1fffffff

/-- The macro `PSM(mem)`; the region lookup `vtlb_GetPhyPtr` of the absent `vtlb.h` is a
parameter. -/
def PSM {α : Type} (vtlb_GetPhyPtr : Nat → α) (mem : Nat) : α := vtlb_GetPhyPtr (PSMArg mem)

/-! ## `pcsx2/Memory.h`: `CopyQWC` and `ZeroQWC` -/

/-- The host memory: the byte stored at each host address (a load takes it modulo 256). -/
abbrev HostMemory := Nat → Nat

/-- The `n` bytes stored from the address `addr` on. -/
def loadBytes (mem : HostMemory) (addr n : Nat) : List Nat :=
  (List.range n).map (fun j => mem (addr + j) % 256)

/-- The memory after `bytes` have been stored from the address `addr` on. -/
def storeBytes (mem : HostMemory) (addr : Nat) (bytes : List Nat) : HostMemory :=
  fun a => if addr ≤ a ∧ a < addr + bytes.length then bytes.getD (a - addr) 0 else mem a

/-- Modelled from the spec: the intrinsic `_mm_load_ps` behind the absent
`common/emitter/x86_intrin.h`, a vectorized load of a 16-byte naturally-aligned quantity:
the 16 bytes at `p`, and a fault when `p` is not a multiple of 16. -/
def _mm_load_ps (mem : HostMemory) (p : Nat) : Except Fault (List Nat) :=
  if p % 16 = 0 then Except.ok (loadBytes mem p 16) else Except.error (Fault.misaligned p)

/-- Modelled from the spec: the intrinsic `_mm_store_ps` behind the absent
`common/emitter/x86_intrin.h`, a vectorized store of a 16-byte naturally-aligned quantity:
the register is stored at `p`, and a fault when `p` is not a multiple of 16. -/
def _mm_store_ps (mem : HostMemory) (p : Nat) (a : List Nat) : Except Fault HostMemory :=
  if p % 16 = 0 then Except.ok (storeBytes mem p a) else Except.error (Fault.misaligned p)

/-- Modelled from the spec: the intrinsic `_mm_setzero_ps` behind the absent
`common/emitter/x86_intrin.h`, the register of 16 zero bytes. -/
def _mm_setzero_ps : List Nat := List.replicate 16 0

/-- The function `CopyQWC(void* dest, const void* src)`. -/
def CopyQWC (mem : HostMemory) (dest src : Nat) : Except Fault HostMemory := do
  let v ← _mm_load_ps mem src
  _mm_store_ps mem dest v

/-- The function `ZeroQWC(void* dest)` (and `ZeroQWC(u128& dest)`, which has the same
body). -/
def ZeroQWC (mem : HostMemory) (dest : Nat) : Except Fault HostMemory :=
  _mm_store_ps mem dest _mm_setzero_ps

/-! ### The quadword operations as the specification words them -/

/-- One 32-bit word copy, `*(u32*)dest = *(u32*)src`. -/
def copyWord (mem : HostMemory) (dest src : Nat) : HostMemory :=
  storeBytes mem dest (loadBytes mem src 4)

/-- The specification of `CopyQWC`: four sequential 32-bit word copies from `src` to
`dest`. -/
def copyFourWords (mem : HostMemory) (dest src : Nat) : HostMemory :=
  copyWord (copyWord (copyWord (copyWord mem dest src) (dest + 4) (src + 4))
    (dest + 8) (src + 8)) (dest + 12) (src + 12)

/-- One 32-bit zero store, `*(u32*)dest = 0`. -/
def zeroWord (mem : HostMemory) (dest : Nat) : HostMemory :=
  storeBytes mem dest (List.replicate 4 0)

/-- The specification of `ZeroQWC`: four sequential 32-bit zero stores. -/
def zeroFourWords (mem : HostMemory) (dest : Nat) : HostMemory :=
  zeroWord (zeroWord (zeroWord (zeroWord mem dest) (dest + 4)) (dest + 8)) (dest + 12)

/-! ## `pcsx2-qt/LogWindow.cpp` -/

/-- The initializers of the table `color_mapping` of `LogWindow::appendMessage`, as
red, green and blue components. The table is declared with `ConsoleColors_Count` entries,
a constant of the absent `common/Console.h`. -/
def color_mapping : List (Nat × Nat × Nat) :=
  [(0xFF, 0xFF, 0xFF), (0x0C, 0x0C, 0x0C), (0x13, 0xA1, 0x0E), (0xC5, 0x0F, 0x1F),
   (0x00, 0x37, 0xDA), (0x88, 0x17, 0x98), (0x88, 0x17, 0x98), (0x76, 0x76, 0x76),
   (0x3A, 0x96, 0xDD), (0xC1, 0x9C, 0x00), (0xCC, 0xCC, 0xCC),
   (0x0C, 0x0C, 0x0C), (0xE7, 0x48, 0x56), (0x16, 0xC6, 0x0C), (0x3B, 0x78, 0xFF),
   (0xB4, 0x00, 0x9E), (0xB4, 0x00, 0x9E), (0xCC, 0xCC, 0xCC), (0x61, 0xD6, 0xD6),
   (0xF9, 0xF1, 0xA5), (0xF2, 0xF2, 0xF2)]

/-- The index `std::min(color, static_cast<u32>(std::size(color_mapping)))` with which
`appendMessage` reads the table; `count` is the number of entries of the table,
`ConsoleColors_Count`, and `color` the `quint32` argument. -/
def colorIndex (count color : Nat) : Nat := min (color % 2 ^ 32) (count % 2 ^ 32)

/-! ## The symbols as the specification words them -/

/-- Whether a NUL byte occurs in the buffer at or after byte offset `off`. -/
def cstrTerminated (data : List Nat) (off : Nat) : Bool :=
  (data.drop off).any (fun b => b % 256 = 0)

/-- The NUL-terminated string at byte offset `off`: the bytes before the first NUL. -/
def cstrAt (data : List Nat) (off : Nat) : List Nat :=
  ((data.drop off).takeWhile (fun b => b % 256 ≠ 0)).map (fun b => b % 256)

/-- The label of symbol `i` in the words of the specification: registered when its value
is non-zero and its type tag (the low 4 bits of the info byte) is 2, "function", under the
name found at offset `st_name` of the string table at byte offset `strtab`. -/
def labelOfSymbol (data : List Nat) (symtab strtab i : Nat) : Option ElfObject.Label :=
  if st_value data symtab i ≠ 0 ∧ st_info data symtab i &&& 0xf = 2 then
    some (cstrAt data (strtab + st_name data symtab i), st_value data symtab i)
  else none

/-- The labels of the specification for a symbol table of `count` entries at byte offset
`symtab`: those of the indices `1 <= i < count`, in index order. -/
def expectedLabels (data : List Nat) (symtab strtab count : Nat) : List ElfObject.Label :=
  (List.range' 1 (count - 1)).filterMap (labelOfSymbol data symtab strtab)

/-! ## The checksum as the specification words it -/

/-- The checksum in the words of the specification: the bitwise XOR of the first `k`
32-bit little-endian words of the buffer, the XOR of no word being 0. -/
def xorOfFirstWords (data : List Nat) : Nat → Nat
  | 0 => 0
  | k + 1 => xorOfFirstWords data k ^^^ u32At data (4 * k)

/-! ## Test images

Builders of small concrete images, used to evaluate the embedding. -/

namespace Fixture

/-- The two bytes of a little-endian `u16`. -/
def le16 (x : Nat) : List Nat := [x % 256, x / 256 % 256]

/-- The four bytes of a little-endian `u32`. -/
def le32 (x : Nat) : List Nat :=
  [x % 256, x / 256 % 256, x / 65536 % 256, x / 16777216 % 256]

/-- A 52-byte ELF32 header (`e_type` executable, `e_machine` 8, standard entry sizes). -/
def header (entry phoff shoff phnum shnum shstrndx : Nat) : List Nat :=
  [0x7f, 0x45, 0x4c, 0x46] ++ List.replicate 12 0 ++ le16 2 ++ le16 8 ++ le32 1
    ++ le32 entry ++ le32 phoff ++ le32 shoff ++ le32 0
    ++ le16 52 ++ le16 32 ++ le16 phnum ++ le16 40 ++ le16 shnum ++ le16 shstrndx

/-- A 32-byte program header. -/
def phdr (p_type p_vaddr p_memsz : Nat) : List Nat :=
  le32 p_type ++ le32 0 ++ le32 p_vaddr ++ le32 p_vaddr ++ le32 p_memsz ++ le32 p_memsz
    ++ le32 0 ++ le32 0

/-- A 40-byte section header. -/
def shdr (sh_type sh_offset sh_size sh_link : Nat) : List Nat :=
  le32 0 ++ le32 sh_type ++ le32 0 ++ le32 0 ++ le32 sh_offset ++ le32 sh_size
    ++ le32 sh_link ++ le32 0 ++ le32 0 ++ le32 0

/-- A 16-byte symbol-table entry. -/
def sym (st_name st_value st_info : Nat) : List Nat :=
  le32 st_name ++ le32 st_value ++ le32 0 ++ [st_info % 256, 0] ++ le16 0

/-- The buffer `data` with the little-endian `u32` value `v` stored at byte offset `off`
(bytes past the end are not stored). -/
def pokeU32 (data : List Nat) (off v : Nat) : List Nat :=
  (((data.set off (v % 256)).set (off + 1) (v / 256 % 256)).set (off + 2)
    (v / 65536 % 256)).set (off + 3) (v / 16777216 % 256)

/-- The buffer `data` with its 32-bit words at word positions `i` and `j` exchanged. -/
def swapWords (data : List Nat) (i j : Nat) : List Nat :=
  pokeU32 (pokeU32 data (4 * i) (u32At data (4 * j))) (4 * j) (u32At data (4 * i))

/-- A 53-byte image that declares no program header and no section header. -/
def noHeaderTables : List Nat :=
  header 0 0 0 0 0 0 ++ [0]

/-- An 84-byte image that declares two program headers at offset 52 but stores only the
first one; the entry point lies outside that first segment. -/
def twoDeclaredOneStored : List Nat :=
  header 0x00101000 52 0 2 0 0 ++ phdr 1 0x00200000 0x2000

/-- A 53-byte image that declares one program header at the offset `0xffffffff`. -/
def rejectedProgramTable : List Nat :=
  header 0x00101000 0xffffffff 0 1 0 0 ++ [0]

/-- A 92-byte image with one stored section header at offset 52 whose `e_shstrndx` names
section 1. -/
def stringIndexPastTable : List Nat :=
  header 0 0 52 0 1 1 ++ shdr 0 0 0 0

/-- The image of section 8: one loadable program header with `p_vaddr = 0x00100000`,
`p_memsz = 0x2000`, and `e_entry = 0x00101000`. -/
def entryInsideSegment : List Nat :=
  header 0x00101000 52 0 1 0 0 ++ phdr 1 0x00100000 0x2000

/-- One program header whose end `p_vaddr + p_memsz` lies beyond `2 ^ 32`. -/
def segmentEndWraps : List Nat :=
  header 0x00101000 52 0 1 0 0 ++ phdr 1 0x00100000 0xffffffff

/-- One program header of type 0 (not loadable) whose range contains the entry point. -/
def entryInsideNullTypeSegment : List Nat :=
  header 0x00101000 52 0 1 0 0 ++ phdr 0 0x00100000 0x2000

/-- An image whose section-header table fits and whose program-header offset does not. -/
def sectionsOnly : List Nat :=
  header 0 0xffffffff 52 1 1 0 ++ shdr 0 0 0 0

/-- A 210-byte image with three section headers at offset 52 (null, symbol table, string
table), a two-entry symbol table at offset 172 and the string table `"\0main\0"` at offset
204; the symbol-table header declares `sh_size` bytes of symbols. -/
def symbolImage (sh_size : Nat) : List Nat :=
  header 0x00100000 0 52 0 3 2 ++ shdr 0 0 0 0 ++ shdr 2 172 sh_size 2 ++ shdr 3 204 6 0
    ++ sym 0 0 0 ++ sym 1 0x00100000 0x12 ++ [0, 109, 97, 105, 110, 0]

/-- A 284-byte image with four section headers at offset 52: a null section, a symbol
table at offset 212 (a null entry and the function `main` at `0x00100000`), a second
symbol table at offset 244 (a null entry and the function `b` at `0x00200000`) and the
string table `"\0main\0b\0"` at offset 276, to which both symbol tables link. -/
def twoSymbolTables : List Nat :=
  header 0x00100000 0 52 0 4 3 ++ shdr 0 0 0 0 ++ shdr 2 212 32 3 ++ shdr 2 244 32 3
    ++ shdr 3 276 8 0
    ++ sym 0 0 0 ++ sym 1 0x00100000 0x12 ++ sym 0 0 0 ++ sym 6 0x00200000 0x12
    ++ [0, 109, 97, 105, 110, 0, 98, 0]

/-- The image `symbolImage 32` with the `sh_offset` of its symbol-table header (section 1)
set to 210, the size of the buffer. -/
def symbolTableAtEnd : List Nat := pokeU32 (symbolImage 32) 108 210

/-- The image `symbolImage 32` with the `sh_offset` of its string-table header (section 2,
to which the symbol table links) set to 210, the size of the buffer. -/
def stringTableAtEnd : List Nat := pokeU32 (symbolImage 32) 148 210

/-- The image `symbolImage 32` with the `sh_link` of its symbol-table header set to
`0x80000000`, which is negative as an `int`. -/
def negativeLink : List Nat := pokeU32 (symbolImage 32) 116 0x80000000

/-- A buffer of `2 ^ 32` bytes: the byte 1 followed by zero bytes. -/
def fourGiB : List Nat := 1 :: List.replicate (2 ^ 32 - 1) 0

end Fixture

/-! # Theorems -/

/-! ## `checkElfSize` -/

theorem checkElfSizeDiag_none_iff (size : Int) :
    checkElfSizeDiag size = none ↔
      ¬ size > 0xfffffff ∧ size ≠ -1 ∧ ¬ s64ToSizeT size ≤ sizeof_ELF_HEADER := by
  unfold checkElfSizeDiag
  split_ifs <;> simp_all

theorem s64ToSizeT_of_nonneg (size : Int) (h0 : 0 ≤ size) (h1 : size ≤ 0xfffffff) :
    s64ToSizeT size = size.toNat := by
  unfold s64ToSizeT
  rw [Int.emod_eq_of_lt h0 (by omega)]

theorem checkElfSize_in_range (size : Int) (error : Option Error)
    (hlo : (sizeof_ELF_HEADER : Int) < size) (hhi : size ≤ 0xfffffff) :
    checkElfSize size error = (true, error) := by
  have hd : checkElfSizeDiag size = none := by
    rw [checkElfSizeDiag_none_iff]
    rw [s64ToSizeT_of_nonneg size (by omega) hhi]
    refine ⟨by omega, by omega, ?_⟩
    simp only [sizeof_ELF_HEADER] at *
    omega
  simp [checkElfSize, hd]

/-- For a buffer length, passing `checkElfSize` means lying strictly above the header size
and at most at the limit. -/
theorem checkElfSize_length_iff (n : Nat) (error : Option Error) :
    (checkElfSize (n : Int) error).1 = true ↔ sizeof_ELF_HEADER < n ∧ n ≤ 0xfffffff := by
  constructor
  · intro h
    have hd : checkElfSizeDiag (n : Int) = none := by
      cases hc : checkElfSizeDiag (n : Int) with
      | none => rfl
      | some d => cases error <;> simp [checkElfSize, hc] at h
    rw [checkElfSizeDiag_none_iff] at hd
    obtain ⟨h1, -, h3⟩ := hd
    rw [s64ToSizeT_of_nonneg (n : Int) (by omega) (by omega)] at h3
    simp only [sizeof_ELF_HEADER, Int.toNat_ofNat] at *
    omega
  · rintro ⟨h1, h2⟩
    rw [checkElfSize_in_range (n : Int) error (by exact_mod_cast h1) (by omega)]

/-- C4, evaluated on the code: the size `-2` passes all three tests of `checkElfSize`
(it is not above the limit, it is not `-1`, and converted to `size_t` it is far above the
header size), although it is negative; the sizes `-1`, `0`, `sizeof(ELF_HEADER)` and
`0x10000000` are rejected. -/
theorem checkElfSize_accepts_minus_two :
    checkElfSize (-2) none = (true, none) ∧
    (checkElfSize (-2) (some {})).2 = some {} ∧
    (checkElfSize (-1) none).1 = false ∧ (checkElfSize 0 none).1 = false ∧
    (checkElfSize (sizeof_ELF_HEADER : Int) none).1 = false ∧
    (checkElfSize 0x10000000 none).1 = false := by
  decide

/-- C5: every size with `sizeof(ELF_HEADER) < size <= 0x0FFFFFFF` is accepted by
`checkElfSize`, and the `Error` passed to it (null or not) is left unmodified. -/
theorem checkElfSize_accepts (size : Int) (error : Option Error)
    (hlo : (sizeof_ELF_HEADER : Int) < size) (hhi : size ≤ 0x0FFFFFFF) :
    (checkElfSize size error).1 = true ∧ (checkElfSize size error).2 = error := by
  rw [checkElfSize_in_range size error hlo hhi]
  exact ⟨rfl, rfl⟩

/-- Witness of C5 at the size 4096 and an `Error` that already holds an errno report. -/
theorem checkElfSize_accepts_witness :
    (checkElfSize 4096 (some ⟨ErrorType.Errno, "errno 2", "open"⟩)).1 = true ∧
    (checkElfSize 4096 (some ⟨ErrorType.Errno, "errno 2", "open"⟩)).2
      = some ⟨ErrorType.Errno, "errno 2", "open"⟩ :=
  checkElfSize_accepts 4096 (some ⟨ErrorType.Errno, "errno 2", "open"⟩) (by decide) (by decide)

/-- C6: when `checkElfSize` rejects a size and is given a non-null `Error`, the `Error`
afterwards has type `User`, its message is the ISO-image hint, and its description is the
over-limit one for `size > 0x0FFFFFFF`, the does-not-exist one for `size = -1` and the
unexpected-end one for `size <= sizeof(ELF_HEADER)` with `size != -1`; exactly one of the
three cases applies; the three descriptions are pairwise different; with a null `Error`
the boolean result is the same and nothing is written. -/
theorem checkElfSize_rejection_diagnostic (size : Int) (e : Error) :
    ((checkElfSize size (some e)).1 = false →
      (∃ e', (checkElfSize size (some e)).2 = some e' ∧
        e'.m_type = ErrorType.User ∧ e'.m_message = isoHint ∧
        (size > 0x0FFFFFFF → e'.m_description = diagOverLimit) ∧
        (size = -1 → e'.m_description = diagDoesNotExist) ∧
        (size ≤ (sizeof_ELF_HEADER : Int) ∧ size ≠ -1 →
          e'.m_description = diagUnexpectedEnd)) ∧
      ((size > 0x0FFFFFFF ∧ size ≠ -1 ∧ ¬ (size ≤ (sizeof_ELF_HEADER : Int) ∧ size ≠ -1)) ∨
       (¬ size > 0x0FFFFFFF ∧ size = -1 ∧ ¬ (size ≤ (sizeof_ELF_HEADER : Int) ∧ size ≠ -1)) ∨
       (¬ size > 0x0FFFFFFF ∧ size ≠ -1 ∧ (size ≤ (sizeof_ELF_HEADER : Int) ∧ size ≠ -1)))) ∧
    (diagOverLimit ≠ diagDoesNotExist ∧ diagOverLimit ≠ diagUnexpectedEnd ∧
      diagDoesNotExist ≠ diagUnexpectedEnd) ∧
    checkElfSize size none = ((checkElfSize size (some e)).1, none) := by
  refine ⟨?_, by decide, ?_⟩
  · intro hrej
    have h52 : (sizeof_ELF_HEADER : Int) = 52 := rfl
    by_cases h1 : size > 0xfffffff
    · have hd : checkElfSizeDiag size = some diagOverLimit := by simp [checkElfSizeDiag, h1]
      refine ⟨⟨e.SetUser diagOverLimit isoHint, by simp [checkElfSize, hd], rfl, rfl,
        fun _ => rfl, fun h => by omega, fun h => by omega⟩, Or.inl ⟨h1, by omega, by omega⟩⟩
    · by_cases h2 : size = -1
      · have hd : checkElfSizeDiag size = some diagDoesNotExist := by
          simp [checkElfSizeDiag, h2]
        refine ⟨⟨e.SetUser diagDoesNotExist isoHint, by simp [checkElfSize, hd], rfl, rfl,
          fun h => absurd h h1, fun _ => rfl, fun h => absurd h2 h.2⟩,
          Or.inr (Or.inl ⟨h1, h2, fun h => h.2 h2⟩)⟩
      · by_cases h3 : s64ToSizeT size ≤ sizeof_ELF_HEADER
        · have hd : checkElfSizeDiag size = some diagUnexpectedEnd := by
            simp [checkElfSizeDiag, h1, h2, h3]
          have hle : size ≤ (sizeof_ELF_HEADER : Int) := by
            by_contra hgt
            have h0 : 0 ≤ size := by omega
            rw [s64ToSizeT_of_nonneg size h0 (by omega)] at h3
            simp only [sizeof_ELF_HEADER] at *
            omega
          refine ⟨⟨e.SetUser diagUnexpectedEnd isoHint, by simp [checkElfSize, hd], rfl, rfl,
            fun h => absurd h h1, fun h => absurd h h2, fun _ => rfl⟩,
            Or.inr (Or.inr ⟨h1, h2, hle, h2⟩)⟩
        · have hd : checkElfSizeDiag size = none := by
            rw [checkElfSizeDiag_none_iff]; exact ⟨h1, h2, h3⟩
          simp [checkElfSize, hd] at hrej
  · cases hd : checkElfSizeDiag size <;> simp [checkElfSize, hd]

/-- Witness of C6 at the truncated size 10 and a default-constructed `Error`. -/
theorem checkElfSize_rejection_diagnostic_witness :
    (checkElfSize 10 (some {})).1 = false ∧
    (∃ e', (checkElfSize 10 (some {})).2 = some e' ∧
        e'.m_type = ErrorType.User ∧ e'.m_message = isoHint ∧
        ((10 : Int) > 0x0FFFFFFF → e'.m_description = diagOverLimit) ∧
        ((10 : Int) = -1 → e'.m_description = diagDoesNotExist) ∧
        ((10 : Int) ≤ (sizeof_ELF_HEADER : Int) ∧ (10 : Int) ≠ -1 →
          e'.m_description = diagUnexpectedEnd)) :=
  ⟨by decide, ((checkElfSize_rejection_diagnostic 10 {}).1 (by decide)).1⟩

/-! ## Loads inside the buffer -/

theorem byteAt_lt (data : List Nat) (off : Nat) : byteAt data off < 256 :=
  Nat.mod_lt _ (by decide)

theorem u16At_lt (data : List Nat) (off : Nat) : u16At data off < 2 ^ 16 := by
  have h0 := byteAt_lt data off
  have h1 := byteAt_lt data (off + 1)
  unfold u16At
  omega

theorem u32At_lt (data : List Nat) (off : Nat) : u32At data off < 2 ^ 32 := by
  have h0 := byteAt_lt data off
  have h1 := byteAt_lt data (off + 1)
  have h2 := byteAt_lt data (off + 2)
  have h3 := byteAt_lt data (off + 3)
  unfold u32At
  omega

theorem readU16_ok (data : List Nat) (off : Nat) (h : off + 2 ≤ data.length) :
    readU16 data off = Except.ok (u16At data off) := by
  simp [readU16, h]

theorem readU32_ok (data : List Nat) (off : Nat) (h : off + 4 ≤ data.length) :
    readU32 data off = Except.ok (u32At data off) := by
  simp [readU32, h]

theorem readU32_error (data : List Nat) (off : Nat) (h : data.length < off + 4) :
    readU32 data off = Except.error (Fault.outOfBounds off 4) := by
  simp [readU32, Nat.not_le.mpr h]

namespace ElfObject

/-! ## `initElfHeaders` -/

/-- The state `initElfHeaders(false)` leaves behind on a freshly filled image whose buffer
holds a whole ELF header. -/
theorem initElfHeaders_withBuffer (data : List Nat) (h : sizeof_ELF_HEADER ≤ data.length) :
    (withBuffer data).initElfHeaders false = Except.ok
      { data := data
        proghead :=
          if 0 < u16At data 44 ∧ u32At data 28 + sizeof_ELF_PHR ≤ data.length
          then some (u32At data 28) else none
        secthead :=
          if 0 < u16At data 48 ∧ u32At data 32 + sizeof_ELF_SHR ≤ data.length
          then some (u32At data 32) else none } := by
  simp only [sizeof_ELF_HEADER] at h
  have hp := u32At_lt data 28
  have hs := u32At_lt data 32
  have hpm : (u32At data 28 + sizeof_ELF_PHR) % 18446744073709551616
      = u32At data 28 + sizeof_ELF_PHR := by
    apply Nat.mod_eq_of_lt; simp only [sizeof_ELF_PHR]; omega
  have hsm : (u32At data 32 + sizeof_ELF_SHR) % 18446744073709551616
      = u32At data 32 + sizeof_ELF_SHR := by
    apply Nat.mod_eq_of_lt; simp only [sizeof_ELF_SHR]; omega
  simp only [initElfHeaders, initProghead, initSecthead, initDiagnostics, withBuffer,
    e_phnum, e_phoff, e_shnum, e_shoff, e_shentsize, e_phentsize, e_type, e_machine,
    readU16_ok data 44 (by omega), readU16_ok data 48 (by omega),
    readU16_ok data 42 (by omega), readU16_ok data 46 (by omega),
    readU16_ok data 16 (by omega), readU16_ok data 18 (by omega),
    readU32_ok data 28 (by omega), readU32_ok data 32 (by omega)]
  by_cases h1 : 0 < u16At data 44 <;> by_cases h2 : 0 < u16At data 48 <;>
    by_cases h3 : u32At data 28 + sizeof_ELF_PHR ≤ data.length <;>
    by_cases h4 : u32At data 32 + sizeof_ELF_SHR ≤ data.length <;>
    simp [h1, h2, h3, h4, hpm, hsm, bind, Except.bind, pure, Except.pure]

/-- C1: on a freshly constructed image whose buffer passed `checkElfSize`,
`initElfHeaders(false)` returns, and afterwards `hasProgramHeaders()` holds exactly when
`e_phnum > 0` and `e_phoff + sizeof(ELF_PHR) <= data.size()`, and `hasSectionHeaders()`
exactly when `e_shnum > 0` and `e_shoff + sizeof(ELF_SHR) <= data.size()`: each outcome
depends on the fields of its own table only. -/
theorem initElfHeaders_views_iff (data : List Nat)
    (hsize : (checkElfSize (data.length : Int) none).1 = true) :
    ∃ obj phnum phoff shnum shoff,
      (withBuffer data).initElfHeaders false = Except.ok obj ∧
      e_phnum data = Except.ok phnum ∧ e_phoff data = Except.ok phoff ∧
      e_shnum data = Except.ok shnum ∧ e_shoff data = Except.ok shoff ∧
      (obj.hasProgramHeaders = true ↔
        phnum > 0 ∧ phoff + sizeof_ELF_PHR ≤ data.length) ∧
      (obj.hasSectionHeaders = true ↔
        shnum > 0 ∧ shoff + sizeof_ELF_SHR ≤ data.length) := by
  have hlen := ((checkElfSize_length_iff data.length none).mp hsize).1
  simp only [sizeof_ELF_HEADER] at hlen
  refine ⟨_, u16At data 44, u32At data 28, u16At data 48, u32At data 32,
    initElfHeaders_withBuffer data (by simp only [sizeof_ELF_HEADER]; omega),
    readU16_ok data 44 (by omega), readU32_ok data 28 (by omega),
    readU16_ok data 48 (by omega), readU32_ok data 32 (by omega), ?_, ?_⟩
  · simp only [hasProgramHeaders]
    split_ifs with hc <;> simp [hc]
  · simp only [hasSectionHeaders]
    split_ifs with hc <;> simp [hc]

/-- Witness of C1: an image whose program-header offset is rejected and whose
section-header table is accepted. -/
theorem initElfHeaders_views_iff_witness :
    (checkElfSize (Fixture.sectionsOnly.length : Int) none).1 = true ∧
    ∃ obj phnum phoff shnum shoff,
      (withBuffer Fixture.sectionsOnly).initElfHeaders false = Except.ok obj ∧
      e_phnum Fixture.sectionsOnly = Except.ok phnum ∧
      e_phoff Fixture.sectionsOnly = Except.ok phoff ∧
      e_shnum Fixture.sectionsOnly = Except.ok shnum ∧
      e_shoff Fixture.sectionsOnly = Except.ok shoff ∧
      (obj.hasProgramHeaders = true ↔
        phnum > 0 ∧ phoff + sizeof_ELF_PHR ≤ Fixture.sectionsOnly.length) ∧
      (obj.hasSectionHeaders = true ↔
        shnum > 0 ∧ shoff + sizeof_ELF_SHR ≤ Fixture.sectionsOnly.length) :=
  ⟨by decide, initElfHeaders_views_iff Fixture.sectionsOnly (by decide)⟩

/-! ## Loads of the header tables outside the buffer -/

/-- C2, evaluated on the code: the 84-byte image declares `e_phnum = 2` at `e_phoff = 52`
and stores one program header. It passes `checkElfSize`, `initElfHeaders(false)` accepts
the table because its first entry fits, and then `getTextRange` loads `proghead[1].p_vaddr`
at offset 92 and `loadProgramHeaders` loads `proghead[1].p_type` at offset 84, both at or
past the end of the buffer. -/
theorem program_header_read_past_buffer :
    Fixture.twoDeclaredOneStored.length = 84 ∧
    (checkElfSize (Fixture.twoDeclaredOneStored.length : Int) none).1 = true ∧
    (withBuffer Fixture.twoDeclaredOneStored).initElfHeaders false
      = Except.ok ⟨Fixture.twoDeclaredOneStored, some 52, none⟩ ∧
    getTextRange ⟨Fixture.twoDeclaredOneStored, some 52, none⟩
      = Except.error (Fault.outOfBounds 92 4) ∧
    loadProgramHeaders ⟨Fixture.twoDeclaredOneStored, some 52, none⟩
      = Except.error (Fault.outOfBounds 84 4) :=
  ⟨rfl, by decide, rfl, rfl, rfl⟩

/-- C3, evaluated on the code: in the 92-byte image (one section header at offset 52,
`e_shstrndx = 1`) `loadSectionHeaders` loads `secthead[1].sh_offset` at offset 108, past
the end; in the 210-byte image whose symbol table declares 256 entries and stores two, it
loads `eS[2].st_value` at offset 208, of which two bytes lie past the end. Neither load is
preceded by a bounds check. -/
theorem section_header_read_past_buffer :
    Fixture.stringIndexPastTable.length = 92 ∧
    (checkElfSize (Fixture.stringIndexPastTable.length : Int) none).1 = true ∧
    (withBuffer Fixture.stringIndexPastTable).initElfHeaders false
      = Except.ok ⟨Fixture.stringIndexPastTable, none, some 52⟩ ∧
    loadSectionHeaders ⟨Fixture.stringIndexPastTable, none, some 52⟩ []
      = Except.error (Fault.outOfBounds 108 4) ∧
    (Fixture.symbolImage 0x1000).length = 210 ∧
    (checkElfSize ((Fixture.symbolImage 0x1000).length : Int) none).1 = true ∧
    (withBuffer (Fixture.symbolImage 0x1000)).initElfHeaders false
      = Except.ok ⟨Fixture.symbolImage 0x1000, none, some 52⟩ ∧
    loadSectionHeaders ⟨Fixture.symbolImage 0x1000, none, some 52⟩ []
      = Except.error (Fault.outOfBounds 208 4) :=
  ⟨rfl, by decide, rfl, rfl, rfl, by decide, rfl, rfl⟩

/-- C8, evaluated on the code: the 53-byte image declares `e_phnum = 1` at the offset
`0xffffffff`; `initElfHeaders(false)` rejects the offset and leaves `proghead` null (and
`initElfHeaders(true)` leaves it null as well), and `getTextRange`, which has no null test,
then loads `proghead[0].p_vaddr` through the null pointer, where `loadProgramHeaders`
returns at once. -/
theorem getTextRange_reads_through_null_view :
    (checkElfSize (Fixture.rejectedProgramTable.length : Int) none).1 = true ∧
    (withBuffer Fixture.rejectedProgramTable).initElfHeaders false
      = Except.ok ⟨Fixture.rejectedProgramTable, none, none⟩ ∧
    (withBuffer Fixture.rejectedProgramTable).initElfHeaders true
      = Except.ok ⟨Fixture.rejectedProgramTable, none, none⟩ ∧
    hasProgramHeaders ⟨Fixture.rejectedProgramTable, none, none⟩ = false ∧
    e_phnum Fixture.rejectedProgramTable = Except.ok 1 ∧
    getTextRange ⟨Fixture.rejectedProgramTable, none, none⟩ = Except.error Fault.nullDeref ∧
    loadProgramHeaders ⟨Fixture.rejectedProgramTable, none, none⟩ = Except.ok () :=
  ⟨by decide, rfl, rfl, rfl, rfl, rfl, rfl⟩

/-! ## `getTextRange` -/

/-- One iteration of the loop of `getTextRange` on an entry that lies inside the buffer. -/
theorem getTextRangeLoop_succ (data : List Nat) (base : Nat) (sh : Option Nat) (n i : Nat)
    (hhdr : sizeof_ELF_HEADER ≤ data.length)
    (hin : base + sizeof_ELF_PHR * (i + 1) ≤ data.length) :
    getTextRangeLoop ⟨data, some base, sh⟩ (n + 1) i =
      if p_vaddr data base i ≤ u32At data 24 ∧
          (p_vaddr data base i + p_memsz data base i) % 2 ^ 32 > u32At data 24
      then Except.ok (p_vaddr data base i, p_memsz data base i)
      else getTextRangeLoop ⟨data, some base, sh⟩ n (i + 1) := by
  simp only [sizeof_ELF_PHR, sizeof_ELF_HEADER] at hin hhdr
  have h1 : readU32 data (base + (32 * i + 8)) = Except.ok (p_vaddr data base i) :=
    readU32_ok data _ (by omega)
  have h2 : readU32 data (base + (32 * i + 20)) = Except.ok (p_memsz data base i) :=
    readU32_ok data _ (by omega)
  have h3 : readU32 data 24 = Except.ok (u32At data 24) := readU32_ok data _ (by omega)
  simp only [getTextRangeLoop, loadU32, sizeof_ELF_PHR, off_p_vaddr, off_p_memsz, e_entry,
    h1, h2, h3, bind, Except.bind, pure, Except.pure]

/-- The loop of `getTextRange` over entries that all lie inside the buffer: it returns the
pair of the first entry from `i` on whose 32-bit range contains the entry point, and
`(0, 0)` when there is none. -/
theorem getTextRangeLoop_spec (data : List Nat) (base : Nat) (sh : Option Nat)
    (hhdr : sizeof_ELF_HEADER ≤ data.length) :
    ∀ n i, base + sizeof_ELF_PHR * (i + n) ≤ data.length →
      (∀ k, i ≤ k → k < i + n →
        (p_vaddr data base k ≤ u32At data 24 ∧
          u32At data 24 < (p_vaddr data base k + p_memsz data base k) % 2 ^ 32) →
        (∀ j, i ≤ j → j < k →
          ¬ (p_vaddr data base j ≤ u32At data 24 ∧
            u32At data 24 < (p_vaddr data base j + p_memsz data base j) % 2 ^ 32)) →
        getTextRangeLoop ⟨data, some base, sh⟩ n i
          = Except.ok (p_vaddr data base k, p_memsz data base k)) ∧
      ((∀ k, i ≤ k → k < i + n →
          ¬ (p_vaddr data base k ≤ u32At data 24 ∧
            u32At data 24 < (p_vaddr data base k + p_memsz data base k) % 2 ^ 32)) →
        getTextRangeLoop ⟨data, some base, sh⟩ n i = Except.ok (0, 0)) := by
  intro n
  induction n with
  | zero =>
    intro i _
    exact ⟨fun k h1 h2 => by omega, fun _ => rfl⟩
  | succ n ih =>
    intro i hfit
    have hin : base + sizeof_ELF_PHR * (i + 1) ≤ data.length := by
      simp only [sizeof_ELF_PHR] at hfit ⊢; omega
    have hfit' : base + sizeof_ELF_PHR * (i + 1 + n) ≤ data.length := by
      simp only [sizeof_ELF_PHR] at hfit ⊢; omega
    rw [getTextRangeLoop_succ data base sh n i hhdr hin]
    obtain ⟨ih1, ih2⟩ := ih (i + 1) hfit'
    constructor
    · intro k hk1 hk2 hk hmin
      rcases Nat.eq_or_lt_of_le hk1 with heq | hlt
      · subst heq
        rw [if_pos ⟨hk.1, hk.2⟩]
      · rw [if_neg (fun hc => hmin i (le_refl i) hlt ⟨hc.1, hc.2⟩)]
        exact ih1 k hlt (by omega) hk (fun j hj1 hj2 => hmin j (by omega) hj2)
    · intro hnone
      rw [if_neg (fun hc => hnone i (le_refl i) (by omega) ⟨hc.1, hc.2⟩)]
      exact ih2 (fun k hk1 hk2 => hnone k (by omega) (by omega))

/-- The method `getTextRange` on a parsed image whose accepted program-header table lies
wholly inside the buffer. -/
theorem getTextRange_eq_loop (data : List Nat) (base : Nat) (sh : Option Nat)
    (hhdr : sizeof_ELF_HEADER ≤ data.length) :
    getTextRange ⟨data, some base, sh⟩
      = getTextRangeLoop ⟨data, some base, sh⟩ (u16At data 44) 0 := by
  simp only [sizeof_ELF_HEADER] at hhdr
  simp only [getTextRange, e_phnum, readU16_ok data 44 (by omega), bind, Except.bind]

/-- C7, counterexample: the image has an accepted table with one program header,
`p_vaddr = 0x00100000` and `p_memsz = 0xffffffff`; as integers
`p_vaddr <= e_entry < p_vaddr + p_memsz` for `e_entry = 0x00101000`, but the 32-bit sum
wraps to `0x000fffff` and `getTextRange` returns `(0, 0)`, not the pair of that header. -/
theorem getTextRange_misses_wrapping_segment :
    (checkElfSize (Fixture.segmentEndWraps.length : Int) none).1 = true ∧
    (withBuffer Fixture.segmentEndWraps).initElfHeaders false
      = Except.ok ⟨Fixture.segmentEndWraps, some 52, none⟩ ∧
    e_phnum Fixture.segmentEndWraps = Except.ok 1 ∧
    e_entry Fixture.segmentEndWraps = Except.ok 0x00101000 ∧
    p_vaddr Fixture.segmentEndWraps 52 0 = 0x00100000 ∧
    p_memsz Fixture.segmentEndWraps 52 0 = 0xffffffff ∧
    p_vaddr Fixture.segmentEndWraps 52 0 ≤ 0x00101000 ∧
    0x00101000 < p_vaddr Fixture.segmentEndWraps 52 0 + p_memsz Fixture.segmentEndWraps 52 0 ∧
    getTextRange ⟨Fixture.segmentEndWraps, some 52, none⟩ = Except.ok (0, 0) ∧
    getTextRange ⟨Fixture.segmentEndWraps, some 52, none⟩
      ≠ Except.ok (p_vaddr Fixture.segmentEndWraps 52 0, p_memsz Fixture.segmentEndWraps 52 0) :=
  ⟨by decide, rfl, rfl, rfl, rfl, rfl, by decide, by decide, rfl, by
    intro h
    have h2 : getTextRange ⟨Fixture.segmentEndWraps, some 52, none⟩ = Except.ok (0, 0) := rfl
    rw [h2] at h
    injection h with h
    have h3 := congrArg Prod.fst h
    revert h3
    decide⟩

/-- C7, amended: on an image parsed by `initElfHeaders(false)` whose accepted
program-header table holds all its `e_phnum` entries inside the buffer, `getTextRange`
returns `(p_vaddr, p_memsz)` of the lowest-index entry with
`p_vaddr <= e_entry < (p_vaddr + p_memsz) mod 2^32`, and `(0, 0)` when no entry
satisfies this. -/
theorem getTextRange_first_match (data : List Nat)
    (hsize : (checkElfSize (data.length : Int) none).1 = true)
    (obj : ElfObject) (hobj : (withBuffer data).initElfHeaders false = Except.ok obj)
    (base : Nat) (hbase : obj.proghead = some base)
    (phnum entry : Nat) (hphnum : e_phnum data = Except.ok phnum)
    (hentry : e_entry data = Except.ok entry)
    (hfit : base + sizeof_ELF_PHR * phnum ≤ data.length) :
    (∀ i, i < phnum →
      (p_vaddr data base i ≤ entry ∧
        entry < (p_vaddr data base i + p_memsz data base i) % 2 ^ 32) →
      (∀ j, j < i →
        ¬ (p_vaddr data base j ≤ entry ∧
          entry < (p_vaddr data base j + p_memsz data base j) % 2 ^ 32)) →
      obj.getTextRange = Except.ok (p_vaddr data base i, p_memsz data base i)) ∧
    ((∀ i, i < phnum →
        ¬ (p_vaddr data base i ≤ entry ∧
          entry < (p_vaddr data base i + p_memsz data base i) % 2 ^ 32)) →
      obj.getTextRange = Except.ok (0, 0)) := by
  have hlen := ((checkElfSize_length_iff data.length none).mp hsize).1
  have hhdr : sizeof_ELF_HEADER ≤ data.length := le_of_lt hlen
  simp only [sizeof_ELF_HEADER] at hlen
  rw [initElfHeaders_withBuffer data hhdr] at hobj
  injection hobj with hobj
  subst hobj
  simp only at hbase
  rw [e_phnum, readU16_ok data 44 (by omega)] at hphnum
  injection hphnum with hphnum
  rw [e_entry, readU32_ok data 24 (by omega)] at hentry
  injection hentry with hentry
  subst hphnum hentry
  rw [hbase, getTextRange_eq_loop data base _ hhdr]
  obtain ⟨h1, h2⟩ := getTextRangeLoop_spec data base
    (if 0 < u16At data 48 ∧ u32At data 32 + sizeof_ELF_SHR ≤ data.length
      then some (u32At data 32) else none) hhdr (u16At data 44) 0 (by simpa using hfit)
  constructor
  · intro i hi hc hmin
    exact h1 i (Nat.zero_le i) (by omega) hc (fun j _ hj => hmin j hj)
  · intro hnone
    exact h2 (fun k _ hk => hnone k (by omega))

/-- Witness of C7 (the example of section 8): one program header with
`p_vaddr = 0x00100000`, `p_memsz = 0x2000` and `e_entry = 0x00101000` gives
`(0x00100000, 0x2000)`. -/
theorem getTextRange_first_match_witness :
    (checkElfSize (Fixture.entryInsideSegment.length : Int) none).1 = true ∧
    (withBuffer Fixture.entryInsideSegment).initElfHeaders false
      = Except.ok ⟨Fixture.entryInsideSegment, some 52, none⟩ ∧
    e_phnum Fixture.entryInsideSegment = Except.ok 1 ∧
    e_entry Fixture.entryInsideSegment = Except.ok 0x00101000 ∧
    52 + sizeof_ELF_PHR * 1 ≤ Fixture.entryInsideSegment.length ∧
    getTextRange ⟨Fixture.entryInsideSegment, some 52, none⟩
      = Except.ok (0x00100000, 0x2000) :=
  ⟨by decide, rfl, rfl, rfl, by decide,
    (getTextRange_first_match Fixture.entryInsideSegment (by decide)
      ⟨Fixture.entryInsideSegment, some 52, none⟩ rfl 52 rfl 1 0x00101000 rfl rfl
      (by decide)).1 0 (by decide) (by decide) (fun j hj => absurd hj (Nat.not_lt_zero j))⟩

/-! ### `getTextRange` and the type of the segment -/

theorem length_pokeU32 (data : List Nat) (off v : Nat) :
    (Fixture.pokeU32 data off v).length = data.length := by
  simp [Fixture.pokeU32]

theorem byteAt_set_ne (data : List Nat) (k j v : Nat) (h : k ≠ j) :
    byteAt (data.set k v) j = byteAt data j := by
  simp [byteAt, List.getD_eq_getElem?_getD, List.getElem?_set_ne h]

theorem byteAt_set_eq (data : List Nat) (k v : Nat) (h : k < data.length) :
    byteAt (data.set k v) k = v % 256 := by
  simp [byteAt, List.getD_eq_getElem?_getD, h]

theorem byteAt_pokeU32_of_disjoint (data : List Nat) (off v j : Nat)
    (h : j < off ∨ off + 4 ≤ j) : byteAt (Fixture.pokeU32 data off v) j = byteAt data j := by
  unfold Fixture.pokeU32
  rw [byteAt_set_ne _ _ _ _ (by omega), byteAt_set_ne _ _ _ _ (by omega),
    byteAt_set_ne _ _ _ _ (by omega), byteAt_set_ne _ _ _ _ (by omega)]

theorem u16At_pokeU32_of_disjoint (data : List Nat) (off v o : Nat)
    (h : o + 2 ≤ off ∨ off + 4 ≤ o) : u16At (Fixture.pokeU32 data off v) o = u16At data o := by
  unfold u16At
  rw [byteAt_pokeU32_of_disjoint _ _ _ _ (by omega),
    byteAt_pokeU32_of_disjoint _ _ _ _ (by omega)]

theorem u32At_pokeU32_of_disjoint (data : List Nat) (off v o : Nat)
    (h : o + 4 ≤ off ∨ off + 4 ≤ o) : u32At (Fixture.pokeU32 data off v) o = u32At data o := by
  unfold u32At
  rw [byteAt_pokeU32_of_disjoint _ _ _ _ (by omega),
    byteAt_pokeU32_of_disjoint _ _ _ _ (by omega),
    byteAt_pokeU32_of_disjoint _ _ _ _ (by omega),
    byteAt_pokeU32_of_disjoint _ _ _ _ (by omega)]

theorem u32At_pokeU32_self (data : List Nat) (off v : Nat) (h : off + 4 ≤ data.length) :
    u32At (Fixture.pokeU32 data off v) off = v % 2 ^ 32 := by
  unfold u32At Fixture.pokeU32
  rw [byteAt_set_ne _ _ _ _ (by omega), byteAt_set_ne _ _ _ _ (by omega),
    byteAt_set_ne _ _ _ _ (by omega), byteAt_set_eq _ _ _ (by omega),
    byteAt_set_ne _ _ _ _ (by omega), byteAt_set_ne _ _ _ _ (by omega),
    byteAt_set_eq _ _ _ (by simp; omega),
    byteAt_set_ne _ _ _ _ (by omega), byteAt_set_eq _ _ _ (by simp; omega),
    byteAt_set_eq _ _ _ (by simp; omega)]
  omega

/-- The loop of `getTextRange` through a null `proghead`: no load when no iteration is
left, a fault otherwise, whatever the buffer holds. -/
theorem getTextRangeLoop_null (data : List Nat) (sh : Option Nat) (n i : Nat) :
    getTextRangeLoop ⟨data, none, sh⟩ n i
      = if n = 0 then Except.ok (0, 0) else Except.error Fault.nullDeref := by
  cases n with
  | zero => rfl
  | succ n => simp [getTextRangeLoop, loadU32, bind, Except.bind]

/-- The loop of `getTextRange` does not see a store into the `p_type` field of an entry of
a table that starts after the ELF header. -/
theorem getTextRangeLoop_pokeU32_p_type (data : List Nat) (base : Nat) (sh sh' : Option Nat)
    (hlay : sizeof_ELF_HEADER ≤ base) (i0 t : Nat) :
    ∀ n i,
      getTextRangeLoop
        ⟨Fixture.pokeU32 data (base + (sizeof_ELF_PHR * i0 + off_p_type)) t, some base, sh'⟩ n i
      = getTextRangeLoop ⟨data, some base, sh⟩ n i := by
  simp only [sizeof_ELF_HEADER] at hlay
  intro n
  induction n with
  | zero => intro i; rfl
  | succ n ih =>
    intro i
    have hr : ∀ o, o + 4 ≤ base + (32 * i0 + 0) ∨ base + (32 * i0 + 0) + 4 ≤ o →
        readU32 (Fixture.pokeU32 data (base + (32 * i0 + 0)) t) o = readU32 data o := by
      intro o ho
      simp only [readU32, length_pokeU32, u32At_pokeU32_of_disjoint data _ t o ho]
    simp only [getTextRangeLoop, loadU32, sizeof_ELF_PHR, off_p_vaddr, off_p_memsz, off_p_type,
      e_entry, hr (base + (32 * i + 8)) (by omega), hr (base + (32 * i + 20)) (by omega),
      hr 24 (by omega)]
    simp only [sizeof_ELF_PHR, off_p_type] at ih
    simp only [ih]

/-- C9, counterexample: the image has an accepted table with one program header of type
0 (`PT_NULL`, not loadable) whose range contains `e_entry`, and `getTextRange` returns
the pair of that header. -/
theorem getTextRange_returns_non_loadable :
    (checkElfSize (Fixture.entryInsideNullTypeSegment.length : Int) none).1 = true ∧
    (withBuffer Fixture.entryInsideNullTypeSegment).initElfHeaders false
      = Except.ok ⟨Fixture.entryInsideNullTypeSegment, some 52, none⟩ ∧
    e_phnum Fixture.entryInsideNullTypeSegment = Except.ok 1 ∧
    p_type Fixture.entryInsideNullTypeSegment 52 0 = 0 ∧
    p_type Fixture.entryInsideNullTypeSegment 52 0 ≠ 1 ∧
    getTextRange ⟨Fixture.entryInsideNullTypeSegment, some 52, none⟩
      = Except.ok (p_vaddr Fixture.entryInsideNullTypeSegment 52 0,
          p_memsz Fixture.entryInsideNullTypeSegment 52 0) ∧
    getTextRange ⟨Fixture.entryInsideNullTypeSegment, some 52, none⟩
      = Except.ok (0x00100000, 0x2000) :=
  ⟨by decide, rfl, rfl, rfl, by decide, rfl, rfl⟩

/-- C9, amended: `getTextRange` does not look at `p_type`. On an image that passes
`checkElfSize` and whose program-header table starts after the ELF header, storing any
value `t` into the `p_type` field of any entry `i` leaves the outcome of
`initElfHeaders(false)` followed by `getTextRange` unchanged, and the stored type is read
back as `t` when the field lies inside the buffer: the segment returned is the first one
whose range contains `e_entry`, loadable or not. -/
theorem getTextRange_ignores_p_type (data : List Nat)
    (hsize : (checkElfSize (data.length : Int) none).1 = true)
    (phoff : Nat) (hphoff : e_phoff data = Except.ok phoff)
    (hlay : sizeof_ELF_HEADER ≤ phoff) (i t : Nat) :
    ((withBuffer (Fixture.pokeU32 data (phoff + (sizeof_ELF_PHR * i + off_p_type)) t)).initElfHeaders
        false >>= getTextRange)
      = ((withBuffer data).initElfHeaders false >>= getTextRange) ∧
    (phoff + (sizeof_ELF_PHR * i + off_p_type) + 4 ≤ data.length →
      p_type (Fixture.pokeU32 data (phoff + (sizeof_ELF_PHR * i + off_p_type)) t) phoff i
        = t % 2 ^ 32) := by
  have hlen := ((checkElfSize_length_iff data.length none).mp hsize).1
  have hhdr : sizeof_ELF_HEADER ≤ data.length := le_of_lt hlen
  refine ⟨?_, fun hin => u32At_pokeU32_self data _ t hin⟩
  simp only [sizeof_ELF_HEADER] at hlen hlay
  rw [e_phoff, readU32_ok data 28 (by omega)] at hphoff
  injection hphoff with hphoff
  subst hphoff
  set q := u32At data 28 + (sizeof_ELF_PHR * i + off_p_type) with hq
  have hqge : 52 ≤ q := by omega
  have h16 : ∀ o, o + 2 ≤ 52 → u16At (Fixture.pokeU32 data q t) o = u16At data o :=
    fun o ho => u16At_pokeU32_of_disjoint data q t o (by omega)
  have h32 : ∀ o, o + 4 ≤ 52 → u32At (Fixture.pokeU32 data q t) o = u32At data o :=
    fun o ho => u32At_pokeU32_of_disjoint data q t o (by omega)
  rw [initElfHeaders_withBuffer data hhdr,
    initElfHeaders_withBuffer (Fixture.pokeU32 data q t) (by rw [length_pokeU32]; exact hhdr)]
  simp only [length_pokeU32, h16 44 (by omega), h16 48 (by omega), h32 28 (by omega),
    h32 32 (by omega), bind, Except.bind]
  by_cases hc : 0 < u16At data 44 ∧ u32At data 28 + sizeof_ELF_PHR ≤ data.length
  · simp only [hc, and_self, if_true]
    rw [getTextRange_eq_loop _ _ _ (by rw [length_pokeU32]; exact hhdr),
      getTextRange_eq_loop _ _ _ hhdr, h16 44 (by omega)]
    exact getTextRangeLoop_pokeU32_p_type data (u32At data 28) _ _
      (by simp only [sizeof_ELF_HEADER]; omega) i t _ 0
  · simp only [hc, if_false]
    simp only [getTextRange, e_phnum, readU16_ok data 44 (by omega),
      readU16_ok (Fixture.pokeU32 data q t) 44 (by rw [length_pokeU32]; omega),
      h16 44 (by omega), bind, Except.bind, getTextRangeLoop_null]

/-- Witness of C9: in the image of section 8 the type of the only program header is set
to 4 (`PT_NOTE`); `getTextRange` still answers `(0x00100000, 0x2000)`. -/
theorem getTextRange_ignores_p_type_witness :
    (checkElfSize (Fixture.entryInsideSegment.length : Int) none).1 = true ∧
    e_phoff Fixture.entryInsideSegment = Except.ok 52 ∧ sizeof_ELF_HEADER ≤ 52 ∧
    ((withBuffer (Fixture.pokeU32 Fixture.entryInsideSegment
        (52 + (sizeof_ELF_PHR * 0 + off_p_type)) 4)).initElfHeaders false >>= getTextRange)
      = ((withBuffer Fixture.entryInsideSegment).initElfHeaders false >>= getTextRange) ∧
    ((withBuffer Fixture.entryInsideSegment).initElfHeaders false >>= getTextRange)
      = Except.ok (0x00100000, 0x2000) :=
  ⟨by decide, rfl, by decide,
    (getTextRange_ignores_p_type Fixture.entryInsideSegment (by decide) 52 rfl (by decide)
      0 4).1, rfl⟩

/-! ## `getCRC` -/

/-- The loop of `getCRC` over `i` words that lie inside the buffer, entered after `j`
words: it returns, with the XOR of the first `j + i` words. -/
theorem getCRCLoop_spec (data : List Nat) :
    ∀ i j, 4 * (j + i) ≤ data.length →
      getCRCLoop data i (4 * j) (xorOfFirstWords data j)
        = Except.ok (xorOfFirstWords data (j + i)) := by
  intro i
  induction i with
  | zero => intro j _; rfl
  | succ i ih =>
    intro j h
    have hr : readU32 data (4 * j) = Except.ok (u32At data (4 * j)) :=
      readU32_ok data _ (by omega)
    have hstep := ih (j + 1) (by omega)
    simp only [getCRCLoop, hr, bind, Except.bind]
    rw [show j + (i + 1) = j + 1 + i by omega, ← hstep]
    rfl

/-- The method `getCRC` returns on every buffer, with the XOR of its first
`(n mod 2^32) / 4` words. -/
theorem getCRC_eq (obj : ElfObject) :
    obj.getCRC
      = Except.ok (xorOfFirstWords obj.data (obj.data.length % 2 ^ 32 / 4)) := by
  have h := getCRCLoop_spec obj.data (obj.data.length % 2 ^ 32 / 4) 0 (by omega)
  simpa [getCRC, xorOfFirstWords] using h

theorem byteAt_take (data : List Nat) (m j : Nat) (h : j < m) :
    byteAt (data.take m) j = byteAt data j := by
  simp [byteAt, List.getD_eq_getElem?_getD, List.getElem?_take, h]

theorem xorOfFirstWords_take (data : List Nat) (m : Nat) :
    ∀ k, 4 * k ≤ m → xorOfFirstWords (data.take m) k = xorOfFirstWords data k := by
  intro k
  induction k with
  | zero => intro _; rfl
  | succ k ih =>
    intro h
    simp only [xorOfFirstWords, ih (by omega), u32At, byteAt_take data m (4 * k) (by omega),
      byteAt_take data m (4 * k + 1) (by omega), byteAt_take data m (4 * k + 2) (by omega),
      byteAt_take data m (4 * k + 3) (by omega)]

theorem byteAt_fourGiB (N j : Nat) :
    byteAt (1 :: List.replicate N 0) j = if j = 0 then 1 else 0 := by
  cases j with
  | zero => simp [byteAt]
  | succ j =>
    have h0 : (List.replicate N 0).getD j 0 = 0 := by
      simp only [List.getD_eq_getElem?_getD, List.getElem?_replicate]
      split_ifs <;> rfl
    simp only [byteAt, List.getD_cons_succ, h0]
    simp

theorem xorOfFirstWords_fourGiB (N : Nat) :
    ∀ k, xorOfFirstWords (1 :: List.replicate N 0) (k + 1) = 1 := by
  intro k
  induction k with
  | zero => simp [xorOfFirstWords, u32At, byteAt_fourGiB]
  | succ k ih =>
    rw [xorOfFirstWords, ih]
    simp [u32At, byteAt_fourGiB]

/-- Beyond the sizes a load admits the word count `static_cast<u32>(data.size()) / 4`
truncates: for a buffer of `n = 2^32` bytes that starts with the byte 1 and is zero
elsewhere it is 0 and `getCRC` returns 0, while the XOR of the first `n / 4` words is 1.
No load leaves such a buffer, `checkElfSize` admits at most `0x0FFFFFFF` bytes. -/
theorem getCRC_four_GiB_buffer :
    Fixture.fourGiB.length = 2 ^ 32 ∧
    getCRC (withBuffer Fixture.fourGiB) = Except.ok 0 ∧
    xorOfFirstWords Fixture.fourGiB (Fixture.fourGiB.length / 4) = 1 ∧
    getCRC (withBuffer Fixture.fourGiB)
      ≠ Except.ok (xorOfFirstWords Fixture.fourGiB (Fixture.fourGiB.length / 4)) := by
  have hlen : Fixture.fourGiB.length = 2 ^ 32 := by
    unfold Fixture.fourGiB
    rw [List.length_cons, List.length_replicate]
    norm_num
  have hcrc : getCRC (withBuffer Fixture.fourGiB) = Except.ok 0 := by
    rw [getCRC_eq]
    have hd : (withBuffer Fixture.fourGiB).data = Fixture.fourGiB := rfl
    rw [hd, hlen, show (2 : Nat) ^ 32 % 2 ^ 32 / 4 = 0 by norm_num, xorOfFirstWords]
  have hxor : xorOfFirstWords Fixture.fourGiB (Fixture.fourGiB.length / 4) = 1 := by
    rw [hlen, show (2 : Nat) ^ 32 / 4 = 1073741823 + 1 by norm_num]
    unfold Fixture.fourGiB
    exact xorOfFirstWords_fourGiB _ _
  refine ⟨hlen, hcrc, hxor, ?_⟩
  rw [hcrc, hxor]
  intro h
  injection h with h
  exact absurd h (by decide)

/-! ### `getCRC` and the order of the words -/

/-- The words of a buffer after the exchange of the words at positions `i` and `j`. -/
theorem u32At_swapWords (data : List Nat) (i j w : Nat)
    (hi : 4 * i + 4 ≤ data.length) (hj : 4 * j + 4 ≤ data.length) :
    u32At (Fixture.swapWords data i j) (4 * w)
      = if w = j then u32At data (4 * i)
        else if w = i then u32At data (4 * j) else u32At data (4 * w) := by
  unfold Fixture.swapWords
  by_cases hwj : w = j
  · subst hwj
    rw [if_pos rfl, u32At_pokeU32_self _ _ _ (by rw [length_pokeU32]; exact hj)]
    exact Nat.mod_eq_of_lt (u32At_lt data _)
  · rw [if_neg hwj, u32At_pokeU32_of_disjoint _ _ _ _ (by omega)]
    by_cases hwi : w = i
    · subst hwi
      rw [if_pos rfl, u32At_pokeU32_self _ _ _ hi]
      exact Nat.mod_eq_of_lt (u32At_lt data _)
    · rw [if_neg hwi, u32At_pokeU32_of_disjoint _ _ _ _ (by omega)]

/-- The XOR of the first `k` words after the exchange of two different positions: each of
the two positions, once passed, contributes the XOR of the two exchanged words. -/
theorem xorOfFirstWords_swapWords (data : List Nat) (i j : Nat) (hij : i ≠ j)
    (hi : 4 * i + 4 ≤ data.length) (hj : 4 * j + 4 ≤ data.length) :
    ∀ k, xorOfFirstWords (Fixture.swapWords data i j) k
      = xorOfFirstWords data k
        ^^^ (if i < k then u32At data (4 * i) ^^^ u32At data (4 * j) else 0)
        ^^^ (if j < k then u32At data (4 * i) ^^^ u32At data (4 * j) else 0) := by
  intro k
  induction k with
  | zero => simp [xorOfFirstWords]
  | succ k ih =>
    rw [xorOfFirstWords, xorOfFirstWords, ih, u32At_swapWords data i j k hi hj]
    by_cases hkj : k = j
    · subst hkj
      have h1 : ¬ k < k := lt_irrefl k
      have h2 : k < k + 1 := Nat.lt_succ_self k
      have h3 : (i < k + 1) = (i < k) := by
        apply propext; constructor <;> intro h <;> omega
      simp only [if_pos rfl, h1, h2, h3, if_true, if_false, Nat.xor_zero]
      generalize (if i < k then u32At data (4 * i) ^^^ u32At data (4 * k) else 0) = c
      generalize xorOfFirstWords data k = x
      generalize u32At data (4 * i) = a
      generalize u32At data (4 * k) = b
      apply Nat.eq_of_testBit_eq
      intro n
      simp only [Nat.testBit_xor]
      generalize x.testBit n = p
      generalize a.testBit n = q
      generalize b.testBit n = r
      generalize c.testBit n = t
      revert p q r t
      decide
    · by_cases hki : k = i
      · subst hki
        have h1 : ¬ k < k := lt_irrefl k
        have h2 : k < k + 1 := Nat.lt_succ_self k
        have h3 : (j < k + 1) = (j < k) := by
          apply propext; constructor <;> intro h <;> omega
        simp only [if_neg hkj, if_pos rfl, h1, h2, h3, if_true, if_false, Nat.xor_zero]
        generalize (if j < k then u32At data (4 * k) ^^^ u32At data (4 * j) else 0) = c
        generalize xorOfFirstWords data k = x
        generalize u32At data (4 * k) = a
        generalize u32At data (4 * j) = b
        apply Nat.eq_of_testBit_eq
        intro n
        simp only [Nat.testBit_xor]
        generalize x.testBit n = p
        generalize a.testBit n = q
        generalize b.testBit n = r
        generalize c.testBit n = t
        revert p q r t
        decide
      · have h3 : (j < k + 1) = (j < k) := by
          apply propext; constructor <;> intro h <;> omega
        have h4 : (i < k + 1) = (i < k) := by
          apply propext; constructor <;> intro h <;> omega
        simp only [if_neg hkj, if_neg hki, h3, h4]
        ac_rfl

/-- The exchange of two words that both lie among the first `k` leaves the XOR of the
first `k` words unchanged. -/
theorem xorOfFirstWords_swapWords_eq (data : List Nat) (i j k : Nat)
    (hi : 4 * i + 4 ≤ data.length) (hj : 4 * j + 4 ≤ data.length)
    (hik : i < k) (hjk : j < k) :
    xorOfFirstWords (Fixture.swapWords data i j) k = xorOfFirstWords data k := by
  by_cases hij : i = j
  · subst hij
    have hw : ∀ n, xorOfFirstWords (Fixture.swapWords data i i) n = xorOfFirstWords data n := by
      intro n
      induction n with
      | zero => rfl
      | succ n ih =>
        rw [xorOfFirstWords, xorOfFirstWords, ih, u32At_swapWords data i i n hi hi]
        by_cases hn : n = i
        · subst hn; simp
        · simp [hn]
    exact hw k
  · rw [xorOfFirstWords_swapWords data i j hij hi hj k, if_pos hik, if_pos hjk,
      Nat.xor_assoc, Nat.xor_self, Nat.xor_zero]

/-- C11, counterexample: the eight-byte buffer holds the words 1 and 2 at positions 0
and 1; the words differ, the exchange gives the buffer with the words 2 and 1, and both
buffers have the checksum 3. -/
theorem getCRC_unchanged_by_swap :
    [1, 0, 0, 0, 2, 0, 0, 0].length = 4 * 2 ∧
    u32At [1, 0, 0, 0, 2, 0, 0, 0] (4 * 0) ≠ u32At [1, 0, 0, 0, 2, 0, 0, 0] (4 * 1) ∧
    Fixture.swapWords [1, 0, 0, 0, 2, 0, 0, 0] 0 1 = [2, 0, 0, 0, 1, 0, 0, 0] ∧
    getCRC (withBuffer [1, 0, 0, 0, 2, 0, 0, 0]) = Except.ok 3 ∧
    getCRC (withBuffer (Fixture.swapWords [1, 0, 0, 0, 2, 0, 0, 0] 0 1)) = Except.ok 3 ∧
    ¬ (getCRC (withBuffer (Fixture.swapWords [1, 0, 0, 0, 2, 0, 0, 0] 0 1))
        ≠ getCRC (withBuffer [1, 0, 0, 0, 2, 0, 0, 0])) :=
  ⟨rfl, by decide, rfl, rfl, rfl, fun h => h rfl⟩

/-- C11, amended: `getCRC` does not depend on the order of the words. For every buffer
of fewer than `2^32` bytes and every two word positions `i`, `j` inside it, the buffer
obtained by exchanging the words at `i` and `j` (it holds the old word `j` at `i` and the
old word `i` at `j`) has the same `getCRC` as the original. -/
theorem getCRC_swap_invariant (data : List Nat) (i j : Nat)
    (hlen : data.length < 2 ^ 32)
    (hi : 4 * i + 4 ≤ data.length) (hj : 4 * j + 4 ≤ data.length) :
    getCRC (withBuffer (Fixture.swapWords data i j)) = getCRC (withBuffer data) ∧
    u32At (Fixture.swapWords data i j) (4 * i) = u32At data (4 * j) ∧
    u32At (Fixture.swapWords data i j) (4 * j) = u32At data (4 * i) := by
  refine ⟨?_, ?_, ?_⟩
  · rw [getCRC_eq, getCRC_eq]
    have hl : (Fixture.swapWords data i j).length = data.length := by
      simp [Fixture.swapWords, length_pokeU32]
    simp only [withBuffer, hl, Nat.mod_eq_of_lt hlen]
    rw [xorOfFirstWords_swapWords_eq data i j _ hi hj (by omega) (by omega)]
  · rw [u32At_swapWords data i j i hi hj]
    by_cases h : i = j
    · subst h; simp
    · simp [h]
  · rw [u32At_swapWords data i j j hi hj]
    simp

/-- Witness of C11: a twelve-byte buffer whose words at positions 0 and 2 differ. -/
theorem getCRC_swap_invariant_witness :
    [7, 0, 0, 1, 2, 2, 2, 2, 9, 8, 0, 0].length < 2 ^ 32 ∧
    u32At [7, 0, 0, 1, 2, 2, 2, 2, 9, 8, 0, 0] (4 * 0)
      ≠ u32At [7, 0, 0, 1, 2, 2, 2, 2, 9, 8, 0, 0] (4 * 2) ∧
    getCRC (withBuffer (Fixture.swapWords [7, 0, 0, 1, 2, 2, 2, 2, 9, 8, 0, 0] 0 2))
      = getCRC (withBuffer [7, 0, 0, 1, 2, 2, 2, 2, 9, 8, 0, 0]) :=
  ⟨by decide, by decide,
    (getCRC_swap_invariant [7, 0, 0, 1, 2, 2, 2, 2, 9, 8, 0, 0] 0 2 (by decide) (by decide)
      (by decide)).1⟩

/-! ## The legacy format -/

/-- C17: for every buffer, `initElfHeaders(true)` returns without loading any header field
and leaves a freshly constructed image as it was, so `hasProgramHeaders()`,
`hasSectionHeaders()` and `hasHeaders()` are all false whatever the bytes are. -/
theorem initElfHeaders_legacy (data : List Nat) :
    (withBuffer data).initElfHeaders true = Except.ok (withBuffer data) ∧
    (withBuffer data).hasProgramHeaders = false ∧
    (withBuffer data).hasSectionHeaders = false ∧
    (withBuffer data).hasHeaders = false :=
  ⟨rfl, rfl, rfl, rfl⟩

/-! ## The load operations -/

/-- The state `initElfHeaders(false)` leaves behind on any image whose buffer holds a whole
ELF header: a view is set when its table is accepted and keeps its old value otherwise. -/
theorem initElfHeaders_eq (self : ElfObject) (h : sizeof_ELF_HEADER ≤ self.data.length) :
    self.initElfHeaders false = Except.ok
      { data := self.data
        proghead :=
          if 0 < u16At self.data 44 ∧ u32At self.data 28 + sizeof_ELF_PHR ≤ self.data.length
          then some (u32At self.data 28) else self.proghead
        secthead :=
          if 0 < u16At self.data 48 ∧ u32At self.data 32 + sizeof_ELF_SHR ≤ self.data.length
          then some (u32At self.data 32) else self.secthead } := by
  obtain ⟨data, ph, sh⟩ := self
  simp only [sizeof_ELF_HEADER] at h
  have hp := u32At_lt data 28
  have hs := u32At_lt data 32
  have hpm : (u32At data 28 + sizeof_ELF_PHR) % 18446744073709551616
      = u32At data 28 + sizeof_ELF_PHR := by
    apply Nat.mod_eq_of_lt; simp only [sizeof_ELF_PHR]; omega
  have hsm : (u32At data 32 + sizeof_ELF_SHR) % 18446744073709551616
      = u32At data 32 + sizeof_ELF_SHR := by
    apply Nat.mod_eq_of_lt; simp only [sizeof_ELF_SHR]; omega
  simp only [initElfHeaders, initProghead, initSecthead, initDiagnostics,
    e_phnum, e_phoff, e_shnum, e_shoff, e_shentsize, e_phentsize, e_type, e_machine,
    readU16_ok data 44 (by omega), readU16_ok data 48 (by omega),
    readU16_ok data 42 (by omega), readU16_ok data 46 (by omega),
    readU16_ok data 16 (by omega), readU16_ok data 18 (by omega),
    readU32_ok data 28 (by omega), readU32_ok data 32 (by omega)]
  by_cases h1 : 0 < u16At data 44 <;> by_cases h2 : 0 < u16At data 48 <;>
    by_cases h3 : u32At data 28 + sizeof_ELF_PHR ≤ data.length <;>
    by_cases h4 : u32At data 32 + sizeof_ELF_SHR ≤ data.length <;>
    simp [h1, h2, h3, h4, hpm, hsm, bind, Except.bind, pure, Except.pure]

theorem length_resize (data : List Nat) (n : Nat) : (resize data n).length = n := by
  simp only [resize, List.length_append, List.length_take, List.length_replicate]
  omega

theorem u32ToInt_of_lt (x : Nat) (h : x < 2 ^ 31) : u32ToInt x = (x : Int) := by
  unfold u32ToInt
  rw [if_pos h]

/-- What the read of `openIsoFile` does when the length passed `checkElfSize`: it delivers
`min(length, available)` bytes into the resized buffer. -/
theorem read_of_accepted (self : ElfObject) (isofile : IsoFile)
    (hacc : (checkElfSize (isofile.getLength : Int) none).1 = true) :
    u32ToInt isofile.getLength = (isofile.getLength : Int) ∧
    isofile.read (resize self.data isofile.getLength) (u32ToInt isofile.getLength)
      = (((min isofile.getLength isofile.content.length : Nat) : Int),
          isofile.content.take (min isofile.getLength isofile.content.length)
            ++ (resize self.data isofile.getLength).drop
              (min isofile.getLength isofile.content.length)) := by
  have hr := (checkElfSize_length_iff _ none).mp hacc
  have h1 : u32ToInt isofile.getLength = (isofile.getLength : Int) :=
    u32ToInt_of_lt _ (by omega)
  refine ⟨h1, ?_⟩
  rw [h1]
  simp only [IsoFile.read, Int.toNat_ofNat]

/-- Size rejected: `openIsoFile` returns false before it touches the image. -/
theorem openIsoFile_rejected (self : ElfObject) (isofile : IsoFile) (isPSXElf : Bool)
    (error : Option Error)
    (hrej : (checkElfSize (isofile.getLength : Int) error).1 = false) :
    self.openIsoFile isofile isPSXElf error
      = Except.ok (false, self, (checkElfSize (isofile.getLength : Int) error).2) := by
  rcases hc : checkElfSize (isofile.getLength : Int) error with ⟨b, e'⟩
  rw [hc] at hrej
  simp only at hrej
  subst hrej
  simp only [openIsoFile, hc]

/-- Short read: `openIsoFile` returns false with the buffer resized and partly filled. -/
theorem openIsoFile_short (self : ElfObject) (isofile : IsoFile) (isPSXElf : Bool)
    (e : Error)
    (hacc : (checkElfSize (isofile.getLength : Int) none).1 = true)
    (hshort : isofile.content.length < isofile.getLength) :
    self.openIsoFile isofile isPSXElf (some e)
      = Except.ok (false,
          { self with data := isofile.content
              ++ (resize self.data isofile.getLength).drop isofile.content.length },
          some (e.SetUser "Failed to read ELF from ISO" "")) := by
  have hr := (checkElfSize_length_iff _ none).mp hacc
  obtain ⟨h1, h2⟩ := read_of_accepted self isofile hacc
  have hmin : min isofile.getLength isofile.content.length = isofile.content.length := by
    omega
  have hc := checkElfSize_in_range (isofile.getLength : Int) (some e)
    (by exact_mod_cast hr.1) (by omega)
  rw [h1] at h2
  simp only [openIsoFile, hc, h1, h2, hmin, List.take_length]
  rw [if_pos (by exact_mod_cast hshort)]

/-- Full read: `openIsoFile` goes on to `initElfHeaders` with the buffer holding the first
`length` delivered bytes. -/
theorem openIsoFile_full (self : ElfObject) (isofile : IsoFile) (isPSXElf : Bool)
    (error : Option Error)
    (hacc : (checkElfSize (isofile.getLength : Int) none).1 = true)
    (hfull : isofile.getLength ≤ isofile.content.length) :
    self.openIsoFile isofile isPSXElf error
      = (initElfHeaders { self with data := isofile.content.take isofile.getLength } isPSXElf
          >>= fun obj => pure (true, obj, error)) := by
  have hr := (checkElfSize_length_iff _ none).mp hacc
  obtain ⟨h1, h2⟩ := read_of_accepted self isofile hacc
  have hmin : min isofile.getLength isofile.content.length = isofile.getLength := by
    omega
  have hc := checkElfSize_in_range (isofile.getLength : Int) error
    (by exact_mod_cast hr.1) (by omega)
  have hdrop : (resize self.data isofile.getLength).drop isofile.getLength = [] :=
    List.drop_eq_nil_of_le (by rw [length_resize])
  rw [h1] at h2
  simp only [openIsoFile, hc, h1, h2, hmin, hdrop, List.append_nil]
  rw [if_neg (by simp)]

/-- The boolean result of `checkElfSize` does not depend on the `Error` pointer. -/
theorem checkElfSize_fst (size : Int) (error : Option Error) :
    (checkElfSize size error).1 = (checkElfSize size none).1 := by
  cases hd : checkElfSizeDiag size <;> cases error <;> simp [checkElfSize, hd]

/-- What `initElfHeaders` does to an image whose buffer holds a whole ELF header: it
returns, keeps the buffer, and each view is either the one held before or, in the ELF
case, the offset of a table that was accepted. -/
theorem initElfHeaders_views (self : ElfObject) (isPSXElf : Bool)
    (h : sizeof_ELF_HEADER ≤ self.data.length) :
    ∃ obj, self.initElfHeaders isPSXElf = Except.ok obj ∧ obj.data = self.data ∧
      (obj.proghead = self.proghead ∨
        (isPSXElf = false ∧ 0 < u16At self.data 44 ∧
          u32At self.data 28 + sizeof_ELF_PHR ≤ self.data.length ∧
          obj.proghead = some (u32At self.data 28))) ∧
      (obj.secthead = self.secthead ∨
        (isPSXElf = false ∧ 0 < u16At self.data 48 ∧
          u32At self.data 32 + sizeof_ELF_SHR ≤ self.data.length ∧
          obj.secthead = some (u32At self.data 32))) := by
  cases isPSXElf with
  | true => exact ⟨self, rfl, rfl, Or.inl rfl, Or.inl rfl⟩
  | false =>
    refine ⟨_, initElfHeaders_eq self h, rfl, ?_, ?_⟩
    · by_cases hc : 0 < u16At self.data 44 ∧
          u32At self.data 28 + sizeof_ELF_PHR ≤ self.data.length
      · exact Or.inr ⟨rfl, hc.1, hc.2, by simp only [if_pos hc]⟩
      · exact Or.inl (by simp only [if_neg hc])
    · by_cases hc : 0 < u16At self.data 48 ∧
          u32At self.data 32 + sizeof_ELF_SHR ≤ self.data.length
      · exact Or.inr ⟨rfl, hc.1, hc.2, by simp only [if_pos hc]⟩
      · exact Or.inl (by simp only [if_neg hc])

/-- Given a non-null `Error`, `openIsoFile` returns; it returns true exactly when
`checkElfSize` accepts the disc file's length and the read returns at least that many
bytes; on success the owned buffer has exactly `length` bytes, those the read delivered,
and the `Error` is untouched; when the size check fails the `Error` is the size
diagnostic of `checkElfSize` and the image is untouched; when the read is short the
`Error` is a `User` error with the description `Failed to read ELF from ISO`. -/
theorem openIsoFile_outcome (self : ElfObject) (isofile : IsoFile) (isPSXElf : Bool)
    (e : Error) :
    ∃ b obj e', self.openIsoFile isofile isPSXElf (some e) = Except.ok (b, obj, e') ∧
      (b = true ↔
        (checkElfSize (isofile.getLength : Int) (some e)).1 = true ∧
        (isofile.getLength : Int) ≤
          (isofile.read (resize self.data isofile.getLength)
            (u32ToInt isofile.getLength)).1) ∧
      (b = true →
        obj.data.length = isofile.getLength ∧
        obj.data = (isofile.read (resize self.data isofile.getLength)
          (u32ToInt isofile.getLength)).2 ∧
        obj.data = isofile.content.take isofile.getLength ∧ e' = some e) ∧
      ((checkElfSize (isofile.getLength : Int) (some e)).1 = false →
        b = false ∧ obj = self ∧ e' = (checkElfSize (isofile.getLength : Int) (some e)).2) ∧
      ((checkElfSize (isofile.getLength : Int) (some e)).1 = true →
        (isofile.read (resize self.data isofile.getLength) (u32ToInt isofile.getLength)).1
          < (isofile.getLength : Int) →
        b = false ∧
        e' = some ⟨ErrorType.User, "Failed to read ELF from ISO", ""⟩) := by
  by_cases hacc : (checkElfSize (isofile.getLength : Int) none).1 = true
  · have hacc' : (checkElfSize (isofile.getLength : Int) (some e)).1 = true := by
      rw [checkElfSize_fst]; exact hacc
    have hr := (checkElfSize_length_iff _ none).mp hacc
    obtain ⟨h1, h2⟩ := read_of_accepted self isofile hacc
    by_cases hfull : isofile.getLength ≤ isofile.content.length
    · have hmin : min isofile.getLength isofile.content.length = isofile.getLength := by
        omega
      have hdrop : (resize self.data isofile.getLength).drop isofile.getLength = [] :=
        List.drop_eq_nil_of_le (by rw [length_resize])
      have hlen : (isofile.content.take isofile.getLength).length = isofile.getLength := by
        rw [List.length_take]; omega
      obtain ⟨obj, hobj, hdata, -, -⟩ := initElfHeaders_views
        { self with data := isofile.content.take isofile.getLength } isPSXElf
        (by simp only [hlen]; exact le_of_lt hr.1)
      refine ⟨true, obj, some e, ?_, ?_, ?_, ?_, ?_⟩
      · rw [openIsoFile_full self isofile isPSXElf (some e) hacc hfull, hobj]
        rfl
      · simp only [hacc', h2, hmin, true_and, true_iff]
        exact le_refl _
      · intro _
        simp only at hdata
        refine ⟨by rw [hdata, hlen], ?_, hdata, rfl⟩
        rw [h2, hmin, hdrop, List.append_nil, hdata]
      · intro hc; rw [hacc'] at hc; cases hc
      · intro _ hshort
        rw [h2, hmin] at hshort
        exact absurd hshort (lt_irrefl _)
    · have hshort : isofile.content.length < isofile.getLength := Nat.lt_of_not_le hfull
      have hmin : min isofile.getLength isofile.content.length
          = isofile.content.length := by omega
      refine ⟨false, _, _, openIsoFile_short self isofile isPSXElf e hacc hshort,
        ?_, ?_, ?_, ?_⟩
      · simp only [h2, hmin, false_iff, Bool.false_eq_true, not_and, not_le]
        intro _
        exact_mod_cast hshort
      · intro hc; cases hc
      · intro hc; rw [hacc'] at hc; cases hc
      · intro _ _
        exact ⟨rfl, rfl⟩
  · have hrej : (checkElfSize (isofile.getLength : Int) (some e)).1 = false := by
      rw [checkElfSize_fst]
      exact Bool.eq_false_iff.mpr hacc
    refine ⟨false, self, _, openIsoFile_rejected self isofile isPSXElf (some e) hrej,
      ?_, ?_, ?_, ?_⟩
    · simp [hrej]
    · intro hc; cases hc
    · intro _; exact ⟨rfl, rfl, rfl⟩
    · intro hc; rw [hrej] at hc; cases hc

/-- Every way `openIsoFile` can return: false with the image untouched (size rejected),
false with the buffer resized and partly filled (short read), or true after
`initElfHeaders` ran on the buffer holding the `length` delivered bytes. -/
theorem openIsoFile_cases (self : ElfObject) (isofile : IsoFile) (isPSXElf : Bool)
    (error : Option Error) (b : Bool) (obj : ElfObject) (e' : Option Error)
    (h : self.openIsoFile isofile isPSXElf error = Except.ok (b, obj, e')) :
    (b = false ∧ (checkElfSize (isofile.getLength : Int) none).1 = false ∧ obj = self) ∨
    (b = false ∧ (checkElfSize (isofile.getLength : Int) none).1 = true ∧
      isofile.content.length < isofile.getLength ∧
      obj = { self with data := isofile.content
        ++ (resize self.data isofile.getLength).drop isofile.content.length }) ∨
    (b = true ∧ (checkElfSize (isofile.getLength : Int) none).1 = true ∧
      isofile.getLength ≤ isofile.content.length ∧
      initElfHeaders { self with data := isofile.content.take isofile.getLength } isPSXElf
        = Except.ok obj) := by
  by_cases hacc : (checkElfSize (isofile.getLength : Int) none).1 = true
  · by_cases hfull : isofile.getLength ≤ isofile.content.length
    · rw [openIsoFile_full self isofile isPSXElf error hacc hfull] at h
      cases hi : initElfHeaders { self with data := isofile.content.take isofile.getLength }
          isPSXElf with
      | error err => rw [hi] at h; cases h
      | ok o =>
        rw [hi] at h
        simp only [bind, Except.bind, pure, Except.pure, Except.ok.injEq,
          Prod.mk.injEq] at h
        obtain ⟨hb, ho, -⟩ := h
        exact Or.inr (Or.inr ⟨hb.symm, hacc, hfull, by rw [← ho]⟩)
    · have hshort : isofile.content.length < isofile.getLength := Nat.lt_of_not_le hfull
      cases error with
      | none =>
        have hr := (checkElfSize_length_iff _ none).mp hacc
        obtain ⟨h1, h2⟩ := read_of_accepted self isofile hacc
        have hc := checkElfSize_in_range (isofile.getLength : Int) none
          (by exact_mod_cast hr.1) (by omega)
        have hmin : min isofile.getLength isofile.content.length
            = isofile.content.length := by omega
        rw [h1] at h2
        simp only [openIsoFile, hc, h1, h2, hmin] at h
        rw [if_pos (by exact_mod_cast hshort)] at h
        cases h
      | some e =>
        rw [openIsoFile_short self isofile isPSXElf e hacc hshort] at h
        simp only [Except.ok.injEq, Prod.mk.injEq] at h
        obtain ⟨hb, ho, -⟩ := h
        exact Or.inr (Or.inl ⟨hb.symm, hacc, hshort, ho.symm⟩)
  · have hrej : (checkElfSize (isofile.getLength : Int) error).1 = false := by
      rw [checkElfSize_fst]
      exact Bool.eq_false_iff.mpr hacc
    rw [openIsoFile_rejected self isofile isPSXElf error hrej] at h
    simp only [Except.ok.injEq, Prod.mk.injEq] at h
    obtain ⟨hb, ho, -⟩ := h
    exact Or.inl ⟨hb.symm, Bool.eq_false_iff.mpr hacc, ho.symm⟩

/-- Every way `openFile` can return: false with the image untouched (open or stat failed,
or size rejected), false with the buffer resized and partly filled (short read), or true
after `initElfHeaders` ran on the buffer holding the `sd.Size` delivered bytes. -/
theorem openFile_cases (self : ElfObject) (srcfile : String) (fp : Option HostFile)
    (isPSXElf : Bool) (error : Option Error) (SetMessage : Error → String → Error)
    (b : Bool) (obj : ElfObject) (e' : Option Error)
    (h : self.openFile srcfile fp isPSXElf error SetMessage = Except.ok (b, obj, e')) :
    (b = false ∧ obj = self ∧
      (fp = none ∨ ∃ file, fp = some file ∧ (checkElfSize file.Size none).1 = false)) ∨
    (∃ file, fp = some file ∧ b = false ∧ (checkElfSize file.Size none).1 = true ∧
      sizeof_ELF_HEADER < s64ToSizeT file.Size ∧
      file.content.length < s64ToSizeT file.Size ∧
      obj = { self with data := file.content
        ++ (resize self.data (s64ToSizeT file.Size)).drop file.content.length }) ∨
    (∃ file, fp = some file ∧ b = true ∧ (checkElfSize file.Size none).1 = true ∧
      sizeof_ELF_HEADER < s64ToSizeT file.Size ∧
      s64ToSizeT file.Size ≤ file.content.length ∧
      initElfHeaders { self with data := file.content.take (s64ToSizeT file.Size) } isPSXElf
        = Except.ok obj) := by
  cases fp with
  | none =>
    cases error with
    | none => simp [openFile] at h
    | some e =>
      simp only [openFile, Except.ok.injEq, Prod.mk.injEq] at h
      obtain ⟨hb, ho, -⟩ := h
      exact Or.inl ⟨hb.symm, ho.symm, Or.inl rfl⟩
  | some file =>
    cases hd : checkElfSizeDiag file.Size with
    | some d =>
      have hrej : (checkElfSize file.Size none).1 = false := by simp [checkElfSize, hd]
      cases error with
      | none =>
        simp only [openFile, checkElfSize, hd, Except.ok.injEq, Prod.mk.injEq] at h
        obtain ⟨hb, ho, -⟩ := h
        exact Or.inl ⟨hb.symm, ho.symm, Or.inr ⟨file, rfl, hrej⟩⟩
      | some e =>
        simp only [openFile, checkElfSize, hd, Except.ok.injEq, Prod.mk.injEq] at h
        obtain ⟨hb, ho, -⟩ := h
        exact Or.inl ⟨hb.symm, ho.symm, Or.inr ⟨file, rfl, hrej⟩⟩
    | none =>
      have hacc : (checkElfSize file.Size none).1 = true := by simp [checkElfSize, hd]
      have hn : sizeof_ELF_HEADER < s64ToSizeT file.Size :=
        Nat.lt_of_not_le ((checkElfSizeDiag_none_iff file.Size).mp hd).2.2
      have hn0 : s64ToSizeT file.Size ≠ 0 := by
        simp only [sizeof_ELF_HEADER] at hn; omega
      simp only [openFile, checkElfSize, hd] at h
      by_cases hmax : s64ToSizeT file.Size > vectorMaxSize
      · rw [if_pos hmax] at h; cases h
      · rw [if_neg hmax] at h
        simp only [length_resize, HostFile.fread, if_neg hn0] at h
        by_cases hfull : s64ToSizeT file.Size ≤ file.content.length
        · simp only [if_pos hfull, ne_eq, not_true_eq_false, if_false] at h
          have hdrop : (resize self.data (s64ToSizeT file.Size)).drop (s64ToSizeT file.Size)
              = [] := List.drop_eq_nil_of_le (by rw [length_resize])
          rw [hdrop, List.append_nil] at h
          cases hi : initElfHeaders
              { self with data := file.content.take (s64ToSizeT file.Size) } isPSXElf with
          | error err => rw [hi] at h; cases h
          | ok o =>
            rw [hi] at h
            simp only [bind, Except.bind, pure, Except.pure, Except.ok.injEq,
              Prod.mk.injEq] at h
            obtain ⟨hb, ho, -⟩ := h
            exact Or.inr (Or.inr ⟨file, rfl, hb.symm, hacc, hn, hfull, by rw [← ho]; exact hi⟩)
        · simp only [if_neg hfull, ne_eq] at h
          rw [if_pos (by decide : ¬ (0 : Nat) = 1)] at h
          cases error with
          | none => cases h
          | some e =>
            simp only [Except.ok.injEq, Prod.mk.injEq] at h
            obtain ⟨hb, ho, -⟩ := h
            exact Or.inr (Or.inl ⟨file, rfl, hb.symm, hacc, hn, Nat.lt_of_not_le hfull,
              ho.symm⟩)

/-- The 84-byte image of section 8, delivered in full to a fresh image with a non-null
`Error`. -/
theorem openIsoFile_outcome_example :
    openIsoFile {} ⟨84, Fixture.entryInsideSegment⟩ false (some {})
      = Except.ok (true, ⟨Fixture.entryInsideSegment, some 52, none⟩, some {}) ∧
    ∃ b obj e', openIsoFile {} ⟨84, Fixture.entryInsideSegment⟩ false (some {})
        = Except.ok (b, obj, e') ∧
      (b = true →
        obj.data.length = IsoFile.getLength ⟨84, Fixture.entryInsideSegment⟩ ∧
        obj.data = (IsoFile.read ⟨84, Fixture.entryInsideSegment⟩
          (resize [] (IsoFile.getLength ⟨84, Fixture.entryInsideSegment⟩))
          (u32ToInt (IsoFile.getLength ⟨84, Fixture.entryInsideSegment⟩))).2 ∧
        obj.data = Fixture.entryInsideSegment.take
          (IsoFile.getLength ⟨84, Fixture.entryInsideSegment⟩) ∧
        e' = some {}) := by
  refine ⟨rfl, ?_⟩
  obtain ⟨b, obj, e', h, -, h2, -, -⟩ :=
    openIsoFile_outcome {} ⟨84, Fixture.entryInsideSegment⟩ false {}
  exact ⟨b, obj, e', h, h2⟩

/-! ### A short read with a null `Error` pointer -/

/-- C15: `openIsoFile` does not return false on every short read. When `checkElfSize` has
accepted the length and the read delivers fewer bytes, line 47 calls `error->SetUser`
without testing the pointer: with a null `Error` pointer, which `checkElfSize` two
statements earlier accepts and tests before it sets a diagnostic, the call goes through
the null pointer and there is no result. With a non-null `Error` the same short read
returns false and leaves the `User` error `Failed to read ELF from ISO`. -/
theorem openIsoFile_short_read_null_error (self : ElfObject) (isofile : IsoFile)
    (isPSXElf : Bool)
    (hacc : (checkElfSize (isofile.getLength : Int) none).1 = true)
    (hshort : isofile.content.length < isofile.getLength) :
    (isofile.read (resize self.data isofile.getLength) (u32ToInt isofile.getLength)).1
      < (isofile.getLength : Int) ∧
    checkElfSize (isofile.getLength : Int) none = (true, none) ∧
    self.openIsoFile isofile isPSXElf none = Except.error Fault.nullDeref ∧
    (∀ r, self.openIsoFile isofile isPSXElf none ≠ Except.ok r) ∧
    (∀ e : Error, ∃ obj, self.openIsoFile isofile isPSXElf (some e)
      = Except.ok (false, obj, some ⟨ErrorType.User, "Failed to read ELF from ISO", ""⟩)) ∧
    (∀ size : Int, (checkElfSize size none).2 = none) := by
  have hr := (checkElfSize_length_iff _ none).mp hacc
  obtain ⟨h1, h2⟩ := read_of_accepted self isofile hacc
  have hc := checkElfSize_in_range (isofile.getLength : Int) none
    (by exact_mod_cast hr.1) (by omega)
  have hmin : min isofile.getLength isofile.content.length = isofile.content.length := by
    omega
  have hnull : self.openIsoFile isofile isPSXElf none = Except.error Fault.nullDeref := by
    have h2' := h2
    rw [h1] at h2'
    simp only [openIsoFile, hc, h1, h2', hmin]
    rw [if_pos (by exact_mod_cast hshort)]
  refine ⟨?_, hc, hnull, ?_, ?_, ?_⟩
  · rw [h2, hmin]
    show ((isofile.content.length : Nat) : Int) < (isofile.getLength : Int)
    exact_mod_cast hshort
  · intro r h
    rw [hnull] at h
    cases h
  · intro e
    exact ⟨_, openIsoFile_short self isofile isPSXElf e hacc hshort⟩
  · intro size
    cases hd : checkElfSizeDiag size <;> simp [checkElfSize, hd]

/-- Witness of C15: a disc file of length 100 of which the read delivers three bytes,
loaded into a fresh image with a null `Error` pointer. -/
theorem openIsoFile_short_read_null_error_witness :
    (checkElfSize ((IsoFile.getLength ⟨100, [1, 2, 3]⟩ : Nat) : Int) none).1 = true ∧
    (IsoFile.content ⟨100, [1, 2, 3]⟩).length < IsoFile.getLength ⟨100, [1, 2, 3]⟩ ∧
    openIsoFile {} ⟨100, [1, 2, 3]⟩ false none = Except.error Fault.nullDeref ∧
    openIsoFile {} ⟨100, [1, 2, 3]⟩ false (some {})
      = Except.ok (false, ⟨[1, 2, 3] ++ List.replicate 97 0, none, none⟩,
          some ⟨ErrorType.User, "Failed to read ELF from ISO", ""⟩) ∧
    openIsoFile {} ⟨10, [1, 2, 3]⟩ false none = Except.ok (false, {}, none) :=
  ⟨by decide, by decide,
    (openIsoFile_short_read_null_error {} ⟨100, [1, 2, 3]⟩ false (by decide)
      (by decide)).2.2.1,
    rfl, rfl⟩

/-! ### Failed loads -/

/-- C16, counterexample: an image that holds the 84-byte image of section 8 is asked to
load a disc file of length 100 of which the read delivers three bytes. `openIsoFile`
returns false, and the buffer is now 100 bytes long and starts with the three delivered
bytes: the state is not the one before the call. -/
theorem openIsoFile_short_read_changes_buffer :
    openIsoFile ⟨Fixture.entryInsideSegment, some 52, none⟩ ⟨100, [1, 2, 3]⟩ false (some {})
      = Except.ok (false,
          ⟨[1, 2, 3] ++ (resize Fixture.entryInsideSegment 100).drop 3, some 52, none⟩,
          some ⟨ErrorType.User, "Failed to read ELF from ISO", ""⟩) ∧
    ([1, 2, 3] ++ (resize Fixture.entryInsideSegment 100).drop 3).length = 100 ∧
    Fixture.entryInsideSegment.length = 84 ∧
    (⟨[1, 2, 3] ++ (resize Fixture.entryInsideSegment 100).drop 3, some 52, none⟩ : ElfObject)
      ≠ ⟨Fixture.entryInsideSegment, some 52, none⟩ := by
  refine ⟨rfl, rfl, rfl, ?_⟩
  intro h
  have hl := congrArg (fun o : ElfObject => o.data.length) h
  revert hl
  decide

/-- C16, amended: a load that fails before the buffer is touched (the size is rejected by
`checkElfSize`; for `openFile` also when the open or the stat fails) leaves the image
identical to its state before the call. A load that fails on a short read leaves the two
header views as they were, but the buffer has been resized to the length of the file and
starts with the bytes the read delivered. -/
theorem failed_load_state (self : ElfObject) :
    (∀ isofile isPSXElf error obj e',
      self.openIsoFile isofile isPSXElf error = Except.ok (false, obj, e') →
      obj.proghead = self.proghead ∧ obj.secthead = self.secthead ∧
      (((checkElfSize (isofile.getLength : Int) none).1 = false ∧ obj = self) ∨
        ((checkElfSize (isofile.getLength : Int) none).1 = true ∧
          isofile.content.length < isofile.getLength ∧
          obj.data.length = isofile.getLength ∧
          obj.data = isofile.content
            ++ (resize self.data isofile.getLength).drop isofile.content.length))) ∧
    (∀ srcfile fp isPSXElf error SetMessage obj e',
      self.openFile srcfile fp isPSXElf error SetMessage = Except.ok (false, obj, e') →
      obj.proghead = self.proghead ∧ obj.secthead = self.secthead ∧
      ((obj = self ∧
          (fp = none ∨ ∃ file, fp = some file ∧ (checkElfSize file.Size none).1 = false)) ∨
        (∃ file, fp = some file ∧ (checkElfSize file.Size none).1 = true ∧
          file.content.length < s64ToSizeT file.Size ∧
          obj.data.length = s64ToSizeT file.Size ∧
          obj.data = file.content
            ++ (resize self.data (s64ToSizeT file.Size)).drop file.content.length))) := by
  constructor
  · intro isofile isPSXElf error obj e' h
    rcases openIsoFile_cases self isofile isPSXElf error false obj e' h with
      ⟨-, hrej, ho⟩ | ⟨-, hacc, hshort, ho⟩ | ⟨hb, -⟩
    · subst ho; exact ⟨rfl, rfl, Or.inl ⟨hrej, rfl⟩⟩
    · subst ho
      refine ⟨rfl, rfl, Or.inr ⟨hacc, hshort, ?_, rfl⟩⟩
      simp only [List.length_append, List.length_drop, length_resize]
      omega
    · cases hb
  · intro srcfile fp isPSXElf error SetMessage obj e' h
    rcases openFile_cases self srcfile fp isPSXElf error SetMessage false obj e' h with
      ⟨-, ho, hfp⟩ | ⟨file, hfp, -, hacc, -, hshort, ho⟩ | ⟨file, -, hb, -⟩
    · subst ho; exact ⟨rfl, rfl, Or.inl ⟨rfl, hfp⟩⟩
    · subst ho
      refine ⟨rfl, rfl, Or.inr ⟨file, hfp, hacc, hshort, ?_, rfl⟩⟩
      simp only [List.length_append, List.length_drop, length_resize]
      omega
    · cases hb

/-- Witness of C16: the size 10 is rejected and the image is as before the call. -/
theorem failed_load_state_witness :
    openIsoFile ⟨Fixture.entryInsideSegment, some 52, none⟩ ⟨10, [1, 2, 3]⟩ false (some {})
      = Except.ok (false, ⟨Fixture.entryInsideSegment, some 52, none⟩,
          some ⟨ErrorType.User, diagUnexpectedEnd, isoHint⟩) ∧
    (⟨Fixture.entryInsideSegment, some 52, none⟩ : ElfObject).proghead = some 52 ∧
    (⟨Fixture.entryInsideSegment, some 52, none⟩ : ElfObject).secthead = none :=
  ⟨rfl,
    ((failed_load_state ⟨Fixture.entryInsideSegment, some 52, none⟩).1 ⟨10, [1, 2, 3]⟩ false
      (some {}) ⟨Fixture.entryInsideSegment, some 52, none⟩
      (some ⟨ErrorType.User, diagUnexpectedEnd, isoHint⟩) rfl).1,
    ((failed_load_state ⟨Fixture.entryInsideSegment, some 52, none⟩).1 ⟨10, [1, 2, 3]⟩ false
      (some {}) ⟨Fixture.entryInsideSegment, some 52, none⟩
      (some ⟨ErrorType.User, diagUnexpectedEnd, isoHint⟩) rfl).2.1⟩

/-! ### The views across loads -/

/-- After `initElfHeaders` on a buffer that holds a whole ELF header, each view is the one
held before, or its table passes the test of `initElfHeaders` on the current buffer. -/
theorem initElfHeaders_fits (self obj : ElfObject) (isPSXElf : Bool)
    (h : sizeof_ELF_HEADER ≤ self.data.length)
    (hobj : self.initElfHeaders isPSXElf = Except.ok obj) :
    obj.data = self.data ∧
    (obj.proghead = self.proghead ∨ (isPSXElf = false ∧ progTableFits obj.data = true)) ∧
    (obj.secthead = self.secthead ∨ (isPSXElf = false ∧ sectTableFits obj.data = true)) := by
  obtain ⟨o, ho, hdata, hp, hs⟩ := initElfHeaders_views self isPSXElf h
  rw [ho] at hobj
  injection hobj with hobj
  subst hobj
  have h52 : 52 ≤ self.data.length := h
  refine ⟨hdata, ?_, ?_⟩
  · rcases hp with hp | ⟨hx, h1, h2, -⟩
    · exact Or.inl hp
    · refine Or.inr ⟨hx, ?_⟩
      simp only [progTableFits, hdata, e_phnum, e_phoff, readU16_ok self.data 44 (by omega),
        readU32_ok self.data 28 (by omega)]
      exact decide_eq_true ⟨h1, h2⟩
  · rcases hs with hs | ⟨hx, h1, h2, -⟩
    · exact Or.inl hs
    · refine Or.inr ⟨hx, ?_⟩
      simp only [sectTableFits, hdata, e_shnum, e_shoff, readU16_ok self.data 48 (by omega),
        readU32_ok self.data 32 (by omega)]
      exact decide_eq_true ⟨h1, h2⟩

/-- C18, counterexample: a fresh image loads the image of section 8 (its program-header
table is accepted, `proghead` is at offset 52) and then loads a 53-byte image with
`e_phnum = 0`, as an ELF or as the legacy format. Both second loads return true and leave
`proghead` at offset 52: `hasProgramHeaders()` is true although the current buffer has
`e_phnum = 0`. -/
theorem reload_keeps_stale_view :
    openIsoFile {} ⟨84, Fixture.entryInsideSegment⟩ false (some {})
      = Except.ok (true, ⟨Fixture.entryInsideSegment, some 52, none⟩, some {}) ∧
    openIsoFile ⟨Fixture.entryInsideSegment, some 52, none⟩ ⟨53, Fixture.noHeaderTables⟩
        false (some {})
      = Except.ok (true, ⟨Fixture.noHeaderTables, some 52, none⟩, some {}) ∧
    openIsoFile ⟨Fixture.entryInsideSegment, some 52, none⟩ ⟨53, Fixture.noHeaderTables⟩
        true (some {})
      = Except.ok (true, ⟨Fixture.noHeaderTables, some 52, none⟩, some {}) ∧
    hasProgramHeaders ⟨Fixture.noHeaderTables, some 52, none⟩ = true ∧
    e_phnum Fixture.noHeaderTables = Except.ok 0 ∧
    progTableFits Fixture.noHeaderTables = false :=
  ⟨rfl, rfl, rfl, rfl, rfl, rfl⟩

/-- The views `initElfHeaders` leaves on an image whose buffer was just replaced by one
that holds a whole ELF header: a view is the offset its table has in the new header when
the load is not legacy and the table passes the test, and the value held before
otherwise. -/
theorem initElfHeaders_loaded (self obj : ElfObject) (data : List Nat) (isPSXElf : Bool)
    (hlen : sizeof_ELF_HEADER ≤ data.length)
    (hobj : initElfHeaders { self with data := data } isPSXElf = Except.ok obj) :
    obj.data = data ∧
    obj.proghead =
      (if isPSXElf = false ∧ 0 < u16At data 44 ∧
          u32At data 28 + sizeof_ELF_PHR ≤ data.length
        then some (u32At data 28) else self.proghead) ∧
    obj.secthead =
      (if isPSXElf = false ∧ 0 < u16At data 48 ∧
          u32At data 32 + sizeof_ELF_SHR ≤ data.length
        then some (u32At data 32) else self.secthead) := by
  cases isPSXElf with
  | true =>
    simp only [initElfHeaders, if_true] at hobj
    injection hobj with hobj
    subst hobj
    simp
  | false =>
    rw [initElfHeaders_eq _ hlen] at hobj
    injection hobj with hobj
    subst hobj
    simp

/-- C18, amended: after a load (`openIsoFile` or `openFile`) has returned true, the header
fields of the current buffer can be read and each view is determined by them and by the
view held before the call: it is the offset `e_phoff` (`e_shoff`) of the current header
when the load is not legacy, `e_phnum > 0` (`e_shnum > 0`) and
`e_phoff + sizeof(ELF_PHR) <= data.size()` (`e_shoff + sizeof(ELF_SHR) <= data.size()`),
and otherwise the pointer held before the call, which no load resets or re-derives. So on
an object whose view was absent before the load (a freshly constructed image),
`hasProgramHeaders()` implies `e_phnum > 0` and
`e_phoff + sizeof(ELF_PHR) <= data.size()` for the current buffer, with the view at
`e_phoff` (likewise for section headers); a repeated load of an image with `e_phnum = 0`,
with a rejected offset, or as the legacy format keeps the earlier view, present or
absent. -/
theorem load_views_invariant (self : ElfObject) :
    (∀ isofile isPSXElf error obj e',
      self.openIsoFile isofile isPSXElf error = Except.ok (true, obj, e') →
      ∃ phnum phoff shnum shoff,
        e_phnum obj.data = Except.ok phnum ∧ e_phoff obj.data = Except.ok phoff ∧
        e_shnum obj.data = Except.ok shnum ∧ e_shoff obj.data = Except.ok shoff ∧
        obj.proghead =
          (if isPSXElf = false ∧ 0 < phnum ∧ phoff + sizeof_ELF_PHR ≤ obj.data.length
            then some phoff else self.proghead) ∧
        obj.secthead =
          (if isPSXElf = false ∧ 0 < shnum ∧ shoff + sizeof_ELF_SHR ≤ obj.data.length
            then some shoff else self.secthead) ∧
        (isPSXElf = true ∨ phnum = 0 ∨ obj.data.length < phoff + sizeof_ELF_PHR →
          obj.proghead = self.proghead) ∧
        (isPSXElf = true ∨ shnum = 0 ∨ obj.data.length < shoff + sizeof_ELF_SHR →
          obj.secthead = self.secthead) ∧
        (self.proghead = none → obj.hasProgramHeaders = true →
          isPSXElf = false ∧ 0 < phnum ∧ phoff + sizeof_ELF_PHR ≤ obj.data.length ∧
          obj.proghead = some phoff) ∧
        (self.secthead = none → obj.hasSectionHeaders = true →
          isPSXElf = false ∧ 0 < shnum ∧ shoff + sizeof_ELF_SHR ≤ obj.data.length ∧
          obj.secthead = some shoff)) ∧
    (∀ srcfile fp isPSXElf error SetMessage obj e',
      self.openFile srcfile fp isPSXElf error SetMessage = Except.ok (true, obj, e') →
      ∃ phnum phoff shnum shoff,
        e_phnum obj.data = Except.ok phnum ∧ e_phoff obj.data = Except.ok phoff ∧
        e_shnum obj.data = Except.ok shnum ∧ e_shoff obj.data = Except.ok shoff ∧
        obj.proghead =
          (if isPSXElf = false ∧ 0 < phnum ∧ phoff + sizeof_ELF_PHR ≤ obj.data.length
            then some phoff else self.proghead) ∧
        obj.secthead =
          (if isPSXElf = false ∧ 0 < shnum ∧ shoff + sizeof_ELF_SHR ≤ obj.data.length
            then some shoff else self.secthead) ∧
        (isPSXElf = true ∨ phnum = 0 ∨ obj.data.length < phoff + sizeof_ELF_PHR →
          obj.proghead = self.proghead) ∧
        (isPSXElf = true ∨ shnum = 0 ∨ obj.data.length < shoff + sizeof_ELF_SHR →
          obj.secthead = self.secthead) ∧
        (self.proghead = none → obj.hasProgramHeaders = true →
          isPSXElf = false ∧ 0 < phnum ∧ phoff + sizeof_ELF_PHR ≤ obj.data.length ∧
          obj.proghead = some phoff) ∧
        (self.secthead = none → obj.hasSectionHeaders = true →
          isPSXElf = false ∧ 0 < shnum ∧ shoff + sizeof_ELF_SHR ≤ obj.data.length ∧
          obj.secthead = some shoff)) := by
  have key : ∀ (data : List Nat) (isPSXElf : Bool) (obj : ElfObject),
      sizeof_ELF_HEADER ≤ data.length →
      initElfHeaders { self with data := data } isPSXElf = Except.ok obj →
      ∃ phnum phoff shnum shoff,
        e_phnum obj.data = Except.ok phnum ∧ e_phoff obj.data = Except.ok phoff ∧
        e_shnum obj.data = Except.ok shnum ∧ e_shoff obj.data = Except.ok shoff ∧
        obj.proghead =
          (if isPSXElf = false ∧ 0 < phnum ∧ phoff + sizeof_ELF_PHR ≤ obj.data.length
            then some phoff else self.proghead) ∧
        obj.secthead =
          (if isPSXElf = false ∧ 0 < shnum ∧ shoff + sizeof_ELF_SHR ≤ obj.data.length
            then some shoff else self.secthead) ∧
        (isPSXElf = true ∨ phnum = 0 ∨ obj.data.length < phoff + sizeof_ELF_PHR →
          obj.proghead = self.proghead) ∧
        (isPSXElf = true ∨ shnum = 0 ∨ obj.data.length < shoff + sizeof_ELF_SHR →
          obj.secthead = self.secthead) ∧
        (self.proghead = none → obj.hasProgramHeaders = true →
          isPSXElf = false ∧ 0 < phnum ∧ phoff + sizeof_ELF_PHR ≤ obj.data.length ∧
          obj.proghead = some phoff) ∧
        (self.secthead = none → obj.hasSectionHeaders = true →
          isPSXElf = false ∧ 0 < shnum ∧ shoff + sizeof_ELF_SHR ≤ obj.data.length ∧
          obj.secthead = some shoff) := by
    intro data isPSXElf obj hlen hobj
    obtain ⟨hdata, hp, hs⟩ := initElfHeaders_loaded self obj data isPSXElf hlen hobj
    have h52 : 52 ≤ data.length := hlen
    refine ⟨u16At data 44, u32At data 28, u16At data 48, u32At data 32, ?_, ?_, ?_, ?_,
      ?_, ?_, ?_, ?_, ?_, ?_⟩
    · rw [hdata, e_phnum, readU16_ok data 44 (by omega)]
    · rw [hdata, e_phoff, readU32_ok data 28 (by omega)]
    · rw [hdata, e_shnum, readU16_ok data 48 (by omega)]
    · rw [hdata, e_shoff, readU32_ok data 32 (by omega)]
    · rw [hdata]; exact hp
    · rw [hdata]; exact hs
    · intro hc
      rw [hp, if_neg]
      rw [hdata] at hc
      rintro ⟨h1, h2, h3⟩
      rcases hc with hc | hc | hc
      · rw [h1] at hc; cases hc
      · omega
      · omega
    · intro hc
      rw [hs, if_neg]
      rw [hdata] at hc
      rintro ⟨h1, h2, h3⟩
      rcases hc with hc | hc | hc
      · rw [h1] at hc; cases hc
      · omega
      · omega
    · intro hnone hhas
      rw [hdata]
      by_cases hc : isPSXElf = false ∧ 0 < u16At data 44 ∧
          u32At data 28 + sizeof_ELF_PHR ≤ data.length
      · exact ⟨hc.1, hc.2.1, hc.2.2, by rw [hp, if_pos hc]⟩
      · rw [hasProgramHeaders, hp, if_neg hc, hnone] at hhas
        cases hhas
    · intro hnone hhas
      rw [hdata]
      by_cases hc : isPSXElf = false ∧ 0 < u16At data 48 ∧
          u32At data 32 + sizeof_ELF_SHR ≤ data.length
      · exact ⟨hc.1, hc.2.1, hc.2.2, by rw [hs, if_pos hc]⟩
      · rw [hasSectionHeaders, hs, if_neg hc, hnone] at hhas
        cases hhas
  constructor
  · intro isofile isPSXElf error obj e' h
    rcases openIsoFile_cases self isofile isPSXElf error true obj e' h with
      ⟨hb, -⟩ | ⟨hb, -⟩ | ⟨-, hacc, hfull, hinit⟩
    · cases hb
    · cases hb
    · have hr := (checkElfSize_length_iff _ none).mp hacc
      refine key _ isPSXElf obj ?_ hinit
      rw [List.length_take]
      have := hr.1
      omega
  · intro srcfile fp isPSXElf error SetMessage obj e' h
    rcases openFile_cases self srcfile fp isPSXElf error SetMessage true obj e' h with
      ⟨hb, -⟩ | ⟨file, -, hb, -⟩ | ⟨file, -, -, -, hn, hfull, hinit⟩
    · cases hb
    · cases hb
    · refine key _ isPSXElf obj ?_ hinit
      rw [List.length_take]
      omega

/-- Witness of C18: the first load of the counterexample, on a freshly constructed image;
its program-header table passes the test on the loaded buffer and the view is at
`e_phoff = 52`. -/
theorem load_views_invariant_witness :
    openIsoFile {} ⟨84, Fixture.entryInsideSegment⟩ false (some {})
      = Except.ok (true, ⟨Fixture.entryInsideSegment, some 52, none⟩, some {}) ∧
    (({} : ElfObject).proghead = none) ∧
    hasProgramHeaders ⟨Fixture.entryInsideSegment, some 52, none⟩ = true ∧
    e_phnum Fixture.entryInsideSegment = Except.ok 1 ∧
    e_phoff Fixture.entryInsideSegment = Except.ok 52 ∧
    ∃ phnum phoff,
      e_phnum Fixture.entryInsideSegment = Except.ok phnum ∧
      e_phoff Fixture.entryInsideSegment = Except.ok phoff ∧
      0 < phnum ∧ phoff + sizeof_ELF_PHR ≤ Fixture.entryInsideSegment.length ∧
      (⟨Fixture.entryInsideSegment, some 52, none⟩ : ElfObject).proghead = some phoff := by
  refine ⟨rfl, rfl, rfl, rfl, rfl, ?_⟩
  obtain ⟨phnum, phoff, shnum, shoff, h1, h2, -, -, -, -, -, -, h9, -⟩ :=
    (load_views_invariant {}).1 ⟨84, Fixture.entryInsideSegment⟩ false (some {})
      ⟨Fixture.entryInsideSegment, some 52, none⟩ (some {}) rfl
  obtain ⟨-, h3, h4, h5⟩ := h9 rfl rfl
  exact ⟨phnum, phoff, h1, h2, h3, h4, h5⟩

/-! ### `getCRC` on the buffers a load leaves -/

/-- A host file from which `openFile` returns after the size check accepted has at most
`0x0FFFFFFF` bytes: a negative `sd.Size` other than -1 passes `checkElfSize`, and then
`data.resize` throws. -/
theorem openFile_size_le (self : ElfObject) (srcfile : String) (file : HostFile)
    (isPSXElf : Bool) (error : Option Error) (SetMessage : Error → String → Error)
    (r : Bool × ElfObject × Option Error)
    (hs64 : -(2 ^ 63 : Int) ≤ file.Size)
    (hacc : (checkElfSize file.Size none).1 = true)
    (h : self.openFile srcfile (some file) isPSXElf error SetMessage = Except.ok r) :
    s64ToSizeT file.Size ≤ 0xfffffff := by
  have hd : checkElfSizeDiag file.Size = none := by
    cases hc : checkElfSizeDiag file.Size with
    | none => rfl
    | some d => simp [checkElfSize, hc] at hacc
  obtain ⟨h1, h2, -⟩ := (checkElfSizeDiag_none_iff file.Size).mp hd
  by_cases h0 : 0 ≤ file.Size
  · rw [s64ToSizeT_of_nonneg file.Size h0 (by omega)]
    omega
  · exfalso
    have hmod : file.Size % (2 ^ 64 : Int) = file.Size + 2 ^ 64 := by
      rw [← Int.add_emod_self]
      exact Int.emod_eq_of_lt (by omega) (by omega)
    have hbig : s64ToSizeT file.Size > vectorMaxSize := by
      simp only [s64ToSizeT, hmod, vectorMaxSize]
      omega
    simp only [openFile, checkElfSize, hd, if_pos hbig] at h
    cases h

/-- The method `openIsoFile` leaves a buffer of at most `0x0FFFFFFF` bytes when the buffer
held at most that many before the call. -/
theorem openIsoFile_length_le (self : ElfObject) (isofile : IsoFile) (isPSXElf : Bool)
    (error : Option Error) (b : Bool) (obj : ElfObject) (e' : Option Error)
    (hself : self.data.length ≤ 0xfffffff)
    (h : self.openIsoFile isofile isPSXElf error = Except.ok (b, obj, e')) :
    obj.data.length ≤ 0xfffffff := by
  rcases openIsoFile_cases self isofile isPSXElf error b obj e' h with
    ⟨-, -, ho⟩ | ⟨-, hacc, hshort, ho⟩ | ⟨-, hacc, hfull, hinit⟩
  · rw [ho]; exact hself
  · have hr := (checkElfSize_length_iff _ none).mp hacc
    rw [ho]
    simp only [List.length_append, List.length_drop, length_resize]
    omega
  · have hr := (checkElfSize_length_iff _ none).mp hacc
    have hlen : (isofile.content.take isofile.getLength).length = isofile.getLength := by
      rw [List.length_take]; omega
    obtain ⟨o, ho, hdata, -, -⟩ := initElfHeaders_views
      { self with data := isofile.content.take isofile.getLength } isPSXElf
      (by simp only [hlen]; exact le_of_lt hr.1)
    rw [ho] at hinit
    injection hinit with hinit
    subst hinit
    rw [hdata]
    simp only [hlen]
    exact hr.2

/-- The method `openFile` leaves a buffer of at most `0x0FFFFFFF` bytes when the buffer
held at most that many before the call; `sd.Size` is an `s64`. -/
theorem openFile_length_le (self : ElfObject) (srcfile : String) (fp : Option HostFile)
    (isPSXElf : Bool) (error : Option Error) (SetMessage : Error → String → Error)
    (b : Bool) (obj : ElfObject) (e' : Option Error)
    (hs64 : ∀ file, fp = some file → -(2 ^ 63 : Int) ≤ file.Size)
    (hself : self.data.length ≤ 0xfffffff)
    (h : self.openFile srcfile fp isPSXElf error SetMessage = Except.ok (b, obj, e')) :
    obj.data.length ≤ 0xfffffff := by
  rcases openFile_cases self srcfile fp isPSXElf error SetMessage b obj e' h with
    ⟨-, ho, -⟩ | ⟨file, hfp, -, hacc, -, hshort, ho⟩ | ⟨file, hfp, -, hacc, hn, hfull, hinit⟩
  · rw [ho]; exact hself
  · subst hfp
    have hle := openFile_size_le self srcfile file isPSXElf error SetMessage _
      (hs64 file rfl) hacc h
    rw [ho]
    simp only [List.length_append, List.length_drop, length_resize]
    omega
  · subst hfp
    have hle := openFile_size_le self srcfile file isPSXElf error SetMessage _
      (hs64 file rfl) hacc h
    have hlen : (file.content.take (s64ToSizeT file.Size)).length = s64ToSizeT file.Size := by
      rw [List.length_take]; omega
    obtain ⟨o, ho, hdata, -, -⟩ := initElfHeaders_views
      { self with data := file.content.take (s64ToSizeT file.Size) } isPSXElf
      (by simp only [hlen]; exact le_of_lt hn)
    rw [ho] at hinit
    injection hinit with hinit
    subst hinit
    rw [hdata]
    simp only [hlen]
    exact hle

/-- C10: for every byte buffer an image can hold, `getCRC` returns the bitwise XOR of the
first `floor(n / 4)` little-endian 32-bit words of the buffer and of nothing else: the
trailing `n mod 4` bytes never influence the result (`getCRC` of the buffer equals
`getCRC` of its prefix of length `4 * floor(n / 4)`), and the result is 0 for every buffer
shorter than 4 bytes, the empty one included. The word count is
`static_cast<u32>(data.size()) / 4`, which is `floor(n / 4)` for every `n < 2^32`; an
image is constructed with the empty buffer, and `openIsoFile` and `openFile` keep the
buffer at no more than `0x0FFFFFFF` bytes, the most `checkElfSize` admits, so the
checksum of every image they leave is the XOR of its first `floor(n / 4)` words. -/
theorem getCRC_xor_of_words (obj : ElfObject) :
    (obj.data.length < 2 ^ 32 →
      obj.getCRC = Except.ok (xorOfFirstWords obj.data (obj.data.length / 4))) ∧
    obj.getCRC
      = getCRC { obj with data := obj.data.take (4 * (obj.data.length / 4)) } ∧
    (obj.data.length < 4 → obj.getCRC = Except.ok 0) ∧
    obj.getCRC
      = Except.ok (xorOfFirstWords obj.data (obj.data.length % 2 ^ 32 / 4)) ∧
    ({} : ElfObject).data = [] ∧
    (∀ isofile isPSXElf error b obj' e', obj.data.length ≤ 0xfffffff →
      obj.openIsoFile isofile isPSXElf error = Except.ok (b, obj', e') →
      obj'.data.length ≤ 0xfffffff ∧ obj'.data.length < 2 ^ 32 ∧
      obj'.getCRC = Except.ok (xorOfFirstWords obj'.data (obj'.data.length / 4))) ∧
    (∀ srcfile fp isPSXElf error SetMessage b obj' e',
      (∀ file, fp = some file → -(2 ^ 63 : Int) ≤ file.Size) →
      obj.data.length ≤ 0xfffffff →
      obj.openFile srcfile fp isPSXElf error SetMessage = Except.ok (b, obj', e') →
      obj'.data.length ≤ 0xfffffff ∧ obj'.data.length < 2 ^ 32 ∧
      obj'.getCRC = Except.ok (xorOfFirstWords obj'.data (obj'.data.length / 4))) := by
  refine ⟨?_, ?_, ?_, getCRC_eq obj, rfl, ?_, ?_⟩
  · intro h
    rw [getCRC_eq, Nat.mod_eq_of_lt h]
  · rw [getCRC_eq, getCRC_eq]
    have hl : (obj.data.take (4 * (obj.data.length / 4))).length
        = 4 * (obj.data.length / 4) := by
      simp only [List.length_take]; omega
    simp only [hl]
    have hk : 4 * (obj.data.length / 4) % 2 ^ 32 / 4 = obj.data.length % 2 ^ 32 / 4 := by
      omega
    rw [hk, xorOfFirstWords_take obj.data _ _ (by omega)]
  · intro h
    rw [getCRC_eq]
    have hk : obj.data.length % 2 ^ 32 / 4 = 0 := by omega
    rw [hk]
    rfl
  · intro isofile isPSXElf error b obj' e' hself h
    have hle := openIsoFile_length_le obj isofile isPSXElf error b obj' e' hself h
    have hlt : obj'.data.length < 2 ^ 32 := by omega
    exact ⟨hle, hlt, by rw [getCRC_eq, Nat.mod_eq_of_lt hlt]⟩
  · intro srcfile fp isPSXElf error SetMessage b obj' e' hs64 hself h
    have hle := openFile_length_le obj srcfile fp isPSXElf error SetMessage b obj' e'
      hs64 hself h
    have hlt : obj'.data.length < 2 ^ 32 := by omega
    exact ⟨hle, hlt, by rw [getCRC_eq, Nat.mod_eq_of_lt hlt]⟩

/-- Witness of C10: a nine-byte buffer; its checksum is the XOR of its two whole words
`0x04030201` and `0x08070605`, and the ninth byte has no influence. -/
theorem getCRC_xor_of_words_witness :
    (withBuffer [1, 2, 3, 4, 5, 6, 7, 8, 9]).data.length < 2 ^ 32 ∧
    getCRC (withBuffer [1, 2, 3, 4, 5, 6, 7, 8, 9])
      = Except.ok (xorOfFirstWords [1, 2, 3, 4, 5, 6, 7, 8, 9] (9 / 4)) ∧
    xorOfFirstWords [1, 2, 3, 4, 5, 6, 7, 8, 9] (9 / 4) = 0x04030201 ^^^ 0x08070605 :=
  ⟨by decide, (getCRC_xor_of_words (withBuffer [1, 2, 3, 4, 5, 6, 7, 8, 9])).1 (by decide),
    by decide⟩

/-! ## `loadSectionHeaders` -/

/-- The method `loadSectionHeaders` is its first part followed, when that part has chosen
a symbol table, by `R5900SymbolMap.Clear()` and the symbol loop. -/
theorem loadSectionHeaders_eq (self : ElfObject) (m : SymbolMap) :
    self.loadSectionHeaders m
      = (locateSymbols self >>= fun r =>
          match r with
          | none => pure m
          | some (eS, SymNames, sh_size) =>
            symbolLoop self.data eS SymNames (sh_size / sizeof_Elf32_Sym - 1) 1
              (SymbolMap.Clear m)) := by
  unfold loadSectionHeaders locateSymbols
  cases self.secthead with
  | none => rfl
  | some b =>
    simp only [bind, Except.bind, pure, Except.pure]
    repeat' (first | rfl | split)

theorem readU8_ok (data : List Nat) (off : Nat) (h : off + 1 ≤ data.length) :
    readU8 data off = Except.ok (byteAt data off) := by
  simp [readU8, h]

/-- Reading a string that is terminated inside the buffer returns the bytes before its
first NUL. -/
theorem readCStrFrom_ok (l : List Nat) :
    ∀ off, l.any (fun b => b % 256 = 0) = true →
      readCStrFrom l off
        = Except.ok ((l.takeWhile (fun b => b % 256 ≠ 0)).map (fun b => b % 256)) := by
  induction l with
  | nil => intro off h; simp at h
  | cons b rest ih =>
    intro off h
    by_cases hb : b % 256 = 0
    · simp [readCStrFrom, hb, List.takeWhile]
    · have hrest : rest.any (fun b => b % 256 = 0) = true := by
        simpa [List.any_cons, hb] using h
      simp [readCStrFrom, hb, List.takeWhile, ih (off + 1) hrest, bind, Except.bind, pure,
        Except.pure]

theorem readCStr_ok (data : List Nat) (off : Nat) (h : cstrTerminated data off = true) :
    readCStr data off = Except.ok (cstrAt data off) :=
  readCStrFrom_ok (data.drop off) off h

/-- One iteration of the section loop on a header that lies inside the buffer. -/
theorem sectionLoop_succ (data : List Nat) (ph : Option Nat) (base n i : Nat)
    (acc : Int × Int) (hin : base + sizeof_ELF_SHR * (i + 1) ≤ data.length) :
    sectionLoop ⟨data, ph, some base⟩ (n + 1) i acc
      = sectionLoop ⟨data, ph, some base⟩ n (i + 1)
          (if sh_type data base i = 2 then ((i : Int), u32ToInt (sh_link data base i))
            else acc) := by
  simp only [sizeof_ELF_SHR] at hin
  have h1 : readU32 data (base + (sizeof_ELF_SHR * i + off_sh_type))
      = Except.ok (sh_type data base i) :=
    readU32_ok data _ (by simp only [sizeof_ELF_SHR, off_sh_type]; omega)
  have h2 : readU32 data (base + (sizeof_ELF_SHR * i + off_sh_link))
      = Except.ok (sh_link data base i) :=
    readU32_ok data _ (by simp only [sizeof_ELF_SHR, off_sh_link]; omega)
  simp only [sectionLoop, loadU32, h1, h2, bind, Except.bind]
  by_cases hc : sh_type data base i = 2
  · simp only [hc, if_true]
  · simp only [hc, if_false]

/-- The section loop over headers that all lie inside the buffer: it keeps `(i_st, i_dt)`
when no header has type 2, and otherwise ends with the index and the link of the last
header of type 2. -/
theorem sectionLoop_last (data : List Nat) (ph : Option Nat) (base : Nat) :
    ∀ n i acc, base + sizeof_ELF_SHR * (i + n) ≤ data.length →
      ((∀ k, i ≤ k → k < i + n → sh_type data base k ≠ 2) →
        sectionLoop ⟨data, ph, some base⟩ n i acc = Except.ok acc) ∧
      (∀ s, i ≤ s → s < i + n → sh_type data base s = 2 →
        (∀ k, s < k → k < i + n → sh_type data base k ≠ 2) →
        sectionLoop ⟨data, ph, some base⟩ n i acc
          = Except.ok ((s : Int), u32ToInt (sh_link data base s))) := by
  intro n
  induction n with
  | zero =>
    intro i acc _
    exact ⟨fun _ => rfl, fun s h1 h2 => by omega⟩
  | succ n ih =>
    intro i acc hfit
    have hin : base + sizeof_ELF_SHR * (i + 1) ≤ data.length := by
      simp only [sizeof_ELF_SHR] at hfit ⊢; omega
    have hfit' : base + sizeof_ELF_SHR * (i + 1 + n) ≤ data.length := by
      simp only [sizeof_ELF_SHR] at hfit ⊢; omega
    rw [sectionLoop_succ data ph base n i acc hin]
    constructor
    · intro hnone
      rw [if_neg (hnone i (le_refl i) (by omega))]
      exact (ih (i + 1) acc hfit').1 (fun k hk1 hk2 => hnone k (by omega) (by omega))
    · intro s hs1 hs2 hs hlast
      rcases Nat.eq_or_lt_of_le hs1 with heq | hlt
      · subst heq
        rw [if_pos hs]
        exact (ih (i + 1) _ hfit').1 (fun k hk1 hk2 => hlast k (by omega) (by omega))
      · exact (ih (i + 1) _ hfit').2 s hlt (by omega) hs
          (fun k hk1 hk2 => hlast k hk1 (by omega))

/-- One iteration of the symbol loop on an entry that lies inside the buffer and whose
name, when the entry is registered, is terminated inside the buffer. -/
theorem symbolLoop_succ (data : List Nat) (eS SymNames n i : Nat) (m : SymbolMap)
    (hin : eS + sizeof_Elf32_Sym * (i + 1) ≤ data.length)
    (hname : st_value data eS i ≠ 0 → st_info data eS i &&& 0xf = 2 →
      cstrTerminated data (SymNames + st_name data eS i) = true) :
    symbolLoop data eS SymNames (n + 1) i m
      = symbolLoop data eS SymNames n (i + 1)
          (m ++ (labelOfSymbol data eS SymNames i).toList) := by
  simp only [sizeof_Elf32_Sym] at hin
  have h1 : readU32 data (eS + sizeof_Elf32_Sym * i + off_st_value)
      = Except.ok (st_value data eS i) :=
    readU32_ok data _ (by simp only [sizeof_Elf32_Sym, off_st_value]; omega)
  have h2 : readU8 data (eS + sizeof_Elf32_Sym * i + off_st_info)
      = Except.ok (st_info data eS i) :=
    readU8_ok data _ (by simp only [sizeof_Elf32_Sym, off_st_info]; omega)
  have h3 : readU32 data (eS + sizeof_Elf32_Sym * i + off_st_name)
      = Except.ok (st_name data eS i) :=
    readU32_ok data _ (by simp only [sizeof_Elf32_Sym, off_st_name]; omega)
  simp only [symbolLoop, h1, h2, h3, bind, Except.bind, ELF32_ST_TYPE, labelOfSymbol]
  by_cases hv : st_value data eS i = 0
  · simp [hv]
  · by_cases ht : st_info data eS i &&& 0xf = 2
    · simp [hv, ht, readCStr_ok data _ (hname hv ht), SymbolMap.AddLabel]
    · simp [hv, ht]

/-- The symbol loop over entries that lie inside the buffer: it returns, having appended
the labels of the entries `i .. i + n - 1` in index order. -/
theorem symbolLoop_spec (data : List Nat) (eS SymNames : Nat) :
    ∀ n i (m : SymbolMap),
      (∀ k, i ≤ k → k < i + n → eS + sizeof_Elf32_Sym * (k + 1) ≤ data.length) →
      (∀ k, i ≤ k → k < i + n → st_value data eS k ≠ 0 → st_info data eS k &&& 0xf = 2 →
        cstrTerminated data (SymNames + st_name data eS k) = true) →
      symbolLoop data eS SymNames n i m
        = Except.ok (m ++ (List.range' i n).filterMap (labelOfSymbol data eS SymNames)) := by
  intro n
  induction n with
  | zero => intro i m _ _; simp [symbolLoop]
  | succ n ih =>
    intro i m hfit hnames
    rw [symbolLoop_succ data eS SymNames n i m (hfit i (le_refl i) (by omega))
      (hnames i (le_refl i) (by omega)),
      ih (i + 1) _ (fun k hk1 hk2 => hfit k (by omega) (by omega))
        (fun k hk1 hk2 => hnames k (by omega) (by omega)),
      List.range'_succ, List.filterMap_cons]
    cases labelOfSymbol data eS SymNames i <;> simp

/-- The first part of `loadSectionHeaders` on an image whose section headers, the header
named by `e_shstrndx` and the header named by the link of the last symbol table all lie
inside the buffer: it chooses the last section of type 2 and the section its `sh_link`
names. -/
theorem locateSymbols_last (data : List Nat) (ph : Option Nat) (base : Nat)
    (hhdr : sizeof_ELF_HEADER ≤ data.length) (hshoff : u32At data 32 ≤ data.length)
    (hstr : base + sizeof_ELF_SHR
      * ((if u16At data 50 = 0xffff then 0 else u16At data 50) + 1) ≤ data.length)
    (hfit : base + sizeof_ELF_SHR * u16At data 48 ≤ data.length)
    (s : Nat) (hs : s < u16At data 48) (htype : sh_type data base s = 2)
    (hlast : ∀ k, s < k → k < u16At data 48 → sh_type data base k ≠ 2)
    (hlink31 : sh_link data base s < 2 ^ 31)
    (hlink : base + sizeof_ELF_SHR * (sh_link data base s + 1) ≤ data.length)
    (hdt : sh_offset data base (sh_link data base s) < data.length)
    (hst : sh_offset data base s < data.length) :
    locateSymbols ⟨data, ph, some base⟩
      = Except.ok (some (sh_offset data base s,
          sh_offset data base (sh_link data base s), sh_size data base s)) := by
  simp only [sizeof_ELF_HEADER] at hhdr
  have hloop := (sectionLoop_last data ph base (u16At data 48) 0 (-1, -1)
    (by simpa using hfit)).2 s (Nat.zero_le s) (by omega) htype
    (fun k hk1 hk2 => hlast k hk1 (by omega))
  rw [u32ToInt_of_lt _ hlink31] at hloop
  have hr1 : readU32 data (base + (sizeof_ELF_SHR
      * (if u16At data 50 = 0xffff then 0 else u16At data 50) + off_sh_offset))
      = Except.ok (sh_offset data base (if u16At data 50 = 0xffff then 0 else u16At data 50)) :=
    readU32_ok data _ (by
      simp only [sizeof_ELF_SHR, off_sh_offset] at hstr ⊢; omega)
  have hfits : base + sizeof_ELF_SHR * (s + 1) ≤ data.length := by
    simp only [sizeof_ELF_SHR] at hfit ⊢; omega
  have hr2 : readU32 data (base + (sizeof_ELF_SHR * sh_link data base s + off_sh_offset))
      = Except.ok (sh_offset data base (sh_link data base s)) :=
    readU32_ok data _ (by simp only [sizeof_ELF_SHR, off_sh_offset] at hlink ⊢; omega)
  have hr3 : readU32 data (base + (sizeof_ELF_SHR * s + off_sh_offset))
      = Except.ok (sh_offset data base s) :=
    readU32_ok data _ (by simp only [sizeof_ELF_SHR, off_sh_offset] at hfits ⊢; omega)
  have hr4 : readU32 data (base + (sizeof_ELF_SHR * s + off_sh_size))
      = Except.ok (sh_size data base s) :=
    readU32_ok data _ (by simp only [sizeof_ELF_SHR, off_sh_size] at hfits ⊢; omega)
  have hcond : ((s : Int) ≥ 0 ∧ ((sh_link data base s : Nat) : Int) ≥ 0) :=
    ⟨Int.ofNat_nonneg _, Int.ofNat_nonneg _⟩
  simp only [locateSymbols, e_shoff, e_shstrndx, e_shnum, readU32_ok data 32 (by omega),
    readU16_ok data 50 (by omega), readU16_ok data 48 (by omega), loadU32, bind,
    Except.bind, pure, Except.pure, if_neg (Nat.not_lt.mpr hshoff), hr1, hloop, hcond,
    and_self, if_true, Int.toNat_ofNat, hr2, hr3, hr4, if_pos hdt, if_pos hst]

/-- The method `loadSectionHeaders` on an image whose referenced headers, symbol entries
and symbol names all lie inside the buffer: the map afterwards holds the labels of the last
section of type 2, whatever it held before. -/
theorem loadSectionHeaders_last_symtab (data : List Nat) (ph : Option Nat) (base : Nat)
    (hhdr : sizeof_ELF_HEADER ≤ data.length) (hshoff : u32At data 32 ≤ data.length)
    (hstr : base + sizeof_ELF_SHR
      * ((if u16At data 50 = 0xffff then 0 else u16At data 50) + 1) ≤ data.length)
    (hfit : base + sizeof_ELF_SHR * u16At data 48 ≤ data.length)
    (s : Nat) (hs : s < u16At data 48) (htype : sh_type data base s = 2)
    (hlast : ∀ k, s < k → k < u16At data 48 → sh_type data base k ≠ 2)
    (hlink31 : sh_link data base s < 2 ^ 31)
    (hlink : base + sizeof_ELF_SHR * (sh_link data base s + 1) ≤ data.length)
    (hdt : sh_offset data base (sh_link data base s) < data.length)
    (hst : sh_offset data base s < data.length)
    (hsyms : sh_offset data base s
      + sizeof_Elf32_Sym * (sh_size data base s / sizeof_Elf32_Sym) ≤ data.length)
    (hnames : ∀ i, 1 ≤ i → i < sh_size data base s / sizeof_Elf32_Sym →
      st_value data (sh_offset data base s) i ≠ 0 →
      st_info data (sh_offset data base s) i &&& 0xf = 2 →
      cstrTerminated data (sh_offset data base (sh_link data base s)
        + st_name data (sh_offset data base s) i) = true)
    (m : SymbolMap) :
    loadSectionHeaders ⟨data, ph, some base⟩ m
      = Except.ok (expectedLabels data (sh_offset data base s)
          (sh_offset data base (sh_link data base s))
          (sh_size data base s / sizeof_Elf32_Sym)) := by
  rw [loadSectionHeaders_eq, locateSymbols_last data ph base hhdr hshoff hstr hfit s hs htype
    hlast hlink31 hlink hdt hst]
  simp only [bind, Except.bind]
  rw [symbolLoop_spec data _ _ (sh_size data base s / sizeof_Elf32_Sym - 1) 1
    (SymbolMap.Clear m)
    (fun k hk1 hk2 => by
      simp only [sizeof_Elf32_Sym] at hsyms hk2 ⊢
      omega)
    (fun k hk1 hk2 => hnames k hk1 (by omega))]
  rfl

/-- The labels of the specification are those of the function symbols with a non-zero
value at the indices from 1 on. -/
theorem mem_expectedLabels (data : List Nat) (symtab strtab count : Nat) (label : Label) :
    label ∈ expectedLabels data symtab strtab count ↔
      ∃ i, 1 ≤ i ∧ i < count ∧ st_value data symtab i ≠ 0 ∧
        st_info data symtab i &&& 0xf = 2 ∧
        label = (cstrAt data (strtab + st_name data symtab i), st_value data symtab i) := by
  simp only [expectedLabels, List.mem_filterMap, List.mem_range'_1, labelOfSymbol]
  constructor
  · rintro ⟨i, ⟨h1, h2⟩, h⟩
    split_ifs at h with hc
    · exact ⟨i, h1, by omega, hc.1, hc.2, (Option.some.inj h).symm⟩
  · rintro ⟨i, h1, h2, h3, h4, h5⟩
    refine ⟨i, ⟨h1, by omega⟩, ?_⟩
    rw [if_pos ⟨h3, h4⟩, h5]

/-- What a parsed image with a section-header view looks like. -/
theorem parsed_secthead (data : List Nat) (obj : ElfObject) (base : Nat)
    (hhdr : sizeof_ELF_HEADER ≤ data.length)
    (hobj : (withBuffer data).initElfHeaders false = Except.ok obj)
    (hbase : obj.secthead = some base) :
    obj = ⟨data, obj.proghead, some base⟩ ∧ base = u32At data 32 ∧
      u32At data 32 + sizeof_ELF_SHR ≤ data.length := by
  rw [initElfHeaders_withBuffer data hhdr] at hobj
  injection hobj with hobj
  subst hobj
  simp only at hbase ⊢
  split_ifs at hbase with hc
  · injection hbase with hbase
    subst hbase
    simp only [if_pos hc]
    exact ⟨trivial, trivial, hc.2⟩

/-- C12: on an image parsed by `initElfHeaders(false)` with accepted section headers,
exactly one section `s` of type 2, and all referenced offsets inside the buffer (the
`e_shnum` section headers, the header named by `e_shstrndx`, the header named by the
`sh_link` of `s`, the two section offsets, the `sh_size / sizeof(Elf32_Sym)` symbol entries
and the names of the registered symbols), `loadSectionHeaders` returns and the symbol map
afterwards holds exactly the labels `(name, st_value)` of the indices
`1 <= i < sh_size / sizeof(Elf32_Sym)` with `st_value != 0` and `(st_info & 0xF) = 2`,
`name` being the NUL-terminated string at offset `st_name` of the linked section,
whatever the map held before. -/
theorem loadSectionHeaders_one_symbol_table (data : List Nat)
    (hsize : (checkElfSize (data.length : Int) none).1 = true)
    (obj : ElfObject) (hobj : (withBuffer data).initElfHeaders false = Except.ok obj)
    (base : Nat) (hbase : obj.secthead = some base)
    (shnum shstrndx : Nat) (hshnum : e_shnum data = Except.ok shnum)
    (hshstrndx : e_shstrndx data = Except.ok shstrndx)
    (hfit : base + sizeof_ELF_SHR * shnum ≤ data.length)
    (hstr : base + sizeof_ELF_SHR * ((if shstrndx = 0xffff then 0 else shstrndx) + 1)
      ≤ data.length)
    (s : Nat) (hs : s < shnum) (htype : sh_type data base s = 2)
    (huniq : ∀ k, k < shnum → sh_type data base k = 2 → k = s)
    (hlink : base + sizeof_ELF_SHR * (sh_link data base s + 1) ≤ data.length)
    (hdt : sh_offset data base (sh_link data base s) < data.length)
    (hst : sh_offset data base s < data.length)
    (hsyms : sh_offset data base s
      + sizeof_Elf32_Sym * (sh_size data base s / sizeof_Elf32_Sym) ≤ data.length)
    (hnames : ∀ i, 1 ≤ i → i < sh_size data base s / sizeof_Elf32_Sym →
      st_value data (sh_offset data base s) i ≠ 0 →
      st_info data (sh_offset data base s) i &&& 0xf = 2 →
      cstrTerminated data (sh_offset data base (sh_link data base s)
        + st_name data (sh_offset data base s) i) = true)
    (m : SymbolMap) :
    obj.loadSectionHeaders m
      = Except.ok (expectedLabels data (sh_offset data base s)
          (sh_offset data base (sh_link data base s))
          (sh_size data base s / sizeof_Elf32_Sym)) ∧
    (∀ label : Label,
      label ∈ expectedLabels data (sh_offset data base s)
          (sh_offset data base (sh_link data base s))
          (sh_size data base s / sizeof_Elf32_Sym) ↔
        ∃ i, 1 ≤ i ∧ i < sh_size data base s / sizeof_Elf32_Sym ∧
          st_value data (sh_offset data base s) i ≠ 0 ∧
          st_info data (sh_offset data base s) i &&& 0xf = 2 ∧
          label = (cstrAt data (sh_offset data base (sh_link data base s)
            + st_name data (sh_offset data base s) i),
            st_value data (sh_offset data base s) i)) := by
  have hlen := (checkElfSize_length_iff data.length none).mp hsize
  have hhdr : sizeof_ELF_HEADER ≤ data.length := le_of_lt hlen.1
  have h52 : 52 ≤ data.length := hhdr
  obtain ⟨hobj', hb, hacc⟩ := parsed_secthead data obj base hhdr hobj hbase
  rw [e_shnum, readU16_ok data 48 (by omega)] at hshnum
  injection hshnum with hshnum
  rw [e_shstrndx, readU16_ok data 50 (by omega)] at hshstrndx
  injection hshstrndx with hshstrndx
  subst hshnum hshstrndx
  refine ⟨?_, fun label => mem_expectedLabels data _ _ _ label⟩
  rw [hobj']
  exact loadSectionHeaders_last_symtab data obj.proghead base hhdr
    (by simp only [sizeof_ELF_SHR] at hacc; omega) hstr hfit s hs htype
    (fun k hk1 hk2 hk => by have := huniq k hk2 hk; omega)
    (by simp only [sizeof_ELF_SHR] at hlink; have := hlen.2; omega)
    hlink hdt hst hsyms hnames m

/-- Witness of C12 (the example of section 8): a symbol table with a null entry and one
function entry `main` at `0x00100000` yields exactly the label `("main", 0x00100000)`,
also when the map held another label before. -/
theorem loadSectionHeaders_one_symbol_table_witness :
    (checkElfSize ((Fixture.symbolImage 32).length : Int) none).1 = true ∧
    (withBuffer (Fixture.symbolImage 32)).initElfHeaders false
      = Except.ok ⟨Fixture.symbolImage 32, none, some 52⟩ ∧
    loadSectionHeaders ⟨Fixture.symbolImage 32, none, some 52⟩ [([111, 108, 100], 4096)]
      = Except.ok [([109, 97, 105, 110], 0x00100000)] :=
  ⟨by decide, rfl,
    (loadSectionHeaders_one_symbol_table (Fixture.symbolImage 32) (by decide)
      ⟨Fixture.symbolImage 32, none, some 52⟩ rfl 52 rfl 3 2 rfl rfl (by decide) (by decide)
      1 (by decide) (by decide)
      (by intro k hk; interval_cases k <;> decide)
      (by decide) (by decide) (by decide) (by decide)
      (by
        intro i h1 h2 _ _
        have hi : i = 1 := by
          have : sh_size (Fixture.symbolImage 32) 52 1 / sizeof_Elf32_Sym = 2 := by decide
          omega
        subst hi
        decide)
      [([111, 108, 100], 4096)]).1⟩

/-- C13, counterexample: the image has two sections of type 2, at the indices 1 and 2;
the symbol table of section 1 holds `main` and that of section 2 holds `b`. After
`loadSectionHeaders` the map holds the label of `b`, the symbols of the section with the
higher index, and not those of the first such section. -/
theorem loadSectionHeaders_takes_last_symbol_table :
    (checkElfSize (Fixture.twoSymbolTables.length : Int) none).1 = true ∧
    (withBuffer Fixture.twoSymbolTables).initElfHeaders false
      = Except.ok ⟨Fixture.twoSymbolTables, none, some 52⟩ ∧
    sh_type Fixture.twoSymbolTables 52 1 = 2 ∧ sh_type Fixture.twoSymbolTables 52 2 = 2 ∧
    expectedLabels Fixture.twoSymbolTables (sh_offset Fixture.twoSymbolTables 52 1)
        (sh_offset Fixture.twoSymbolTables 52 (sh_link Fixture.twoSymbolTables 52 1))
        (sh_size Fixture.twoSymbolTables 52 1 / sizeof_Elf32_Sym)
      = [([109, 97, 105, 110], 0x00100000)] ∧
    loadSectionHeaders ⟨Fixture.twoSymbolTables, none, some 52⟩ []
      = Except.ok [([98], 0x00200000)] ∧
    loadSectionHeaders ⟨Fixture.twoSymbolTables, none, some 52⟩ []
      ≠ Except.ok (expectedLabels Fixture.twoSymbolTables
          (sh_offset Fixture.twoSymbolTables 52 1)
          (sh_offset Fixture.twoSymbolTables 52 (sh_link Fixture.twoSymbolTables 52 1))
          (sh_size Fixture.twoSymbolTables 52 1 / sizeof_Elf32_Sym)) := by
  have h1 : expectedLabels Fixture.twoSymbolTables (sh_offset Fixture.twoSymbolTables 52 1)
        (sh_offset Fixture.twoSymbolTables 52 (sh_link Fixture.twoSymbolTables 52 1))
        (sh_size Fixture.twoSymbolTables 52 1 / sizeof_Elf32_Sym)
      = [([109, 97, 105, 110], 0x00100000)] := by decide
  have h2 : loadSectionHeaders ⟨Fixture.twoSymbolTables, none, some 52⟩ []
      = Except.ok [([98], 0x00200000)] := rfl
  refine ⟨by decide, rfl, by decide, by decide, h1, h2, ?_⟩
  rw [h1, h2]
  intro h
  injection h with h
  revert h
  decide

/-- C13, amended: on an image parsed by `initElfHeaders(false)` with accepted section
headers and all referenced offsets inside the buffer, `loadSectionHeaders` takes its
symbols from the last section of type 2 (the one with the highest section index `s`) and
resolves names through the `sh_link` of that section. -/
theorem loadSectionHeaders_last_symbol_table (data : List Nat)
    (hsize : (checkElfSize (data.length : Int) none).1 = true)
    (obj : ElfObject) (hobj : (withBuffer data).initElfHeaders false = Except.ok obj)
    (base : Nat) (hbase : obj.secthead = some base)
    (shnum shstrndx : Nat) (hshnum : e_shnum data = Except.ok shnum)
    (hshstrndx : e_shstrndx data = Except.ok shstrndx)
    (hfit : base + sizeof_ELF_SHR * shnum ≤ data.length)
    (hstr : base + sizeof_ELF_SHR * ((if shstrndx = 0xffff then 0 else shstrndx) + 1)
      ≤ data.length)
    (s : Nat) (hs : s < shnum) (htype : sh_type data base s = 2)
    (hlast : ∀ k, s < k → k < shnum → sh_type data base k ≠ 2)
    (hlink : base + sizeof_ELF_SHR * (sh_link data base s + 1) ≤ data.length)
    (hdt : sh_offset data base (sh_link data base s) < data.length)
    (hst : sh_offset data base s < data.length)
    (hsyms : sh_offset data base s
      + sizeof_Elf32_Sym * (sh_size data base s / sizeof_Elf32_Sym) ≤ data.length)
    (hnames : ∀ i, 1 ≤ i → i < sh_size data base s / sizeof_Elf32_Sym →
      st_value data (sh_offset data base s) i ≠ 0 →
      st_info data (sh_offset data base s) i &&& 0xf = 2 →
      cstrTerminated data (sh_offset data base (sh_link data base s)
        + st_name data (sh_offset data base s) i) = true)
    (m : SymbolMap) :
    obj.loadSectionHeaders m
      = Except.ok (expectedLabels data (sh_offset data base s)
          (sh_offset data base (sh_link data base s))
          (sh_size data base s / sizeof_Elf32_Sym)) := by
  have hlen := (checkElfSize_length_iff data.length none).mp hsize
  have hhdr : sizeof_ELF_HEADER ≤ data.length := le_of_lt hlen.1
  have h52 : 52 ≤ data.length := hhdr
  obtain ⟨hobj', hb, hacc⟩ := parsed_secthead data obj base hhdr hobj hbase
  rw [e_shnum, readU16_ok data 48 (by omega)] at hshnum
  injection hshnum with hshnum
  rw [e_shstrndx, readU16_ok data 50 (by omega)] at hshstrndx
  injection hshstrndx with hshstrndx
  subst hshnum hshstrndx
  rw [hobj']
  exact loadSectionHeaders_last_symtab data obj.proghead base hhdr
    (by simp only [sizeof_ELF_SHR] at hacc; omega) hstr hfit s hs htype hlast
    (by simp only [sizeof_ELF_SHR] at hlink; have := hlen.2; omega)
    hlink hdt hst hsyms hnames m

/-- Witness of C13: in the image with two symbol tables the last section of type 2 is
section 2, and the map holds the label of its symbol `b`. -/
theorem loadSectionHeaders_last_symbol_table_witness :
    (checkElfSize (Fixture.twoSymbolTables.length : Int) none).1 = true ∧
    sh_type Fixture.twoSymbolTables 52 1 = 2 ∧ sh_type Fixture.twoSymbolTables 52 2 = 2 ∧
    sh_type Fixture.twoSymbolTables 52 3 ≠ 2 ∧
    loadSectionHeaders ⟨Fixture.twoSymbolTables, none, some 52⟩ []
      = Except.ok (expectedLabels Fixture.twoSymbolTables
          (sh_offset Fixture.twoSymbolTables 52 2)
          (sh_offset Fixture.twoSymbolTables 52 (sh_link Fixture.twoSymbolTables 52 2))
          (sh_size Fixture.twoSymbolTables 52 2 / sizeof_Elf32_Sym)) :=
  ⟨by decide, by decide, by decide, by decide,
    loadSectionHeaders_last_symbol_table Fixture.twoSymbolTables (by decide)
      ⟨Fixture.twoSymbolTables, none, some 52⟩ rfl 52 rfl 4 3 rfl rfl (by decide) (by decide)
      2 (by decide) (by decide)
      (by intro k hk1 hk2; have hk : k = 3 := by omega
          subst hk; decide)
      (by decide) (by decide) (by decide) (by decide)
      (by
        intro i h1 h2 _ _
        have hi : i = 1 := by
          have : sh_size Fixture.twoSymbolTables 52 2 / sizeof_Elf32_Sym = 2 := by decide
          omega
        subst hi
        decide)
      []⟩

/-- C14, counterexample: the map holds the label `old` before the call. On a parsed image
without section headers, and on a parsed image whose section headers hold no symbol
table, `loadSectionHeaders` returns with the map as it was: the label that was present
only before the call is still there. -/
theorem loadSectionHeaders_keeps_prior_labels :
    (withBuffer Fixture.entryInsideSegment).initElfHeaders false
      = Except.ok ⟨Fixture.entryInsideSegment, some 52, none⟩ ∧
    loadSectionHeaders ⟨Fixture.entryInsideSegment, some 52, none⟩ [([111, 108, 100], 4096)]
      = Except.ok [([111, 108, 100], 4096)] ∧
    (withBuffer Fixture.sectionsOnly).initElfHeaders false
      = Except.ok ⟨Fixture.sectionsOnly, none, some 52⟩ ∧
    loadSectionHeaders ⟨Fixture.sectionsOnly, none, some 52⟩ [([111, 108, 100], 4096)]
      = Except.ok [([111, 108, 100], 4096)] ∧
    loadSectionHeaders ⟨Fixture.sectionsOnly, none, some 52⟩ [] = Except.ok [] ∧
    (([111, 108, 100], 4096) : Label) ∈ [(([111, 108, 100], 4096) : Label)] :=
  ⟨rfl, rfl, rfl, rfl, rfl, List.mem_singleton.mpr rfl⟩

/-- The first part of `loadSectionHeaders` leaves the function without choosing a symbol
table on an image whose section headers lie inside the buffer when no section has type 2,
when the link of the last section of type 2 is negative as an `int`, or when the offset of
the linked section or of the symbol table itself is not below the size of the buffer. -/
theorem locateSymbols_none (data : List Nat) (ph : Option Nat) (base : Nat)
    (hhdr : sizeof_ELF_HEADER ≤ data.length) (hshoff : u32At data 32 ≤ data.length)
    (hstr : base + sizeof_ELF_SHR
      * ((if u16At data 50 = 0xffff then 0 else u16At data 50) + 1) ≤ data.length)
    (hfit : base + sizeof_ELF_SHR * u16At data 48 ≤ data.length)
    (h : (∀ k, k < u16At data 48 → sh_type data base k ≠ 2) ∨
      ∃ s, s < u16At data 48 ∧ sh_type data base s = 2 ∧
        (∀ k, s < k → k < u16At data 48 → sh_type data base k ≠ 2) ∧
        (2 ^ 31 ≤ sh_link data base s ∨
          (sh_link data base s < 2 ^ 31 ∧
            base + sizeof_ELF_SHR * (sh_link data base s + 1) ≤ data.length ∧
            (data.length ≤ sh_offset data base (sh_link data base s) ∨
              (sh_offset data base (sh_link data base s) < data.length ∧
                data.length ≤ sh_offset data base s))))) :
    locateSymbols ⟨data, ph, some base⟩ = Except.ok none := by
  simp only [sizeof_ELF_HEADER] at hhdr
  have hr1 : readU32 data (base + (sizeof_ELF_SHR
      * (if u16At data 50 = 0xffff then 0 else u16At data 50) + off_sh_offset))
      = Except.ok (sh_offset data base (if u16At data 50 = 0xffff then 0 else u16At data 50)) :=
    readU32_ok data _ (by
      simp only [sizeof_ELF_SHR, off_sh_offset] at hstr ⊢; omega)
  rcases h with hnone | ⟨s, hs, htype, hlast, hrest⟩
  · have hloop := (sectionLoop_last data ph base (u16At data 48) 0 (-1, -1)
      (by simpa using hfit)).1 (fun k _ hk2 => hnone k (by omega))
    simp only [locateSymbols, e_shoff, e_shstrndx, e_shnum, readU32_ok data 32 (by omega),
      readU16_ok data 50 (by omega), readU16_ok data 48 (by omega), loadU32, bind,
      Except.bind, pure, Except.pure, if_neg (Nat.not_lt.mpr hshoff), hr1, hloop]
    rfl
  · have hloop := (sectionLoop_last data ph base (u16At data 48) 0 (-1, -1)
      (by simpa using hfit)).2 s (Nat.zero_le s) (by omega) htype
      (fun k hk1 hk2 => hlast k hk1 (by omega))
    have hfits : base + sizeof_ELF_SHR * (s + 1) ≤ data.length := by
      simp only [sizeof_ELF_SHR] at hfit ⊢; omega
    have hr3 : readU32 data (base + (sizeof_ELF_SHR * s + off_sh_offset))
        = Except.ok (sh_offset data base s) :=
      readU32_ok data _ (by simp only [sizeof_ELF_SHR, off_sh_offset] at hfits ⊢; omega)
    rcases hrest with hneg | ⟨hlink31, hlink, hoff⟩
    · have hlt := u32At_lt data (base + (sizeof_ELF_SHR * s + off_sh_link))
      have hneg' : ¬ sh_link data base s < 2 ^ 31 := by omega
      have hcond : ¬ ((s : Int) ≥ 0 ∧ u32ToInt (sh_link data base s) ≥ 0) := by
        rintro ⟨-, h2⟩
        simp only [u32ToInt, if_neg hneg'] at h2
        have : sh_link data base s < 2 ^ 32 := hlt
        omega
      simp only [locateSymbols, e_shoff, e_shstrndx, e_shnum, readU32_ok data 32 (by omega),
        readU16_ok data 50 (by omega), readU16_ok data 48 (by omega), loadU32, bind,
        Except.bind, pure, Except.pure, if_neg (Nat.not_lt.mpr hshoff), hr1, hloop,
        if_neg hcond]
    · rw [u32ToInt_of_lt _ hlink31] at hloop
      have hr2 : readU32 data (base + (sizeof_ELF_SHR * sh_link data base s + off_sh_offset))
          = Except.ok (sh_offset data base (sh_link data base s)) :=
        readU32_ok data _ (by simp only [sizeof_ELF_SHR, off_sh_offset] at hlink ⊢; omega)
      have hcond : ((s : Int) ≥ 0 ∧ ((sh_link data base s : Nat) : Int) ≥ 0) :=
        ⟨Int.ofNat_nonneg _, Int.ofNat_nonneg _⟩
      rcases hoff with hdt | ⟨hdt, hst⟩
      · simp only [locateSymbols, e_shoff, e_shstrndx, e_shnum,
          readU32_ok data 32 (by omega), readU16_ok data 50 (by omega),
          readU16_ok data 48 (by omega), loadU32, bind, Except.bind, pure, Except.pure,
          if_neg (Nat.not_lt.mpr hshoff), hr1, hloop, hcond, and_self, if_true,
          Int.toNat_ofNat, hr2, if_neg (Nat.not_lt.mpr hdt)]
      · simp only [locateSymbols, e_shoff, e_shstrndx, e_shnum,
          readU32_ok data 32 (by omega), readU16_ok data 50 (by omega),
          readU16_ok data 48 (by omega), loadU32, bind, Except.bind, pure, Except.pure,
          if_neg (Nat.not_lt.mpr hshoff), hr1, hloop, hcond, and_self, if_true,
          Int.toNat_ofNat, hr2, hr3, if_pos hdt, if_neg (Nat.not_lt.mpr hst)]

/-- When its first part chooses no symbol table, `loadSectionHeaders` returns with the map
as it was. -/
theorem loadSectionHeaders_of_none (self : ElfObject) (m : SymbolMap)
    (h : locateSymbols self = Except.ok none) : self.loadSectionHeaders m = Except.ok m := by
  rw [loadSectionHeaders_eq, h]
  rfl

/-- C14, amended: `loadSectionHeaders` replaces the prior symbol data only when it reaches
the symbol loop. With the section headers inside the buffer that is exactly when some
section has type 2 and, for the last such section `s`, `sh_link` is below `2^31` and both
the `sh_offset` of the linked section and the `sh_offset` of `s` are below the size of the
buffer: the map afterwards is then the same for every prior content, and with the symbol
entries and names inside the buffer it holds exactly the labels of `s`. On every other
path the map is left exactly as it was: no section-header view, `e_shoff` above the size
of the buffer, no section of type 2, a link of `2^31` or more, or one of the two offsets
at or above the size of the buffer. -/
theorem loadSectionHeaders_replaces_or_keeps (data : List Nat) (ph : Option Nat)
    (m : SymbolMap) :
    loadSectionHeaders ⟨data, ph, none⟩ m = Except.ok m ∧
    ∀ base shoff shnum shstrndx : Nat, sizeof_ELF_HEADER ≤ data.length →
      e_shoff data = Except.ok shoff → e_shnum data = Except.ok shnum →
      e_shstrndx data = Except.ok shstrndx →
      (data.length < shoff → loadSectionHeaders ⟨data, ph, some base⟩ m = Except.ok m) ∧
      (shoff ≤ data.length →
        base + sizeof_ELF_SHR * ((if shstrndx = 0xffff then 0 else shstrndx) + 1)
          ≤ data.length →
        base + sizeof_ELF_SHR * shnum ≤ data.length →
        ((∀ k, k < shnum → sh_type data base k ≠ 2) →
          loadSectionHeaders ⟨data, ph, some base⟩ m = Except.ok m) ∧
        (∀ s, s < shnum → sh_type data base s = 2 →
          (∀ k, s < k → k < shnum → sh_type data base k ≠ 2) →
          (2 ^ 31 ≤ sh_link data base s →
            loadSectionHeaders ⟨data, ph, some base⟩ m = Except.ok m) ∧
          (sh_link data base s < 2 ^ 31 →
            base + sizeof_ELF_SHR * (sh_link data base s + 1) ≤ data.length →
            (data.length ≤ sh_offset data base (sh_link data base s) →
              loadSectionHeaders ⟨data, ph, some base⟩ m = Except.ok m) ∧
            (sh_offset data base (sh_link data base s) < data.length →
              data.length ≤ sh_offset data base s →
              loadSectionHeaders ⟨data, ph, some base⟩ m = Except.ok m) ∧
            (sh_offset data base (sh_link data base s) < data.length →
              sh_offset data base s < data.length →
              (∀ m0, loadSectionHeaders ⟨data, ph, some base⟩ m0
                = loadSectionHeaders ⟨data, ph, some base⟩ m) ∧
              (sh_offset data base s
                  + sizeof_Elf32_Sym * (sh_size data base s / sizeof_Elf32_Sym)
                  ≤ data.length →
                (∀ i, 1 ≤ i → i < sh_size data base s / sizeof_Elf32_Sym →
                  st_value data (sh_offset data base s) i ≠ 0 →
                  st_info data (sh_offset data base s) i &&& 0xf = 2 →
                  cstrTerminated data (sh_offset data base (sh_link data base s)
                    + st_name data (sh_offset data base s) i) = true) →
                loadSectionHeaders ⟨data, ph, some base⟩ m
                  = Except.ok (expectedLabels data (sh_offset data base s)
                      (sh_offset data base (sh_link data base s))
                      (sh_size data base s / sizeof_Elf32_Sym))))))) := by
  refine ⟨rfl, ?_⟩
  intro base shoff shnum shstrndx hhdr hshoff hshnum hshstrndx
  have h52 : 52 ≤ data.length := hhdr
  rw [e_shoff, readU32_ok data 32 (by omega)] at hshoff
  injection hshoff with hshoff
  rw [e_shnum, readU16_ok data 48 (by omega)] at hshnum
  injection hshnum with hshnum
  rw [e_shstrndx, readU16_ok data 50 (by omega)] at hshstrndx
  injection hshstrndx with hshstrndx
  subst hshoff hshnum hshstrndx
  constructor
  · intro hbeyond
    simp only [loadSectionHeaders, e_shoff, readU32_ok data 32 (by omega), bind, Except.bind,
      pure, Except.pure, if_pos hbeyond]
  · intro hin hstr hfit
    constructor
    · intro hnone
      exact loadSectionHeaders_of_none _ m
        (locateSymbols_none data ph base hhdr hin hstr hfit (Or.inl hnone))
    · intro s hs htype hlast
      constructor
      · intro hneg
        exact loadSectionHeaders_of_none _ m
          (locateSymbols_none data ph base hhdr hin hstr hfit
            (Or.inr ⟨s, hs, htype, hlast, Or.inl hneg⟩))
      · intro hlink31 hlink
        refine ⟨?_, ?_, ?_⟩
        · intro hdt
          exact loadSectionHeaders_of_none _ m
            (locateSymbols_none data ph base hhdr hin hstr hfit
              (Or.inr ⟨s, hs, htype, hlast, Or.inr ⟨hlink31, hlink, Or.inl hdt⟩⟩))
        · intro hdt hst
          exact loadSectionHeaders_of_none _ m
            (locateSymbols_none data ph base hhdr hin hstr hfit
              (Or.inr ⟨s, hs, htype, hlast, Or.inr ⟨hlink31, hlink, Or.inr ⟨hdt, hst⟩⟩⟩))
        · intro hdt hst
          constructor
          · intro m0
            rw [loadSectionHeaders_eq, loadSectionHeaders_eq,
              locateSymbols_last data ph base hhdr hin hstr hfit s hs htype hlast hlink31
                hlink hdt hst]
            rfl
          · intro hsyms hnames
            exact loadSectionHeaders_last_symtab data ph base hhdr hin hstr hfit s hs htype
              hlast hlink31 hlink hdt hst hsyms hnames m

/-- Witness of C14: on the image of section 8 the symbol loop is reached, and the map that
held `old` holds `main` only afterwards. With the offset of the symbol table or of the
string table at the size of the buffer, or with a negative link, the map still holds
`old`. -/
theorem loadSectionHeaders_replaces_or_keeps_witness :
    loadSectionHeaders ⟨Fixture.symbolImage 32, none, some 52⟩ [([111, 108, 100], 4096)]
      = Except.ok (expectedLabels (Fixture.symbolImage 32)
          (sh_offset (Fixture.symbolImage 32) 52 1)
          (sh_offset (Fixture.symbolImage 32) 52 (sh_link (Fixture.symbolImage 32) 52 1))
          (sh_size (Fixture.symbolImage 32) 52 1 / sizeof_Elf32_Sym)) ∧
    expectedLabels (Fixture.symbolImage 32) (sh_offset (Fixture.symbolImage 32) 52 1)
        (sh_offset (Fixture.symbolImage 32) 52 (sh_link (Fixture.symbolImage 32) 52 1))
        (sh_size (Fixture.symbolImage 32) 52 1 / sizeof_Elf32_Sym)
      = [([109, 97, 105, 110], 0x00100000)] ∧
    Fixture.symbolTableAtEnd.length = 210 ∧
    sh_offset Fixture.symbolTableAtEnd 52 1 = 210 ∧
    loadSectionHeaders ⟨Fixture.symbolTableAtEnd, none, some 52⟩ [([111, 108, 100], 4096)]
      = Except.ok [([111, 108, 100], 4096)] ∧
    Fixture.stringTableAtEnd.length = 210 ∧
    sh_offset Fixture.stringTableAtEnd 52 (sh_link Fixture.stringTableAtEnd 52 1) = 210 ∧
    loadSectionHeaders ⟨Fixture.stringTableAtEnd, none, some 52⟩ [([111, 108, 100], 4096)]
      = Except.ok [([111, 108, 100], 4096)] ∧
    sh_link Fixture.negativeLink 52 1 = 0x80000000 ∧
    loadSectionHeaders ⟨Fixture.negativeLink, none, some 52⟩ [([111, 108, 100], 4096)]
      = Except.ok [([111, 108, 100], 4096)] := by
  have h1 := (loadSectionHeaders_replaces_or_keeps (Fixture.symbolImage 32) none
    [([111, 108, 100], 4096)]).2 52 52 3 2 (by decide) rfl rfl rfl
  have h2 := (h1.2 (by decide) (by decide) (by decide)).2 1 (by decide) (by decide)
    (by intro k hk1 hk2; have hk : k = 2 := by omega
        subst hk; decide)
  have h3 := ((h2.2 (by decide) (by decide)).2.2 (by decide) (by decide)).2 (by decide)
    (by
      intro i h1 h2 _ _
      have hi : i = 1 := by
        have : sh_size (Fixture.symbolImage 32) 52 1 / sizeof_Elf32_Sym = 2 := by decide
        omega
      subst hi
      decide)
  exact ⟨h3, by decide, by decide, by decide, rfl, by decide, by decide, rfl, by decide,
    rfl⟩

end ElfObject

/-! ## `GetPS2ElfName` -/

/-- A line that is not processed as a boot line (it does not parse, it is skipped for its
empty value, or its key is neither `BOOT2` nor `BOOT`) changes neither `retype` nor
`name`. -/
theorem cnfStep_inert (st : Int × String) (line : CnfLine)
    (h : ∀ k v, line.parsed = some (k, v) →
      (v = "" ∧ line.posAtEnd = false) ∨ (k ≠ "BOOT2" ∧ k ≠ "BOOT")) :
    cnfStep st line = st := by
  unfold cnfStep
  cases hp : line.parsed with
  | none => rfl
  | some kv =>
    obtain ⟨k, v⟩ := kv
    rcases h k v hp with hskip | ⟨h2, h1⟩
    · simp [hskip.1, hskip.2]
    · simp only [if_neg h2, if_neg h1]
      split_ifs <;> rfl

theorem foldl_cnfStep_inert (lines : List CnfLine) :
    ∀ st : Int × String,
      (∀ l ∈ lines, ∀ k v, l.parsed = some (k, v) →
        (v = "" ∧ l.posAtEnd = false) ∨ (k ≠ "BOOT2" ∧ k ≠ "BOOT")) →
      lines.foldl cnfStep st = st := by
  induction lines with
  | nil => intro st _; rfl
  | cons l ls ih =>
    intro st h
    rw [List.foldl_cons, cnfStep_inert st l (h l (List.mem_cons_self l ls))]
    exact ih st (fun l' hl' => h l' (List.mem_cons_of_mem l hl'))

theorem u32ToInt_eq_zero_iff (x : Nat) (hx : x < 2 ^ 32) :
    ElfObject.u32ToInt x = 0 ↔ x = 0 := by
  unfold ElfObject.u32ToInt
  split_ifs with h
  · constructor <;> intro h0 <;> omega
  · constructor
    · intro h0
      norm_num at h h0 hx
      omega
    · intro h0; subst h0; simp at h

theorem CnfFile.getLength_lt (f : CnfFile) : f.getLength < 2 ^ 32 :=
  Nat.mod_lt _ (by norm_num)

/-- The outcome of `GetPS2ElfName` on an opened file of non-zero length. -/
theorem GetPS2ElfName_opened (f : CnfFile) (name : String) (h : f.getLength ≠ 0) :
    GetPS2ElfName (some f) name
      = if (f.lines.foldl cnfStep (0, name)).1 = 0
        then (0, (f.lines.foldl cnfStep (0, name)).2)
        else f.lines.foldl cnfStep (0, name) := by
  have h0 : ¬ ElfObject.u32ToInt f.getLength = 0 := fun hc => h ((u32ToInt_eq_zero_iff _ f.getLength_lt).mp hc)
  simp only [GetPS2ElfName, if_neg h0]

/-- C19: on a SYSTEM.CNF of non-zero length whose only line with a boot key is
`BOOT2 = v` with non-empty `v`, `GetPS2ElfName` returns 2 and sets `name` to `v`; when it
is `BOOT = v`, it returns 1 and sets `name` to `v`; a line that does not parse, or whose
key is `VMODE`, `VER` or any other key than the two boot keys, changes neither the
classification nor the name. -/
theorem GetPS2ElfName_only_boot_line (f : CnfFile) (name v : String)
    (pre post : List CnfLine) (atEnd : Bool)
    (hlen : f.getLength ≠ 0) (hv : v ≠ "")
    (hpre : ∀ l ∈ pre, ∀ k w, l.parsed = some (k, w) → k ≠ "BOOT2" ∧ k ≠ "BOOT")
    (hpost : ∀ l ∈ post, ∀ k w, l.parsed = some (k, w) → k ≠ "BOOT2" ∧ k ≠ "BOOT") :
    (f.lines = pre ++ ⟨some ("BOOT2", v), atEnd⟩ :: post →
      GetPS2ElfName (some f) name = (2, v)) ∧
    (f.lines = pre ++ ⟨some ("BOOT", v), atEnd⟩ :: post →
      GetPS2ElfName (some f) name = (1, v)) ∧
    (∀ (st : Int × String) (l : CnfLine),
      (∀ k w, l.parsed = some (k, w) → k ≠ "BOOT2" ∧ k ≠ "BOOT") → cnfStep st l = st) := by
  have hpre' := foldl_cnfStep_inert pre (0, name)
    (fun l hl k w hp => Or.inr (hpre l hl k w hp))
  refine ⟨?_, ?_, fun st l h => cnfStep_inert st l (fun k w hp => Or.inr (h k w hp))⟩
  · intro hl
    have hpost' := foldl_cnfStep_inert post (2, v)
      (fun l hl k w hp => Or.inr (hpost l hl k w hp))
    have hstep : cnfStep (0, name) ⟨some ("BOOT2", v), atEnd⟩ = (2, v) := by
      simp [cnfStep, hv]
    rw [GetPS2ElfName_opened f name hlen, hl, List.foldl_append, List.foldl_cons, hpre',
      hstep, hpost']
    simp
  · intro hl
    have hpost' := foldl_cnfStep_inert post (1, v)
      (fun l hl k w hp => Or.inr (hpost l hl k w hp))
    have hstep : cnfStep (0, name) ⟨some ("BOOT", v), atEnd⟩ = (1, v) := by
      simp [cnfStep, hv]
    rw [GetPS2ElfName_opened f name hlen, hl, List.foldl_append, List.foldl_cons, hpre',
      hstep, hpost']
    simp

/-- Witness of C19 (the example of section 8): the single line
`BOOT2 = cdrom0:\SAMPLE.ELF;1` gives 2 with that path. -/
theorem GetPS2ElfName_only_boot_line_witness :
    CnfFile.getLength ⟨31, [⟨some ("BOOT2", "cdrom0:\\SAMPLE.ELF;1"), true⟩]⟩ ≠ 0 ∧
    "cdrom0:\\SAMPLE.ELF;1" ≠ "" ∧
    GetPS2ElfName (some ⟨31, [⟨some ("BOOT2", "cdrom0:\\SAMPLE.ELF;1"), true⟩]⟩) "old"
      = (2, "cdrom0:\\SAMPLE.ELF;1") :=
  ⟨by decide, by decide,
    (GetPS2ElfName_only_boot_line ⟨31, [⟨some ("BOOT2", "cdrom0:\\SAMPLE.ELF;1"), true⟩]⟩
      "old" "cdrom0:\\SAMPLE.ELF;1" [] [] true (by decide) (by decide)
      (fun l hl => absurd hl (List.not_mem_nil l))
      (fun l hl => absurd hl (List.not_mem_nil l))).1 rfl⟩

/-- C20: `GetPS2ElfName` returns 0 and leaves the caller's `name` unchanged when
SYSTEM.CNF cannot be opened, when its length is 0, and when no processed line (a line that
parses and is not skipped for its empty value) has the key `BOOT2` or `BOOT`. -/
theorem GetPS2ElfName_invalid (name : String) :
    GetPS2ElfName none name = (0, name) ∧
    (∀ f : CnfFile, f.getLength = 0 → GetPS2ElfName (some f) name = (0, name)) ∧
    (∀ f : CnfFile,
      (∀ l ∈ f.lines, ∀ k v, l.parsed = some (k, v) →
        (v = "" ∧ l.posAtEnd = false) ∨ (k ≠ "BOOT2" ∧ k ≠ "BOOT")) →
      GetPS2ElfName (some f) name = (0, name)) := by
  refine ⟨rfl, ?_, ?_⟩
  · intro f h
    simp [GetPS2ElfName, h, ElfObject.u32ToInt]
  · intro f h
    by_cases h0 : f.getLength = 0
    · simp [GetPS2ElfName, h0, ElfObject.u32ToInt]
    · rw [GetPS2ElfName_opened f name h0, foldl_cnfStep_inert f.lines (0, name) h]
      simp

/-- Witness of C20: a file with a `VMODE` line, a line that does not parse and a `BOOT2`
line with an empty value read before the end of the file. -/
theorem GetPS2ElfName_invalid_witness :
    GetPS2ElfName (some ⟨24,
        [⟨some ("VMODE", "NTSC"), false⟩, ⟨none, false⟩, ⟨some ("BOOT2", ""), false⟩,
          ⟨some ("VER", "1.00"), true⟩]⟩) "old"
      = (0, "old") :=
  (GetPS2ElfName_invalid "old").2.2 ⟨24,
    [⟨some ("VMODE", "NTSC"), false⟩, ⟨none, false⟩, ⟨some ("BOOT2", ""), false⟩,
      ⟨some ("VER", "1.00"), true⟩]⟩ (by
    intro l hl k v hp
    simp only [List.mem_cons, List.mem_singleton, List.not_mem_nil, or_false] at hl
    rcases hl with rfl | rfl | rfl | rfl
    · simp only [Option.some.injEq, Prod.mk.injEq] at hp
      obtain ⟨rfl, rfl⟩ := hp
      exact Or.inr (by decide)
    · simp at hp
    · simp only [Option.some.injEq, Prod.mk.injEq] at hp
      obtain ⟨rfl, rfl⟩ := hp
      exact Or.inl ⟨rfl, rfl⟩
    · simp only [Option.some.injEq, Prod.mk.injEq] at hp
      obtain ⟨rfl, rfl⟩ := hp
      exact Or.inr (by decide))

/-- C21: a parsed line whose value is empty and that is read while the read position is
not at the end of the file is skipped entirely: the loop body leaves `retype` and `name`
as they were, whatever the key (`BOOT2` and `BOOT` included), and `GetPS2ElfName` gives
the same classification and name as on the file without that line. -/
theorem GetPS2ElfName_skips_empty_value (key : String) :
    (∀ st : Int × String, cnfStep st ⟨some (key, ""), false⟩ = st) ∧
    (∀ (length : Nat) (pre post : List CnfLine) (name : String),
      GetPS2ElfName (some ⟨length, pre ++ ⟨some (key, ""), false⟩ :: post⟩) name
        = GetPS2ElfName (some ⟨length, pre ++ post⟩) name) := by
  have hstep : ∀ st : Int × String, cnfStep st ⟨some (key, ""), false⟩ = st := by
    intro st
    simp [cnfStep]
  refine ⟨hstep, ?_⟩
  intro length pre post name
  simp only [GetPS2ElfName, CnfFile.getLength, List.foldl_append, List.foldl_cons, hstep]

/-- The classification carried by the loop of `GetPS2ElfName` stays among 0, 1 and 2. -/
theorem cnfStep_range (st : Int × String) (line : CnfLine)
    (h : st.1 = 0 ∨ st.1 = 1 ∨ st.1 = 2) :
    (cnfStep st line).1 = 0 ∨ (cnfStep st line).1 = 1 ∨ (cnfStep st line).1 = 2 := by
  unfold cnfStep
  cases line.parsed with
  | none => exact h
  | some kv =>
    obtain ⟨k, v⟩ := kv
    simp only
    split_ifs
    · exact h
    · exact Or.inr (Or.inr rfl)
    · exact Or.inr (Or.inl rfl)
    · exact h
    · exact h
    · exact h

theorem foldl_cnfStep_range (lines : List CnfLine) :
    ∀ st : Int × String, (st.1 = 0 ∨ st.1 = 1 ∨ st.1 = 2) →
      ((lines.foldl cnfStep st).1 = 0 ∨ (lines.foldl cnfStep st).1 = 1 ∨
        (lines.foldl cnfStep st).1 = 2) := by
  induction lines with
  | nil => intro st h; exact h
  | cons l ls ih =>
    intro st h
    rw [List.foldl_cons]
    exact ih _ (cnfStep_range st l h)

/-- C30: `GetPS2ElfName` always returns 0, 1 or 2; and when the last processed line with a
boot key (a line `key = value` that is not skipped for its empty value, no processed boot
line following it) has the key `BOOT2` the result is 2, when it has the key `BOOT` the
result is 1, and `name` is the value of that line, whatever the lines before it did. -/
theorem GetPS2ElfName_last_boot_line_decides :
    (∀ (file : Option CnfFile) (name : String),
      (GetPS2ElfName file name).1 = 0 ∨ (GetPS2ElfName file name).1 = 1 ∨
        (GetPS2ElfName file name).1 = 2) ∧
    (∀ (f : CnfFile) (name key value : String) (atEnd : Bool) (pre post : List CnfLine),
      f.getLength ≠ 0 →
      f.lines = pre ++ ⟨some (key, value), atEnd⟩ :: post →
      ¬ (value = "" ∧ atEnd = false) →
      (∀ l ∈ post, ∀ k v, l.parsed = some (k, v) →
        (v = "" ∧ l.posAtEnd = false) ∨ (k ≠ "BOOT2" ∧ k ≠ "BOOT")) →
      (key = "BOOT2" → GetPS2ElfName (some f) name = (2, value)) ∧
      (key = "BOOT" → GetPS2ElfName (some f) name = (1, value))) := by
  constructor
  · intro file name
    cases file with
    | none => exact Or.inl rfl
    | some f =>
      by_cases h0 : f.getLength = 0
      · left
        simp [GetPS2ElfName, h0, ElfObject.u32ToInt]
      · rw [GetPS2ElfName_opened f name h0]
        have hr := foldl_cnfStep_range f.lines (0, name) (Or.inl rfl)
        split_ifs with hz
        · exact Or.inl rfl
        · exact hr
  · intro f name key value atEnd pre post hlen hl hproc hpost
    constructor
    · intro hk
      subst hk
      have hstep : ∀ st : Int × String,
          cnfStep st ⟨some ("BOOT2", value), atEnd⟩ = (2, value) := by
        intro st
        simp only [cnfStep, if_neg hproc, if_true]
      rw [GetPS2ElfName_opened f name hlen, hl, List.foldl_append, List.foldl_cons, hstep,
        foldl_cnfStep_inert post (2, value) hpost]
      simp
    · intro hk
      subst hk
      have hstep : ∀ st : Int × String,
          cnfStep st ⟨some ("BOOT", value), atEnd⟩ = (1, value) := by
        intro st
        simp only [cnfStep, if_neg hproc, if_neg (by decide : ¬ ("BOOT" = "BOOT2")), if_true]
      rw [GetPS2ElfName_opened f name hlen, hl, List.foldl_append, List.foldl_cons, hstep,
        foldl_cnfStep_inert post (1, value) hpost]
      simp

/-- Witness of C30: a `BOOT2` line followed by a `BOOT` line gives 1 with the path of the
`BOOT` line. -/
theorem GetPS2ElfName_last_boot_line_decides_witness :
    GetPS2ElfName (some ⟨40,
        [⟨some ("BOOT2", "cdrom0:\\A.ELF;1"), false⟩, ⟨some ("BOOT", "cdrom:\\B.EXE;1"), false⟩,
          ⟨some ("VER", "1.00"), true⟩]⟩) "old"
      = (1, "cdrom:\\B.EXE;1") :=
  (GetPS2ElfName_last_boot_line_decides.2 ⟨40,
      [⟨some ("BOOT2", "cdrom0:\\A.ELF;1"), false⟩, ⟨some ("BOOT", "cdrom:\\B.EXE;1"), false⟩,
        ⟨some ("VER", "1.00"), true⟩]⟩ "old" "BOOT" "cdrom:\\B.EXE;1" false
      [⟨some ("BOOT2", "cdrom0:\\A.ELF;1"), false⟩] [⟨some ("VER", "1.00"), true⟩]
      (by decide) rfl (by decide)
      (by
        intro l hl k v hp
        simp only [List.mem_singleton] at hl
        subst hl
        simp only [Option.some.injEq, Prod.mk.injEq] at hp
        obtain ⟨rfl, rfl⟩ := hp
        exact Or.inr (by decide))).2 rfl

namespace ElfObject

/-! ## `getTextRange` under 32-bit wraparound -/

/-- Every way the loop of `getTextRange` can return: with `(0, 0)` after every entry from
`i` on failed the test, or with the pair of an entry that passed it. -/
theorem getTextRangeLoop_ok_inv (data : List Nat) (base : Nat) (sh : Option Nat) :
    ∀ n i r, getTextRangeLoop ⟨data, some base, sh⟩ n i = Except.ok r →
      (r = (0, 0) ∧ ∀ k, i ≤ k → k < i + n →
        ¬ (p_vaddr data base k ≤ u32At data 24 ∧
          u32At data 24 < (p_vaddr data base k + p_memsz data base k) % 2 ^ 32)) ∨
      (∃ k, i ≤ k ∧ k < i + n ∧ 24 + 4 ≤ data.length ∧
        (p_vaddr data base k ≤ u32At data 24 ∧
          u32At data 24 < (p_vaddr data base k + p_memsz data base k) % 2 ^ 32) ∧
        r = (p_vaddr data base k, p_memsz data base k)) := by
  intro n
  induction n with
  | zero =>
    intro i r h
    simp only [getTextRangeLoop, Except.ok.injEq] at h
    exact Or.inl ⟨h.symm, fun k h1 h2 => by omega⟩
  | succ n ih =>
    intro i r h
    simp only [getTextRangeLoop, loadU32, e_entry, bind, Except.bind, pure, Except.pure] at h
    by_cases hb1 : base + (sizeof_ELF_PHR * i + off_p_vaddr) + 4 ≤ data.length
    · rw [readU32_ok _ _ hb1] at h
      by_cases hb2 : base + (sizeof_ELF_PHR * i + off_p_memsz) + 4 ≤ data.length
      · rw [readU32_ok _ _ hb2] at h
        by_cases hb3 : 24 + 4 ≤ data.length
        · rw [readU32_ok _ _ hb3] at h
          simp only at h
          by_cases hc : p_vaddr data base i ≤ u32At data 24 ∧
              u32At data 24 < (p_vaddr data base i + p_memsz data base i) % 2 ^ 32
          · have hc' : u32At data (base + (sizeof_ELF_PHR * i + off_p_vaddr)) ≤ u32At data 24 ∧
                (u32At data (base + (sizeof_ELF_PHR * i + off_p_vaddr))
                  + u32At data (base + (sizeof_ELF_PHR * i + off_p_memsz))) % 2 ^ 32
                  > u32At data 24 := hc
            rw [if_pos hc'] at h
            injection h with h
            exact Or.inr ⟨i, le_refl i, by omega, hb3, hc, h.symm⟩
          · have hc' : ¬ (u32At data (base + (sizeof_ELF_PHR * i + off_p_vaddr))
                  ≤ u32At data 24 ∧
                (u32At data (base + (sizeof_ELF_PHR * i + off_p_vaddr))
                  + u32At data (base + (sizeof_ELF_PHR * i + off_p_memsz))) % 2 ^ 32
                  > u32At data 24) := hc
            rw [if_neg hc'] at h
            rcases ih (i + 1) r h with ⟨hr, hnone⟩ | ⟨k, hk1, hk2, hk3, hk4, hk5⟩
            · refine Or.inl ⟨hr, fun k hk1 hk2 => ?_⟩
              rcases Nat.eq_or_lt_of_le hk1 with heq | hlt
              · subst heq; exact hc
              · exact hnone k hlt (by omega)
            · exact Or.inr ⟨k, by omega, by omega, hk3, hk4, hk5⟩
        · rw [readU32_error _ _ (by omega)] at h
          cases h
      · rw [readU32_error _ _ (by omega)] at h
        cases h
    · rw [readU32_error _ _ (by omega)] at h
      cases h

/-- A pair that passed the 32-bit test of `getTextRange` contains the entry point as
unbounded integers, has a size of at least 1 and an end that did not wrap. -/
theorem range_of_test (start size entry : Nat) (hs : start < 2 ^ 32) (hz : size < 2 ^ 32)
    (h : start ≤ entry ∧ entry < (start + size) % 2 ^ 32) :
    start ≤ entry ∧ entry - start < size ∧ entry < start + size ∧ 1 ≤ size ∧
      start + size < 2 ^ 32 := by
  obtain ⟨h1, h2⟩ := h
  have hlt : start + size < 2 ^ 32 := by
    by_contra hge
    have : (start + size) % 2 ^ 32 = start + size - 2 ^ 32 := by
      norm_num at hs hz hge ⊢
      omega
    rw [this] at h2
    norm_num at hs hz hge h2
    omega
  rw [Nat.mod_eq_of_lt hlt] at h2
  exact ⟨h1, by omega, h2, by omega, hlt⟩

/-- C27: `getTextRange` is sound under the 32-bit wraparound of `p_vaddr + p_memsz`.
Whenever it returns, the result is either `(0, 0)` after every program header failed the
test, or the pair `(base, size)` of a program header with `base <= e_entry` and
`e_entry - base < size` as unbounded integers, so `size >= 1`, `base + size` did not
overflow 32 bits and the pair is not `(0, 0)`: the result `(0, 0)` is never the pair of a
matching header. -/
theorem getTextRange_sound (self : ElfObject) (r : Nat × Nat)
    (h : self.getTextRange = Except.ok r) :
    (r = (0, 0) ∧
      ∀ base phnum, self.proghead = some base → e_phnum self.data = Except.ok phnum →
        ∀ i, i < phnum →
          ¬ (p_vaddr self.data base i ≤ u32At self.data 24 ∧
            u32At self.data 24
              < (p_vaddr self.data base i + p_memsz self.data base i) % 2 ^ 32)) ∨
    (∃ base phnum entry i, self.proghead = some base ∧
      e_phnum self.data = Except.ok phnum ∧ e_entry self.data = Except.ok entry ∧
      i < phnum ∧ r = (p_vaddr self.data base i, p_memsz self.data base i) ∧
      r.1 ≤ entry ∧ entry - r.1 < r.2 ∧ entry < r.1 + r.2 ∧ 1 ≤ r.2 ∧
      r.1 + r.2 < 2 ^ 32 ∧ r ≠ (0, 0)) := by
  obtain ⟨data, ph, sh⟩ := self
  simp only [getTextRange, e_phnum, bind, Except.bind] at h
  by_cases hb : 44 + 2 ≤ data.length
  · rw [readU16_ok data 44 hb] at h
    simp only at h
    cases ph with
    | none =>
      rw [getTextRangeLoop_null] at h
      split_ifs at h with hz
      · injection h with h
        refine Or.inl ⟨h.symm, ?_⟩
        intro base phnum hbase
        cases hbase
    | some base =>
      rcases getTextRangeLoop_ok_inv data base sh _ 0 r h with
        ⟨hr, hnone⟩ | ⟨k, -, hk2, hk3, hk4, hk5⟩
      · refine Or.inl ⟨hr, ?_⟩
        intro base' phnum hbase hphnum i hi
        simp only [Option.some.injEq] at hbase
        subst hbase
        simp only [e_phnum, readU16_ok data 44 hb, Except.ok.injEq] at hphnum
        subst hphnum
        exact hnone i (Nat.zero_le i) (by omega)
      · obtain ⟨g1, g2, g3, g4, g5⟩ := range_of_test _ _ _ (u32At_lt data _)
          (u32At_lt data _) hk4
        refine Or.inr ⟨base, u16At data 44, u32At data 24, k, rfl, ?_, ?_, by omega, hk5,
          ?_, ?_, ?_, ?_, ?_, ?_⟩
        · simp only [e_phnum, readU16_ok data 44 hb]
        · simp only [e_entry, readU32_ok data 24 hk3]
        · rw [hk5]; exact g1
        · rw [hk5]; exact g2
        · rw [hk5]; exact g3
        · rw [hk5]; exact g4
        · rw [hk5]; exact g5
        · rw [hk5]
          intro hz
          have := congrArg Prod.snd hz
          simp only at this
          omega
  · rw [readU16] at h
    rw [if_neg hb] at h
    cases h

/-- Witness of C27: on the image of section 8 the returned pair `(0x00100000, 0x2000)`
contains the entry point `0x00101000`. -/
theorem getTextRange_sound_witness :
    getTextRange ⟨Fixture.entryInsideSegment, some 52, none⟩
      = Except.ok (0x00100000, 0x2000) ∧
    ∃ base phnum entry i,
      (⟨Fixture.entryInsideSegment, some 52, none⟩ : ElfObject).proghead = some base ∧
      e_phnum Fixture.entryInsideSegment = Except.ok phnum ∧
      e_entry Fixture.entryInsideSegment = Except.ok entry ∧ i < phnum ∧
      (0x00100000, 0x2000)
        = (p_vaddr Fixture.entryInsideSegment base i, p_memsz Fixture.entryInsideSegment base i) ∧
      0x00100000 ≤ entry ∧ entry - 0x00100000 < 0x2000 := by
  refine ⟨rfl, ?_⟩
  rcases getTextRange_sound ⟨Fixture.entryInsideSegment, some 52, none⟩ (0x00100000, 0x2000)
    rfl with ⟨hz, -⟩ | ⟨base, phnum, entry, i, h1, h2, h3, h4, h5, h6, h7, -⟩
  · exact absurd (congrArg Prod.snd hz) (by decide)
  · exact ⟨base, phnum, entry, i, h1, h2, h3, h4, h5, h6, h7⟩

/-! ## The loads of `initElfHeaders` -/

/-- C28: for every buffer accepted by `checkElfSize`, the buffer is strictly longer than
`sizeof(ELF_HEADER)`, so every header field that `initElfHeaders(false)` loads lies
inside the buffer and the call returns; a program-header (section-header) view is
installed only at the offset `e_phoff` (`e_shoff`) whose first full entry lies inside the
buffer, the sum `e_phoff + sizeof(ELF_PHR)` being formed in the 64-bit `size_t` without
wrapping. -/
theorem initElfHeaders_reads_inside (data : List Nat)
    (hsize : (checkElfSize (data.length : Int) none).1 = true) :
    sizeof_ELF_HEADER < data.length ∧
    (e_type data = Except.ok (u16At data 16) ∧ e_machine data = Except.ok (u16At data 18) ∧
      e_phoff data = Except.ok (u32At data 28) ∧ e_shoff data = Except.ok (u32At data 32) ∧
      e_phentsize data = Except.ok (u16At data 42) ∧
      e_phnum data = Except.ok (u16At data 44) ∧
      e_shentsize data = Except.ok (u16At data 46) ∧
      e_shnum data = Except.ok (u16At data 48)) ∧
    ∃ obj, (withBuffer data).initElfHeaders false = Except.ok obj ∧
      (∀ base, obj.proghead = some base →
        e_phoff data = Except.ok base ∧ base + sizeof_ELF_PHR ≤ data.length ∧
        (base + sizeof_ELF_PHR) % 2 ^ 64 = base + sizeof_ELF_PHR) ∧
      (∀ base, obj.secthead = some base →
        e_shoff data = Except.ok base ∧ base + sizeof_ELF_SHR ≤ data.length ∧
        (base + sizeof_ELF_SHR) % 2 ^ 64 = base + sizeof_ELF_SHR) := by
  have hlen := ((checkElfSize_length_iff data.length none).mp hsize).1
  have hhdr : sizeof_ELF_HEADER ≤ data.length := le_of_lt hlen
  have h52 : 52 < data.length := hlen
  have hp := u32At_lt data 28
  have hs := u32At_lt data 32
  refine ⟨hlen, ⟨readU16_ok data 16 (by omega), readU16_ok data 18 (by omega),
    readU32_ok data 28 (by omega), readU32_ok data 32 (by omega),
    readU16_ok data 42 (by omega), readU16_ok data 44 (by omega),
    readU16_ok data 46 (by omega), readU16_ok data 48 (by omega)⟩,
    _, initElfHeaders_withBuffer data hhdr, ?_, ?_⟩
  · intro base hbase
    simp only at hbase
    split_ifs at hbase with hc
    injection hbase with hbase
    subst hbase
    refine ⟨readU32_ok data 28 (by omega), hc.2, ?_⟩
    apply Nat.mod_eq_of_lt
    simp only [sizeof_ELF_PHR]
    norm_num at hp ⊢
    omega
  · intro base hbase
    simp only at hbase
    split_ifs at hbase with hc
    injection hbase with hbase
    subst hbase
    refine ⟨readU32_ok data 32 (by omega), hc.2, ?_⟩
    apply Nat.mod_eq_of_lt
    simp only [sizeof_ELF_SHR]
    norm_num at hs ⊢
    omega

/-- Witness of C28: the image whose program-header offset `0xffffffff` is rejected (the
sum `0xffffffff + 32` does not wrap to a small value) and whose section-header table at
offset 52 is accepted. -/
theorem initElfHeaders_reads_inside_witness :
    (checkElfSize (Fixture.sectionsOnly.length : Int) none).1 = true ∧
    (withBuffer Fixture.sectionsOnly).initElfHeaders false
      = Except.ok ⟨Fixture.sectionsOnly, none, some 52⟩ ∧
    e_phoff Fixture.sectionsOnly = Except.ok 0xffffffff ∧
    sizeof_ELF_HEADER < Fixture.sectionsOnly.length ∧
    52 + sizeof_ELF_SHR ≤ Fixture.sectionsOnly.length := by
  have h := initElfHeaders_reads_inside Fixture.sectionsOnly (by decide)
  obtain ⟨h1, -, obj, hobj, -, hs⟩ := h
  have hobj' : (withBuffer Fixture.sectionsOnly).initElfHeaders false
      = Except.ok ⟨Fixture.sectionsOnly, none, some 52⟩ := rfl
  rw [hobj'] at hobj
  injection hobj with hobj
  subst hobj
  exact ⟨by decide, hobj', rfl, h1, (hs 52 rfl).2.1⟩

end ElfObject

/-! ## The accessor macros of `Memory.h` -/

theorem Region.size_eq (r : Region) : r.size = r.mask + 1 := by
  cases r <;> rfl

/-- Masking with the mask of a region is the remainder modulo the size of the region. -/
theorem Region.and_mask (r : Region) (a : Nat) : a &&& r.mask = a % r.size := by
  cases r
  · exact Nat.and_pow_two_sub_one_eq_mod a 16
  · exact Nat.and_pow_two_sub_one_eq_mod a 25
  · exact Nat.and_pow_two_sub_one_eq_mod a 22
  · exact Nat.and_pow_two_sub_one_eq_mod a 22
  · exact Nat.and_pow_two_sub_one_eq_mod a 19
  · exact Nat.and_pow_two_sub_one_eq_mod a 14

/-- C22: for each accessor family with its mask `m` (hardware window `0xFFFF`, main RAM
`0x1FFFFFF`, ROM and ROM1 `0x3FFFFF`, ROM2 `0x7FFFF`, scratchpad `0x3FFF`), whose region
has the size `m + 1`, and for every address `a`: masking is idempotent, and `a` and
`a + size` computed modulo `2^32` resolve to the same offset. -/
theorem mask_idempotent_and_aliasing (r : Region) (a : Nat) :
    r.size = r.mask + 1 ∧
    (a &&& r.mask) &&& r.mask = a &&& r.mask ∧
    ((a + (r.mask + 1)) % 2 ^ 32) &&& r.mask = a &&& r.mask := by
  refine ⟨Region.size_eq r, ?_, ?_⟩
  · rw [Region.and_mask, Region.and_mask]
    exact Nat.mod_mod _ _
  · rw [← Region.size_eq, Region.and_mask, Region.and_mask]
    cases r <;> simp only [Region.size] <;> omega

/-- The widths of the accessor macros are 1, 2, 4, 8 and 16 bytes. -/
theorem accessorMacros_width :
    ∀ x ∈ accessorMacros,
      x.2.width = 1 ∨ x.2.width = 2 ∨ x.2.width = 4 ∨ x.2.width = 8 ∨ x.2.width = 16 := by
  decide

/-- C23, counterexample: the macro `psHu32` at the address `0xFFFF` enters `eeHw` at the
offset `0xFFFF` and reads four bytes, three of them past the 64 KiB of the region. -/
theorem accessor_reaches_past_region :
    (("psHu32", ⟨Region.Hw, 4⟩) : String × Accessor) ∈ accessorMacros ∧
    (0xFFFF : Nat) < 2 ^ 32 ∧
    Accessor.offset ⟨Region.Hw, 4⟩ 0xFFFF = 0xFFFF ∧
    Region.size Region.Hw = 0x10000 ∧
    ¬ (Accessor.offset ⟨Region.Hw, 4⟩ 0xFFFF + 4 ≤ Region.mask Region.Hw + 1) := by
  decide

/-- C23, amended: for every accessor macro and every address `a`, the access starts
inside the region, `(a & mask) < size`, and so ends at most `w - 1` bytes past it; the
accessed range stays inside the region, `(a & mask) + w <= size`, for the one-byte macros,
and for a wider macro exactly when `a & mask <= size - w`. -/
theorem accessor_range (name : String) (acc : Accessor)
    (hmem : (name, acc) ∈ accessorMacros) (a : Nat) :
    acc.offset a < acc.region.size ∧
    acc.offset a + acc.width ≤ acc.region.size + (acc.width - 1) ∧
    (acc.width = 1 → acc.offset a + acc.width ≤ acc.region.size) ∧
    (acc.offset a + acc.width ≤ acc.region.size ↔
      acc.offset a ≤ acc.region.size - acc.width) := by
  have hw := accessorMacros_width (name, acc) hmem
  simp only at hw
  have hpos : 0 < acc.region.size := by rw [Region.size_eq]; omega
  have hlt : acc.offset a < acc.region.size := by
    rw [Accessor.offset, Region.and_mask]
    exact Nat.mod_lt _ hpos
  have hsz : 16 ≤ acc.region.size := by cases acc.region <;> decide
  refine ⟨hlt, by omega, fun h1 => by omega, ?_⟩
  constructor <;> intro h <;> omega

/-- Witness of C23: the macro `psSu64` at an address that is not a multiple of 8. -/
theorem accessor_range_witness :
    (("psSu64", ⟨Region.Scratch, 8⟩) : String × Accessor) ∈ accessorMacros ∧
    Accessor.offset ⟨Region.Scratch, 8⟩ 0x70003FFB < Region.size Region.Scratch ∧
    Accessor.offset ⟨Region.Scratch, 8⟩ 0x70003FFB + 8 ≤ Region.size Region.Scratch + (8 - 1) :=
  ⟨by decide,
    (accessor_range "psSu64" ⟨Region.Scratch, 8⟩ (by decide) 0x70003FFB).1,
    (accessor_range "psSu64" ⟨Region.Scratch, 8⟩ (by decide) 0x70003FFB).2.1⟩

/-- C29: for every region mask `m`, every width `w` among 1, 2, 4, 8 and 16 and every
address `a` that is a multiple of `w`, the masked offset `a & m` is again a multiple of
`w` and `(a & m) + w <= m + 1`: a naturally aligned access does not extend past the end
of the region. -/
theorem aligned_access_inside (r : Region) (w a : Nat)
    (hw : w = 1 ∨ w = 2 ∨ w = 4 ∨ w = 8 ∨ w = 16) (ha : a % w = 0) :
    (a &&& r.mask) % w = 0 ∧ (a &&& r.mask) + w ≤ r.mask + 1 := by
  rw [← Region.size_eq, Region.and_mask]
  rcases hw with rfl | rfl | rfl | rfl | rfl <;> cases r <;> simp only [Region.size] <;> omega

/-- Witness of C29: a quadword access to the scratchpad at its last aligned address. -/
theorem aligned_access_inside_witness :
    (0x70003FF0 : Nat) % 16 = 0 ∧
    (0x70003FF0 &&& Region.mask Region.Scratch) % 16 = 0 ∧
    (0x70003FF0 &&& Region.mask Region.Scratch) + 16 ≤ Region.mask Region.Scratch + 1 :=
  ⟨by decide, aligned_access_inside Region.Scratch 16 0x70003FF0
    (Or.inr (Or.inr (Or.inr (Or.inr rfl)))) (by decide)⟩

/-- The argument of `PSM` is the remainder modulo `2^29`. -/
theorem PSMArg_eq_mod (a : Nat) : PSMArg a = a % 2 ^ 29 :=
  Nat.and_pow_two_sub_one_eq_mod a 29

/-- C25: for every address `a` and every region lookup, `PSM(a)` is the lookup applied to
`a & 0x1FFFFFFF`; the value passed is below `2^29`, and two addresses that differ only
above bit 28 (such as `a`, `a | 0x80000000` and `a | 0xA0000000`) are resolved through the
same physical address, whatever the lookup does. -/
theorem PSM_physical_address (a : Nat) :
    (∀ (α : Type) (lookup : Nat → α), PSM lookup a = lookup (a &&& 0x1FFFFFFF)) ∧
    PSM id a = a &&& 0x1FFFFFFF ∧ PSM id a < 2 ^ 29 ∧
    PSMArg a = a &&& 0x1FFFFFFF ∧ PSMArg a < 2 ^ 29 ∧
    (∀ b, a % 2 ^ 29 = b % 2 ^ 29 →
      PSMArg a = PSMArg b ∧ ∀ (α : Type) (lookup : Nat → α), PSM lookup a = PSM lookup b) ∧
    (∀ (α : Type) (lookup : Nat → α),
      PSM lookup (a ||| 0x80000000) = PSM lookup a ∧
      PSM lookup (a ||| 0xA0000000) = PSM lookup a ∧
      PSM lookup (a ||| 0x80000000) = lookup (a &&& 0x1FFFFFFF) ∧
      PSM lookup (a ||| 0xA0000000) = lookup (a &&& 0x1FFFFFFF)) ∧
    PSMArg (a ||| 0x80000000) = PSMArg a ∧ PSMArg (a ||| 0xA0000000) = PSMArg a := by
  have hlt : PSMArg a < 2 ^ 29 := by
    rw [PSMArg_eq_mod]
    exact Nat.mod_lt _ (by norm_num)
  have h8 : PSMArg (a ||| 0x80000000) = PSMArg a := by
    have h : (0x80000000 : Nat) &&& 0x1fffffff = 0 := by decide
    rw [PSMArg, PSMArg, Nat.and_distrib_right, h, Nat.or_zero]
  have hA : PSMArg (a ||| 0xA0000000) = PSMArg a := by
    have h : (0xA0000000 : Nat) &&& 0x1fffffff = 0 := by decide
    rw [PSMArg, PSMArg, Nat.and_distrib_right, h, Nat.or_zero]
  refine ⟨fun α lookup => rfl, rfl, hlt, rfl, hlt, ?_, ?_, h8, hA⟩
  · intro b h
    have hab : PSMArg a = PSMArg b := by rw [PSMArg_eq_mod, PSMArg_eq_mod, h]
    exact ⟨hab, fun α lookup => by simp only [PSM, hab]⟩
  · intro α lookup
    refine ⟨?_, ?_, ?_, ?_⟩
    · simp only [PSM, h8]
    · simp only [PSM, hA]
    · simp only [PSM, h8]; rfl
    · simp only [PSM, hA]; rfl

/-- Witness of C25: the addresses `0x00100000` and `0xA0100000`; a lookup that returns its
argument shows the value `PSM` passes on. -/
theorem PSM_physical_address_witness :
    (0x00100000 : Nat) % 2 ^ 29 = 0xA0100000 % 2 ^ 29 ∧
    PSMArg 0x00100000 = PSMArg 0xA0100000 ∧ PSMArg 0xA0100000 = 0x00100000 ∧
    PSM id 0xA0100000 = 0x00100000 ∧ PSM id 0x00100000 = 0x00100000 :=
  ⟨by decide, ((PSM_physical_address 0x00100000).2.2.2.2.2.1 0xA0100000 (by decide)).1,
    by decide, by decide, by decide⟩

/-! ## The static helpers of `Error` -/

/-- C26, evaluated on the code: the static `Error::SetSocket(errptr, ...)` has an empty
body, so on a non-null pointer to a default-constructed `Error` it leaves the object with
the type `None` and empty strings, where the member `SetSocket` gives the type `Socket`,
the errno description and the message. The other three static helpers do leave the
object in the state of their member setter, and all four do nothing on a null pointer. -/
theorem static_SetSocket_does_nothing :
    Error.Static.SetSocket (some {}) (fun _ => some "Connection refused") 111 "connect"
      = some {} ∧
    Error.SetSocket {} (fun _ => some "Connection refused") 111 "connect"
      = ⟨ErrorType.Socket, "errno 111: Connection refused", "connect"⟩ ∧
    Error.Static.SetSocket (some {}) (fun _ => some "Connection refused") 111 "connect"
      ≠ some (Error.SetSocket {} (fun _ => some "Connection refused") 111 "connect") ∧
    (∀ (e : Error) (strerror : Int → Option String) (err : Int) (message : String),
      Error.Static.SetErrno (some e) strerror err message
        = some (e.SetErrno strerror err message) ∧
      Error.Static.SetErrno none strerror err message = none ∧
      Error.Static.SetSocket none strerror err message = none) ∧
    (∀ (e : Error) (code : Int) (description message : String),
      Error.Static.SetUserCode (some e) code message = some (e.SetUserCode code message) ∧
      Error.Static.SetUserCode none code message = none ∧
      Error.Static.SetUser (some e) description message
        = some (e.SetUser description message) ∧
      Error.Static.SetUser none description message = none) := by
  refine ⟨rfl, by decide, by decide, ?_, ?_⟩
  · intro e strerror err message
    exact ⟨rfl, rfl, rfl⟩
  · intro e code description message
    exact ⟨rfl, rfl, rfl, rfl⟩

/-! ## `CopyQWC` and `ZeroQWC` -/

theorem length_loadBytes (mem : HostMemory) (addr n : Nat) :
    (loadBytes mem addr n).length = n := by
  simp [loadBytes]

theorem getD_loadBytes (mem : HostMemory) (addr n j : Nat) (h : j < n) :
    (loadBytes mem addr n).getD j 0 = mem (addr + j) % 256 := by
  simp [loadBytes, List.getD_eq_getElem?_getD, List.getElem?_map, List.getElem?_range, h]

/-- A store of the bytes loaded from `src`, address by address. -/
theorem storeBytes_loadBytes (mem mem' : HostMemory) (addr src n a : Nat) :
    storeBytes mem addr (loadBytes mem' src n) a
      = if addr ≤ a ∧ a < addr + n then mem' (src + (a - addr)) % 256 else mem a := by
  unfold storeBytes
  rw [length_loadBytes]
  by_cases h : addr ≤ a ∧ a < addr + n
  · rw [if_pos h, if_pos h, getD_loadBytes _ _ _ _ (by omega)]
  · rw [if_neg h, if_neg h]

/-- A store of zero bytes, address by address. -/
theorem storeBytes_zero (mem : HostMemory) (addr n a : Nat) :
    storeBytes mem addr (List.replicate n 0) a
      = if addr ≤ a ∧ a < addr + n then 0 else mem a := by
  unfold storeBytes
  rw [List.length_replicate]
  by_cases h : addr ≤ a ∧ a < addr + n
  · rw [if_pos h, if_pos h]
    simp only [List.getD_eq_getElem?_getD, List.getElem?_replicate]
    split_ifs <;> rfl
  · rw [if_neg h, if_neg h]

/-- One word copy extends by four bytes a copy of the first `c` bytes, provided the word
read does not overlap the bytes already written. -/
theorem copyWord_step (mem cur : HostMemory) (dest src c : Nat)
    (hcur : ∀ a, cur a
      = if dest ≤ a ∧ a < dest + c then mem (src + (a - dest)) % 256 else mem a)
    (hdisj : ∀ j, j < 4 → ¬ (dest ≤ src + c + j ∧ src + c + j < dest + c)) :
    ∀ a, copyWord cur (dest + c) (src + c) a
      = if dest ≤ a ∧ a < dest + (c + 4) then mem (src + (a - dest)) % 256 else mem a := by
  intro a
  rw [copyWord, storeBytes_loadBytes]
  by_cases h : dest + c ≤ a ∧ a < dest + c + 4
  · rw [if_pos h, if_pos (by omega), hcur,
      if_neg (by
        have := hdisj (a - (dest + c)) (by omega)
        rw [show src + c + (a - (dest + c)) = src + c + (a - (dest + c)) from rfl] at this
        exact this)]
    rw [show src + c + (a - (dest + c)) = src + (a - dest) by omega]
  · rw [if_neg h, hcur]
    by_cases h2 : dest ≤ a ∧ a < dest + c
    · rw [if_pos h2, if_pos (by omega)]
    · rw [if_neg h2, if_neg (by omega)]

/-- Four sequential word copies between 16-byte aligned locations, address by address. -/
theorem copyFourWords_apply (mem : HostMemory) (dest src : Nat)
    (hd : dest % 16 = 0) (hs : src % 16 = 0) (a : Nat) :
    copyFourWords mem dest src a
      = if dest ≤ a ∧ a < dest + 16 then mem (src + (a - dest)) % 256 else mem a := by
  have h0 : ∀ a, mem a
      = if dest ≤ a ∧ a < dest + 0 then mem (src + (a - dest)) % 256 else mem a := by
    intro a
    rw [if_neg (by omega)]
  have h1 := copyWord_step mem mem dest src 0 h0 (fun j hj => by omega)
  have h2 := copyWord_step mem _ dest src 4 h1 (fun j hj => by omega)
  have h3 := copyWord_step mem _ dest src 8 h2 (fun j hj => by omega)
  have h4 := copyWord_step mem _ dest src 12 h3 (fun j hj => by omega)
  exact h4 a

/-- Four sequential zero stores, address by address. -/
theorem zeroFourWords_apply (mem : HostMemory) (dest a : Nat) :
    zeroFourWords mem dest a = if dest ≤ a ∧ a < dest + 16 then 0 else mem a := by
  simp only [zeroFourWords, zeroWord, storeBytes_zero]
  split_ifs <;> first | rfl | omega

/-- C24, counterexample: with the destination at the host address 1 (byte alignment 1)
and the source at the address 16, the aligned store of `CopyQWC` faults and no memory
state results, and `ZeroQWC` at the address 1 faults as well, whereas four word copies or
zero stores are defined there. -/
theorem CopyQWC_faults_when_unaligned :
    (1 : Nat) % 16 = 1 ∧
    CopyQWC (fun a => a % 256) 1 16 = Except.error (Fault.misaligned 1) ∧
    ZeroQWC (fun a => a % 256) 1 = Except.error (Fault.misaligned 1) ∧
    (∀ mem' : HostMemory, CopyQWC (fun a => a % 256) 1 16 ≠ Except.ok mem') ∧
    (∀ mem' : HostMemory, ZeroQWC (fun a => a % 256) 1 ≠ Except.ok mem') ∧
    copyFourWords (fun a => a % 256) 1 16 1 = 16 ∧
    zeroFourWords (fun a => a % 256) 1 1 = 0 := by
  have h1 : CopyQWC (fun a => a % 256) 1 16 = Except.error (Fault.misaligned 1) := rfl
  have h2 : ZeroQWC (fun a => a % 256) 1 = Except.error (Fault.misaligned 1) := rfl
  refine ⟨rfl, h1, h2, ?_, ?_, rfl, rfl⟩
  · intro mem' h
    rw [h1] at h
    cases h
  · intro mem' h
    rw [h2] at h
    cases h

/-- C24, amended: for every memory state and every destination and source location that
are multiples of 16 (byte alignment 0), `CopyQWC(dest, src)` returns and leaves memory
byte-identical to four sequential 32-bit word copies from `src` to `dest`, and
`ZeroQWC(dest)` returns and leaves memory byte-identical to four sequential 32-bit zero
stores; the bytes outside the 16-byte destination are unchanged. At every byte alignment
from 1 to 15 the aligned load or store faults: `CopyQWC` returns exactly when both
locations are multiples of 16 and `ZeroQWC` exactly when the destination is, whatever the
memory holds. -/
theorem CopyQWC_refines_four_words (mem : HostMemory) (dest src : Nat) :
    (dest % 16 = 0 → src % 16 = 0 →
      CopyQWC mem dest src = Except.ok (copyFourWords mem dest src) ∧
      ∀ a, a < dest ∨ dest + 16 ≤ a → copyFourWords mem dest src a = mem a) ∧
    (dest % 16 = 0 →
      ZeroQWC mem dest = Except.ok (zeroFourWords mem dest) ∧
      ∀ a, a < dest ∨ dest + 16 ≤ a → zeroFourWords mem dest a = mem a) ∧
    (src % 16 ≠ 0 → CopyQWC mem dest src = Except.error (Fault.misaligned src)) ∧
    (src % 16 = 0 → dest % 16 ≠ 0 →
      CopyQWC mem dest src = Except.error (Fault.misaligned dest)) ∧
    (dest % 16 ≠ 0 → ZeroQWC mem dest = Except.error (Fault.misaligned dest)) ∧
    ((∃ mem', CopyQWC mem dest src = Except.ok mem') ↔ dest % 16 = 0 ∧ src % 16 = 0) ∧
    ((∃ mem', ZeroQWC mem dest = Except.ok mem') ↔ dest % 16 = 0) := by
  have hcopy : dest % 16 = 0 → src % 16 = 0 →
      CopyQWC mem dest src = Except.ok (copyFourWords mem dest src) := by
    intro hd hs
    simp only [CopyQWC, _mm_load_ps, _mm_store_ps, hd, hs, if_true, bind, Except.bind]
    congr 1
    funext a
    rw [storeBytes_loadBytes, copyFourWords_apply mem dest src hd hs]
  have hzero : dest % 16 = 0 → ZeroQWC mem dest = Except.ok (zeroFourWords mem dest) := by
    intro hd
    simp only [ZeroQWC, _mm_store_ps, _mm_setzero_ps, hd, if_true]
    congr 1
    funext a
    rw [storeBytes_zero, zeroFourWords_apply]
  have hsrc : src % 16 ≠ 0 → CopyQWC mem dest src = Except.error (Fault.misaligned src) := by
    intro hs
    simp only [CopyQWC, _mm_load_ps, if_neg hs, bind, Except.bind]
  have hdest : src % 16 = 0 → dest % 16 ≠ 0 →
      CopyQWC mem dest src = Except.error (Fault.misaligned dest) := by
    intro hs hd
    simp only [CopyQWC, _mm_load_ps, _mm_store_ps, if_pos hs, if_neg hd, bind, Except.bind]
  have hz : dest % 16 ≠ 0 → ZeroQWC mem dest = Except.error (Fault.misaligned dest) := by
    intro hd
    simp only [ZeroQWC, _mm_store_ps, if_neg hd]
  refine ⟨fun hd hs => ⟨hcopy hd hs, fun a ha => ?_⟩, fun hd => ⟨hzero hd, fun a ha => ?_⟩,
    hsrc, hdest, hz, ⟨?_, fun h => ⟨_, hcopy h.1 h.2⟩⟩, ⟨?_, fun h => ⟨_, hzero h⟩⟩⟩
  · rw [copyFourWords_apply mem dest src hd hs, if_neg (by omega)]
  · rw [zeroFourWords_apply, if_neg (by omega)]
  · rintro ⟨mem', h⟩
    by_cases hs : src % 16 = 0
    · by_cases hd : dest % 16 = 0
      · exact ⟨hd, hs⟩
      · rw [hdest hs hd] at h; cases h
    · rw [hsrc hs] at h; cases h
  · rintro ⟨mem', h⟩
    by_cases hd : dest % 16 = 0
    · exact hd
    · rw [hz hd] at h; cases h

/-- Witness of C24: a copy from the address 32 to the address 16; the byte at the address
21 becomes the byte at 37, and the byte at 15 is unchanged. With the source at the address
35 (byte alignment 3) the load faults. -/
theorem CopyQWC_refines_four_words_witness :
    (16 : Nat) % 16 = 0 ∧ (32 : Nat) % 16 = 0 ∧
    CopyQWC (fun a => a % 256) 16 32 = Except.ok (copyFourWords (fun a => a % 256) 16 32) ∧
    copyFourWords (fun a => a % 256) 16 32 21 = 37 ∧
    copyFourWords (fun a => a % 256) 16 32 15 = 15 ∧
    (35 : Nat) % 16 ≠ 0 ∧
    CopyQWC (fun a => a % 256) 16 35 = Except.error (Fault.misaligned 35) :=
  ⟨rfl, rfl, ((CopyQWC_refines_four_words (fun a => a % 256) 16 32).1 rfl rfl).1, rfl, rfl,
    by decide, rfl⟩

/-! ## `GetPS2ElfName`: the empty value at the end of the file -/

/-- C31: a parsed line with the key `BOOT2` or `BOOT` and an empty value that is read
when the read position equals the file length is not skipped: the loop body sets the
classification (2 or 1) and sets `name` to the empty string, and when it is the last line
`GetPS2ElfName` returns that classification with an empty `name`: a non-zero
classification does not imply a non-empty boot path. -/
theorem GetPS2ElfName_empty_boot_value_at_end :
    (∀ st : Int × String, cnfStep st ⟨some ("BOOT2", ""), true⟩ = (2, "") ∧
      cnfStep st ⟨some ("BOOT", ""), true⟩ = (1, "")) ∧
    (∀ (f : CnfFile) (name : String) (pre : List CnfLine), f.getLength ≠ 0 →
      (f.lines = pre ++ [⟨some ("BOOT2", ""), true⟩] →
        GetPS2ElfName (some f) name = (2, "")) ∧
      (f.lines = pre ++ [⟨some ("BOOT", ""), true⟩] →
        GetPS2ElfName (some f) name = (1, ""))) := by
  have hstep : ∀ st : Int × String, cnfStep st ⟨some ("BOOT2", ""), true⟩ = (2, "") ∧
      cnfStep st ⟨some ("BOOT", ""), true⟩ = (1, "") := by
    intro st
    constructor
    · simp [cnfStep]
    · simp only [cnfStep]
      rw [if_neg (by decide), if_neg (by decide), if_pos trivial]
  refine ⟨hstep, ?_⟩
  intro f name pre hlen
  constructor
  · intro hl
    rw [GetPS2ElfName_opened f name hlen, hl, List.foldl_append, List.foldl_cons,
      List.foldl_nil, (hstep _).1]
    simp
  · intro hl
    rw [GetPS2ElfName_opened f name hlen, hl, List.foldl_append, List.foldl_cons,
      List.foldl_nil, (hstep _).2]
    simp

/-- Witness of C31: a file whose last line is `BOOT2 =` with nothing after the sign. -/
theorem GetPS2ElfName_empty_boot_value_at_end_witness :
    CnfFile.getLength ⟨19, [⟨some ("VER", "1.00"), false⟩, ⟨some ("BOOT2", ""), true⟩]⟩ ≠ 0 ∧
    GetPS2ElfName (some ⟨19, [⟨some ("VER", "1.00"), false⟩, ⟨some ("BOOT2", ""), true⟩]⟩)
      "old" = (2, "") :=
  ⟨by decide,
    ((GetPS2ElfName_empty_boot_value_at_end.2
      ⟨19, [⟨some ("VER", "1.00"), false⟩, ⟨some ("BOOT2", ""), true⟩]⟩ "old"
      [⟨some ("VER", "1.00"), false⟩] (by decide)).1 rfl)⟩

/-! ## `LogWindow::appendMessage` -/

/-- C32, evaluated on the code: for the color 21, the number of entries of
`color_mapping`, and for every larger color such as `0xFFFFFFFF`, the index
`std::min(color, size)` is the size itself, one past the last entry of the table; for
every size of the table, the color equal to the size gives the size as index. -/
theorem colorIndex_one_past_the_table :
    color_mapping.length = 21 ∧
    colorIndex color_mapping.length 21 = 21 ∧
    colorIndex color_mapping.length 0xFFFFFFFF = 21 ∧
    ¬ (colorIndex color_mapping.length 21 < color_mapping.length) ∧
    color_mapping[colorIndex color_mapping.length 21]? = none ∧
    colorIndex color_mapping.length 20 = 20 ∧
    (∀ count, colorIndex count count = count % 2 ^ 32) := by
  refine ⟨rfl, by decide, by decide, by decide, by decide, by decide, ?_⟩
  intro count
  simp [colorIndex]

/-! ## `Error::Clear` -/

/-- C33: `Error::Clear` empties the description and the message and leaves the type
unchanged; after `SetUser` or `SetErrno` followed by `Clear`, `GetType()` is still `User`
or `Errno`, so the cleared object does not compare equal, by `operator==` (type and
message only), to a default-constructed or `CreateNone()` `Error`, and `operator!=`
holds. -/
theorem Error_Clear_keeps_type (e : Error) (description message : String)
    (strerror : Int → Option String) (err : Int) :
    e.Clear.GetType = e.GetType ∧ e.Clear.m_description = "" ∧ e.Clear.m_message = "" ∧
    (e.SetUser description message).Clear.GetType = ErrorType.User ∧
    (e.SetErrno strerror err message).Clear.GetType = ErrorType.Errno ∧
    (e.SetUser description message).Clear.operator_eq Error.CreateNone = false ∧
    (e.SetErrno strerror err message).Clear.operator_eq Error.CreateNone = false ∧
    (e.SetUser description message).Clear.operator_eq {} = false ∧
    (e.SetErrno strerror err message).Clear.operator_eq {} = false ∧
    (e.SetUser description message).Clear.operator_ne Error.CreateNone = true ∧
    (e.SetErrno strerror err message).Clear.operator_ne Error.CreateNone = true ∧
    Error.CreateNone.GetType = ErrorType.None :=
  ⟨rfl, rfl, rfl, rfl, rfl, by simp [Error.operator_eq, Error.Clear, Error.SetUser,
      Error.CreateNone],
    by simp [Error.operator_eq, Error.Clear, Error.SetErrno, Error.CreateNone],
    by simp [Error.operator_eq, Error.Clear, Error.SetUser],
    by simp [Error.operator_eq, Error.Clear, Error.SetErrno],
    by simp [Error.operator_ne, Error.Clear, Error.SetUser, Error.CreateNone],
    by simp [Error.operator_ne, Error.Clear, Error.SetErrno, Error.CreateNone], rfl⟩

end Pcsx2
